import Mathlib

/-!
LD2450 radar hub: frame decoding and command queue.

A shallow embedding of `components/LD2450/LD2450.cpp`:

* the arithmetic of `process_message` (16-bit little-endian fields, the
  sign handling of `x` and `speed`, the offset of `y`),
* the distance gate applied to every target slot,
* `write_command`, the command stage of `loop()`, the header scan and the
  two frame readers of `loop()`, and `process_config_message`.

Bytes are natural numbers below 256; `int16_t` and `int` values are integers
with explicit wrap-around.  The UART is a pair of byte lists: `rx` holds the
bytes that `available()` counts, `tx` the bytes written so far.
-/

namespace LD2450

/-! ## Machine integers -/

/-- Conversion of an integer to `int16_t`: wrap-around modulo `2^16`. -/
def toInt16 (n : Int) : Int := (n + 32768) % 65536 - 32768

/-- Conversion of an integer to `int` (32 bits): wrap-around modulo `2^32`. -/
def toInt32 (n : Int) : Int := (n + 2147483648) % 4294967296 - 2147483648

/-- Conversion to `uint8_t`, as done by `static_cast<uint8_t>`. -/
def toUInt8 (n : Nat) : Nat := n % 256

/-- The expression `msg[hi] << 8 | msg[lo]` on two bytes. -/
def le16 (lo hi : Nat) : Nat := hi <<< 8 ||| lo

/-- Element `i` of a zero-initialised byte buffer (`uint8_t msg[n] = {0x00}`)
that `read_array` has filled from the front. -/
def byteAt (msg : List Nat) (i : Nat) : Nat := msg.getD i 0

/-! ## Field decoding in `process_message` -/

/-- Lines 182-184: `int16_t x = msg[1] << 8 | msg[0]; if (msg[1] & 0x80) x = -x + 0x8000;`. -/
def decode_x (lo hi : Nat) : Int :=
  let x := toInt16 (le16 lo hi)
  if hi &&& 0x80 ≠ 0 then toInt16 (-x + 0x8000) else x

/-- Lines 185-187: `int16_t y = msg[3] << 8 | msg[2]; if (y != 0) y -= 0x8000;`. -/
def decode_y (lo hi : Nat) : Int :=
  let y := toInt16 (le16 lo hi)
  if y ≠ 0 then toInt16 (y - 0x8000) else y

/-- Lines 188-190: `int speed = msg[5] << 8 | msg[4]; if (msg[5] & 0x80) speed = -speed + 0x8000;`. -/
def decode_speed (lo hi : Nat) : Int :=
  let speed := toInt32 (le16 lo hi)
  if hi &&& 0x80 ≠ 0 then toInt32 (-speed + 0x8000) else speed

/-- Line 191: `int distance_resolution = msg[7] << 8 | msg[6];`. -/
def decode_distance_resolution (lo hi : Nat) : Int := toInt32 (le16 lo hi)

/-- Line 194: `x = x * (flip_x_axis_ ? -1 : 1);` on an `int16_t`. -/
def flip_x (flip_x_axis_ : Bool) (x : Int) : Int :=
  toInt16 (x * (if flip_x_axis_ then -1 else 1))

/-- The four values decoded from one 8-byte target record. -/
structure Values where
  x : Int
  y : Int
  speed : Int
  distance_resolution : Int
deriving DecidableEq, Repr

/-- Lines 180-194 for the record that starts at `offset`. -/
def decode_record (flip_x_axis_ : Bool) (msg : List Nat) (offset : Nat) : Values :=
  { x := flip_x flip_x_axis_ (decode_x (byteAt msg (offset + 0)) (byteAt msg (offset + 1)))
    y := decode_y (byteAt msg (offset + 2)) (byteAt msg (offset + 3))
    speed := decode_speed (byteAt msg (offset + 4)) (byteAt msg (offset + 5))
    distance_resolution :=
      decode_distance_resolution (byteAt msg (offset + 6)) (byteAt msg (offset + 7)) }

/-! ## Targets -/

/-- The operations of the `Target` class that `process_message` calls.  The
class itself is declared outside `LD2450.cpp`; the decoder is written against
this interface. -/
structure TargetOps (T : Type) where
  update_values : T → Int → Int → Int → Int → T
  clear : T → T
  is_present : T → Bool

/-- Modelled from the spec: the `Target` data holder (its class is not part of
the sources).  It stores `x`, `y`, `speed`, `distance_resolution` and the
derived flag `present`. -/
structure Target where
  x : Int
  y : Int
  speed : Int
  distance_resolution : Int
  present : Bool
deriving DecidableEq, Repr

/-- Modelled from the spec: `Target::update_values` stores the four values;
the target is present afterwards unless the record is the all-zero payload. -/
def Target.update_values (_t : Target) (x y speed distance_resolution : Int) : Target :=
  { x := x, y := y, speed := speed, distance_resolution := distance_resolution
    present := !(x == 0 && y == 0 && speed == 0 && distance_resolution == 0) }

/-- Modelled from the spec: `Target::clear` marks the target absent and zeroes
its stored values. -/
def Target.clear (_t : Target) : Target :=
  { x := 0, y := 0, speed := 0, distance_resolution := 0, present := false }

/-- Modelled from the spec: `Target::is_present` reports the derived flag. -/
def Target.is_present (t : Target) : Bool := t.present

/-- Modelled from the spec: a target as `setup()` creates it with
`new Target()`, holding no data. -/
def Target.fresh : Target :=
  { x := 0, y := 0, speed := 0, distance_resolution := 0, present := false }

/-- Modelled from the spec: the operations of the modelled `Target`. -/
def targetOps : TargetOps Target :=
  { update_values := Target.update_values
    clear := Target.clear
    is_present := Target.is_present }

/-- A call made on a target object. -/
inductive Call where
  | update_values (x y speed distance_resolution : Int)
  | clear
deriving DecidableEq, Repr

/-- A target that records, oldest first, the calls made on it, on top of any
implementation of the target operations. -/
def recordingOps {T : Type} (ops : TargetOps T) : TargetOps (T × List Call) :=
  { update_values := fun t x y speed distance_resolution =>
      (ops.update_values t.1 x y speed distance_resolution,
        t.2 ++ [Call.update_values x y speed distance_resolution])
    clear := fun t => (ops.clear t.1, t.2 ++ [Call.clear])
    is_present := fun t => ops.is_present t.1 }

/-! ## The distance gate of `process_message` -/

/-- Lines 196-202 applied to `targets_[i]`: the update of line 196, then the
filter on the detection distance. -/
def gate_target {T : Type} (ops : TargetOps T) (max_detection_distance_ max_distance_margin_ : Int)
    (v : Values) (t : T) : T :=
  let t := ops.update_values t v.x v.y v.speed v.distance_resolution
  if v.y ≤ max_detection_distance_ ∨
      (ops.is_present t = true ∧ v.y ≤ max_detection_distance_ + max_distance_margin_) then
    ops.update_values t v.x v.y v.speed v.distance_resolution
  else if v.y ≥ max_detection_distance_ + max_distance_margin_ then
    ops.clear t
  else
    t

/-- Replace element `i` of a list by its image under `f` (the list is left
alone when it has no such element). -/
def modifyAt {α : Type} (f : α → α) : Nat → List α → List α
  | _, [] => []
  | 0, a :: l => f a :: l
  | i + 1, a :: l => a :: modifyAt f i l

/-- Lines 205-209: the number of targets for which `is_present()` holds. -/
def target_count {T : Type} (ops : TargetOps T) (targets_ : List T) : Nat :=
  (targets_.filter ops.is_present).length

/-! ## State of the hub -/

/-- The constants that `LD2450.cpp` takes from its header: the three command
opcodes, the retry cap and the retry delay (in milliseconds). -/
structure Constants where
  COMMAND_ENTER_CONFIG : Nat
  COMMAND_LEAVE_CONFIG : Nat
  COMMAND_READ_VERSION : Nat
  COMMAND_MAX_RETRIES : Nat
  COMMAND_RETRY_DELAY : Nat

/-- What a poll does that is visible from outside the object, oldest first. -/
inductive Event where
  | process_message (payload : List Nat)
  | process_config_message (msg : List Nat) (len : Nat)
  | write_command (msg : List Nat) (len : Nat)
  | command_timeout
  | firmware_version (bytes : List Nat)
deriving DecidableEq, Repr

/-- The member variables used by `loop()` and the decoders, together with the
two directions of the UART and the record of events. -/
structure Hub (T : Type) where
  targets_ : List T
  is_occupied_ : Bool
  flip_x_axis_ : Bool
  max_detection_distance_ : Int
  max_distance_margin_ : Int
  command_queue_ : List (List Nat)
  configuration_mode_ : Bool
  command_last_sent_ : Nat
  command_send_retries_ : Nat
  peek_status_ : Nat
  configuration_message_length_ : Nat
  rx : List Nat
  tx : List Nat
  events : List Event

/-- Line 68. -/
def update_header : List Nat := [0xAA, 0xFF, 0x03, 0x00]

/-- Line 69. -/
def config_header : List Nat := [0xFD, 0xFC, 0xFB, 0xFA]

/-! ## `process_message` -/

/-- Lines 178-203: the three target records, in order. -/
def process_records {T : Type} (ops : TargetOps T) (flip_x_axis_ : Bool)
    (max_detection_distance_ max_distance_margin_ : Int) (msg : List Nat) :
    Nat → List T → List T
  | 0, targets_ => targets_
  | n + 1, targets_ =>
    let targets_ := process_records ops flip_x_axis_ max_detection_distance_
      max_distance_margin_ msg n targets_
    modifyAt (gate_target ops max_detection_distance_ max_distance_margin_
      (decode_record flip_x_axis_ msg (8 * n))) n targets_

/-- The function `LD2450::process_message(msg, len)`, lines 176-226, without
the publishing of sensors and zones. -/
def process_message {T : Type} (ops : TargetOps T) (s : Hub T) (msg : List Nat) (len : Nat) :
    Hub T :=
  let targets_ := process_records ops s.flip_x_axis_ s.max_detection_distance_
    s.max_distance_margin_ msg 3 s.targets_
  { s with
    targets_ := targets_
    is_occupied_ := decide (target_count ops targets_ > 0)
    events := s.events ++ [Event.process_message (msg.take len)] }

/-! ## `write_command` -/

/-- The bytes that `LD2450::write_command(msg, len)` writes, lines 255-271. -/
def write_command_bytes (msg : List Nat) (len : Nat) : List Nat :=
  [0xFD, 0xFC, 0xFB, 0xFA] ++ [toUInt8 len] ++ [toUInt8 (len <<< 8)] ++ msg.take len ++
    [0x04, 0x03, 0x02, 0x01]

/-- The function `LD2450::write_command(msg, len)`. -/
def write_command {T : Type} (s : Hub T) (msg : List Nat) (len : Nat) : Hub T :=
  { s with
    tx := s.tx ++ write_command_bytes msg len
    events := s.events ++ [Event.write_command msg len] }

/-! ## The command stage of `loop()` -/

/-- Line 82: `millis() - command_last_sent_ > COMMAND_RETRY_DELAY`.  The tick
count of `millis()` is an unsigned 32-bit value, so the difference is taken
modulo `2^32`. -/
def retry_delay_elapsed (k : Constants) (now command_last_sent_ : Nat) : Bool :=
  decide ((((now : Int) - (command_last_sent_ : Int)) % 4294967296) > (k.COMMAND_RETRY_DELAY : Int))

/-- The expression `command[0]`; a command without bytes has no element 0. -/
def opcode (command : List Nat) : Option Nat := command.head?

/-- Lines 76-79: insert the enter-configuration command at the front, unless
configuration mode is active or `command_queue_.front()[0]` is already its
opcode. -/
def inject_enter_config {T : Type} (k : Constants) (s : Hub T) : Hub T :=
  if s.configuration_mode_ = false ∧
      s.command_queue_.head?.bind opcode ≠ some k.COMMAND_ENTER_CONFIG then
    { s with command_queue_ := [k.COMMAND_ENTER_CONFIG, 0x00, 0x01, 0x00] :: s.command_queue_ }
  else
    s

/-- Lines 82-99: drop the front command after the retry cap, else send it. -/
def retransmit {T : Type} (k : Constants) (now : Nat) (s : Hub T) : Hub T :=
  if retry_delay_elapsed k now s.command_last_sent_ = true then
    if s.command_send_retries_ ≥ k.COMMAND_MAX_RETRIES then
      { s with
        command_queue_ := s.command_queue_.tail
        command_send_retries_ := 0
        events := s.events ++ [Event.command_timeout] }
    else
      let command := s.command_queue_.headD []
      let s := write_command s command command.length
      { s with
        command_last_sent_ := now
        command_send_retries_ := s.command_send_retries_ + 1 }
  else
    s

/-- Lines 73-105 of `loop()`, with `now` the value of `millis()`. -/
def command_stage {T : Type} (k : Constants) (now : Nat) (s : Hub T) : Hub T :=
  if s.command_queue_.length > 0 then
    retransmit k now (inject_enter_config k s)
  else if s.configuration_mode_ = true then
    { s with command_queue_ := s.command_queue_ ++ [[k.COMMAND_LEAVE_CONFIG, 0x00]] }
  else
    s

/-! ## The header scan of `loop()` -/

/-- Lines 125-129: read bytes while they agree with `header`; the result is
the flag `skip` and the bytes left in the receive buffer.  A `read()` on an
empty buffer returns `-1`, which differs from every header byte. -/
def read_header : List Nat → List Nat → Bool × List Nat
  | [], rx => (false, rx)
  | _ :: _, [] => (true, [])
  | h :: header, b :: rx => if b ≠ h then (true, rx) else read_header header rx

/-- Lines 110-134: one iteration of the scan loop. -/
def scan_iteration {T : Type} (s : Hub T) : Hub T :=
  let choice : List Nat × Nat :=
    if s.rx.head? = some 0xAA then (update_header, 1) else (config_header, 2)
  let r := read_header choice.1 s.rx
  if r.1 = true then { s with rx := r.2 } else { s with rx := r.2, peek_status_ := choice.2 }

/-- Lines 108-135: the loop `while (!peek_status_ && available() >= 4)`, run
for at most `fuel` iterations. -/
def header_scan {T : Type} : Nat → Hub T → Hub T
  | 0, s => s
  | fuel + 1, s =>
    if s.peek_status_ = 0 ∧ s.rx.length ≥ 4 then header_scan fuel (scan_iteration s) else s

/-- The header scan as a function of the two things it reads and writes, the
pending classification and the receive buffer (see `header_scan_eq`). -/
def scan_bytes : Nat → Nat → List Nat → Nat × List Nat
  | 0, status, rx => (status, rx)
  | fuel + 1, status, rx =>
    if status = 0 ∧ rx.length ≥ 4 then
      let choice : List Nat × Nat :=
        if rx.head? = some 0xAA then (update_header, 1) else (config_header, 2)
      let r := read_header choice.1 rx
      if r.1 = true then scan_bytes fuel status r.2 else scan_bytes fuel choice.2 r.2
    else (status, rx)

/-! ## `process_config_message` -/

/-- Lines 231-237: remove the front command when the message acknowledges it.
The copy of `command_queue_.front()` is taken before the size of the queue is
tested.  On an empty queue that copy is undefined in the source; this
definition goes on with a command without bytes, so that there it describes
the source only up to that access.  `acknowledge_checked` stops with a fault
instead, and returns the state of this definition whenever it returns
(`acknowledge_checked_sound`). -/
def acknowledge {T : Type} (s : Hub T) (msg : List Nat) : Hub T :=
  let command := s.command_queue_.headD []
  if s.command_queue_.length > 0 ∧ opcode command = some (byteAt msg 0) ∧ byteAt msg 1 = 0x01 then
    { s with
      command_queue_ := s.command_queue_.tail
      command_send_retries_ := 0
      command_last_sent_ := 0 }
  else
    s

/-- Lines 239-247: follow the configuration mode of the sensor. -/
def track_configuration_mode {T : Type} (k : Constants) (s : Hub T) (msg : List Nat) : Hub T :=
  let s :=
    if byteAt msg 0 = k.COMMAND_ENTER_CONFIG ∧ byteAt msg 1 = 1 then
      { s with configuration_mode_ := true }
    else s
  if byteAt msg 0 = k.COMMAND_LEAVE_CONFIG ∧ byteAt msg 1 = 1 then
    { s with configuration_mode_ := false }
  else s

/-- Lines 249-252: log the firmware version.  On a frame buffer of fewer than
12 bytes the source reads `msg[6]` to `msg[11]` partly outside the buffer and
logs what lies behind it; this definition puts 0 for such a byte, so that the
bytes of its `Event.firmware_version` are those of the source only on a buffer
of at least 12 bytes.  `report_version_checked` stops with a fault instead, and
returns the state of this definition whenever it returns
(`report_version_checked_sound`). -/
def report_version {T : Type} (k : Constants) (s : Hub T) (msg : List Nat) : Hub T :=
  if byteAt msg 0 = k.COMMAND_READ_VERSION ∧ byteAt msg 1 = 1 then
    { s with events := s.events ++ [Event.firmware_version
        [byteAt msg 7, byteAt msg 6, byteAt msg 11, byteAt msg 10, byteAt msg 9, byteAt msg 8]] }
  else s

/-- The function `LD2450::process_config_message(msg, len)`, lines 228-253. -/
def process_config_message {T : Type} (k : Constants) (s : Hub T) (msg : List Nat) (len : Nat) :
    Hub T :=
  let s := { s with events := s.events ++ [Event.process_config_message msg len] }
  report_version k (track_configuration_mode k (acknowledge s msg) msg) msg

/-! ## The frame readers of `loop()` -/

/-- Lines 137-148.  The flag of the result is `true` when `loop()` returns at
line 145. -/
def update_stage {T : Type} (ops : TargetOps T) (s : Hub T) : Hub T × Bool :=
  if s.peek_status_ = 1 ∧ s.rx.length ≥ 28 then
    let msg := s.rx.take 26
    let s := { s with rx := s.rx.drop 26, peek_status_ := 0 }
    if byteAt msg 24 ≠ 0x55 ∨ byteAt msg 25 ≠ 0xCC then
      (s, true)
    else
      (process_message ops s msg 24, false)
  else
    (s, false)

/-- Lines 151-157: read the length of the configuration message once. -/
def read_content_length {T : Type} (s : Hub T) : Hub T :=
  if s.configuration_message_length_ = 0 then
    let content_length := s.rx.take 2
    { s with
      rx := s.rx.drop 2
      configuration_message_length_ := le16 (byteAt content_length 0) (byteAt content_length 1) }
  else
    s

/-- Lines 160-172: read the message and its frame end once they are available. -/
def read_config_frame {T : Type} (k : Constants) (s : Hub T) : Hub T :=
  if s.rx.length ≥ s.configuration_message_length_ + 4 then
    let len := s.configuration_message_length_
    let msg := s.rx.take (len + 4)
    let s := { s with rx := s.rx.drop (len + 4) }
    let s :=
      if byteAt msg len = 0x04 ∧ byteAt msg (len + 1) = 0x03 ∧ byteAt msg (len + 2) = 0x02 ∧
          byteAt msg (len + 3) = 0x01 then
        process_config_message k s msg len
      else s
    { s with configuration_message_length_ := 0, peek_status_ := 0 }
  else
    s

/-- Lines 149-173. -/
def config_stage {T : Type} (k : Constants) (s : Hub T) : Hub T :=
  if s.peek_status_ = 2 ∧ (s.rx.length ≥ 2 ∨ s.configuration_message_length_ > 0) then
    read_config_frame k (read_content_length s)
  else
    s

/-- Lines 108-173: everything `loop()` does with the receive buffer. -/
def receive_stage {T : Type} (ops : TargetOps T) (k : Constants) (s : Hub T) : Hub T :=
  let r := update_stage ops (header_scan s.rx.length s)
  if r.2 = true then r.1 else config_stage k r.1

/-- The function `LD2450::loop()`, lines 70-174, with `now` the value of
`millis()`. -/
def loop {T : Type} (ops : TargetOps T) (k : Constants) (now : Nat) (s : Hub T) : Hub T :=
  receive_stage ops k (command_stage k now s)

/-- One poll: the bytes `incoming` arrive on the UART, then `loop()` runs at
time `now`. -/
structure Poll where
  now : Nat
  incoming : List Nat

/-- The bytes of a poll are appended to the receive buffer. -/
def receive {T : Type} (s : Hub T) (incoming : List Nat) : Hub T :=
  { s with rx := s.rx ++ incoming }

/-- A sequence of polls, first to last. -/
def run {T : Type} (ops : TargetOps T) (k : Constants) : List Poll → Hub T → Hub T
  | [], s => s
  | p :: ps, s => run ops k ps (loop ops k p.now (receive s p.incoming))

/-! ## Observations on a run -/

/-- The events that a step from `before` to `after` has added. -/
def new_events {T : Type} (before after : Hub T) : List Event :=
  after.events.drop before.events.length

/-- The part of the state that the command queue works on: the queue, the
retry counter, the time of the last transmission, the configuration mode and
the bytes written to the UART. -/
def command_state {T : Type} (s : Hub T) : List (List Nat) × Nat × Nat × Bool × List Nat :=
  (s.command_queue_, s.command_send_retries_, s.command_last_sent_, s.configuration_mode_, s.tx)

/-- Among the events there is a call of `process_config_message` on a message
with the opcode of `COMMAND_ENTER_CONFIG` and the success byte 1. -/
def enter_ack_logged (k : Constants) (es : List Event) : Prop :=
  ∃ m l, Event.process_config_message m l ∈ es ∧
    byteAt m 0 = k.COMMAND_ENTER_CONFIG ∧ byteAt m 1 = 1

/-- The commands handed to `write_command`, oldest first. -/
def sent_commands : List Event → List (List Nat)
  | [] => []
  | Event.write_command msg len :: es => msg.take len :: sent_commands es
  | _ :: es => sent_commands es

/-- Whether an event is a call of `process_config_message`. -/
def Event.is_config_decode : Event → Bool
  | Event.process_config_message _ _ => true
  | _ => false

/-- The polls of a run in each of which the retry delay has elapsed when
`loop()` starts and no configuration frame is decoded. -/
def quiet_retry_polls {T : Type} (ops : TargetOps T) (k : Constants) : List Poll → Hub T → Bool
  | [], _ => true
  | p :: ps, s =>
    let s0 := receive s p.incoming
    let s1 := loop ops k p.now s0
    retry_delay_elapsed k p.now s0.command_last_sent_ &&
      (new_events s0 s1).all (fun e => !e.is_config_decode) &&
      quiet_retry_polls ops k ps s1

/-! ## The wire encoding of a target record -/

/-- Modelled from the spec: the 16-bit sign-magnitude encoding of `x` and
`speed` (sections 4.2 and 6): bit 15 flags a negative value, the other bits
hold the magnitude. -/
def encode_sign_magnitude (v : Int) : Nat :=
  if v < 0 then 0x8000 + (-v).toNat else v.toNat

/-- Modelled from the spec: the encoding of `y` (sections 4.2 and 6): offset
`0x8000`, except that zero is sent as zero. -/
def encode_y (v : Int) : Nat :=
  if v = 0 then 0 else (v + 0x8000).toNat

/-- Modelled from the spec: a 16-bit value as two bytes, low byte first. -/
def encode_le16 (raw : Nat) : List Nat := [raw % 256, raw / 256]

/-- Modelled from the spec: the 8-byte wire record of four values (section 6):
`x`, `y`, `speed`, `distance_resolution`, each little-endian. -/
def encode_record (v : Values) : List Nat :=
  encode_le16 (encode_sign_magnitude v.x) ++ encode_le16 (encode_y v.y) ++
    encode_le16 (encode_sign_magnitude v.speed) ++ encode_le16 v.distance_resolution.toNat

/-- An 8-byte record none of whose `x`, `y`, `speed` fields is the raw value
`0x8000`. -/
def canonical_record (b : List Nat) : Prop :=
  b.length = 8 ∧ (∀ i < 8, byteAt b i < 256) ∧
    le16 (byteAt b 0) (byteAt b 1) ≠ 0x8000 ∧
    le16 (byteAt b 2) (byteAt b 3) ≠ 0x8000 ∧
    le16 (byteAt b 4) (byteAt b 5) ≠ 0x8000

/-- Modelled from the spec: the outbound configuration frame (section 6):
header, payload length as a little-endian 16-bit value, payload, frame end. -/
def config_frame (msg : List Nat) : List Nat :=
  [0xFD, 0xFC, 0xFB, 0xFA] ++ [msg.length % 256, msg.length / 256] ++ msg ++
    [0x04, 0x03, 0x02, 0x01]

/-! ## Concrete data -/

/-- A hub before its first poll: no pending classification, empty command
queue, configuration mode inactive, flip-x off, detection distance 6000. -/
def initial_hub {T : Type} (targets_ : List T) (max_distance_margin_ : Int) : Hub T :=
  { targets_ := targets_
    is_occupied_ := false
    flip_x_axis_ := false
    max_detection_distance_ := 6000
    max_distance_margin_ := max_distance_margin_
    command_queue_ := []
    configuration_mode_ := false
    command_last_sent_ := 0
    command_send_retries_ := 0
    peek_status_ := 0
    configuration_message_length_ := 0
    rx := []
    tx := []
    events := [] }

/-- Modelled from the spec: the three targets that `setup()` creates. -/
def fresh_targets : List Target := [Target.fresh, Target.fresh, Target.fresh]

/-- The payload with `x=100, y=500, speed=0, resolution=10` in slot 1 and
zeroes in slots 2 and 3. -/
def sample_payload : List Nat :=
  [0x64, 0x00, 0xF4, 0x81, 0x00, 0x00, 0x0A, 0x00,
   0, 0, 0, 0, 0, 0, 0, 0,
   0, 0, 0, 0, 0, 0, 0, 0]

/-- The 30-byte target-update frame around `sample_payload`. -/
def sample_frame : List Nat := update_header ++ sample_payload ++ [0x55, 0xCC]

/-- A payload whose slot 1 holds `x=100, y=6100, speed=0, resolution=10`. -/
def band_payload : List Nat :=
  [0x64, 0x00, 0xD4, 0x97, 0x00, 0x00, 0x0A, 0x00,
   0, 0, 0, 0, 0, 0, 0, 0,
   0, 0, 0, 0, 0, 0, 0, 0]

/-- A payload whose slot 1 holds `x=100, y=6250, speed=0, resolution=10`. -/
def boundary_payload : List Nat :=
  [0x64, 0x00, 0x6A, 0x98, 0x00, 0x00, 0x0A, 0x00,
   0, 0, 0, 0, 0, 0, 0, 0,
   0, 0, 0, 0, 0, 0, 0, 0]

/-- A payload whose slot 1 holds `x=100, y=6251, speed=0, resolution=10`. -/
def far_payload : List Nat :=
  [0x64, 0x00, 0x6B, 0x98, 0x00, 0x00, 0x0A, 0x00,
   0, 0, 0, 0, 0, 0, 0, 0,
   0, 0, 0, 0, 0, 0, 0, 0]

/-- Modelled from the spec: three targets without data, each with an empty
record of calls. -/
def fresh_recording_targets : List (Target × List Call) :=
  [(Target.fresh, []), (Target.fresh, []), (Target.fresh, [])]

/-- Modelled from the spec: three targets with an empty record of calls, the
first of them present at `(100, 6000)`. -/
def tracked_recording_targets : List (Target × List Call) :=
  [({ x := 100, y := 6000, speed := 0, distance_resolution := 10, present := true }, []),
   (Target.fresh, []), (Target.fresh, [])]

/-- A configuration frame that acknowledges the enter-configuration command
of `sample_constants`: payload `FF 01 00 00 01 00 40 00`. -/
def enter_config_ack : List Nat :=
  config_header ++ [0x08, 0x00] ++ [0xFF, 0x01, 0x00, 0x00, 0x01, 0x00, 0x40, 0x00] ++
    [0x04, 0x03, 0x02, 0x01]

/-- The initial hub after the command `A0 00` has been put in its queue. -/
def queued_hub : Hub Target :=
  { initial_hub fresh_targets 250 with command_queue_ := [[0xA0, 0x00]] }

/-- The initial hub with the enter-configuration command and the command
`A0 00` in its queue. -/
def retry_hub : Hub Target :=
  { initial_hub fresh_targets 250 with
    command_queue_ := [[0xFF, 0x00, 0x01, 0x00], [0xA0, 0x00]] }

/-- Modelled from the spec: the header constants are not part of the sources;
these values stand in for them where a concrete run is evaluated. -/
def sample_constants : Constants :=
  { COMMAND_ENTER_CONFIG := 0xFF
    COMMAND_LEAVE_CONFIG := 0xFE
    COMMAND_READ_VERSION := 0xA0
    COMMAND_MAX_RETRIES := 10
    COMMAND_RETRY_DELAY := 100 }

/-- Polls at the given times during which no byte arrives. -/
def silent_polls (times : List Nat) : List Poll :=
  times.map (fun t => { now := t, incoming := [] })

/-! ## Acknowledgements -/

/-- Line 166: the four bytes behind the `len` payload bytes of `msg` are the
frame end `04 03 02 01`. -/
def frame_end_valid (msg : List Nat) (len : Nat) : Prop :=
  byteAt msg len = 0x04 ∧ byteAt msg (len + 1) = 0x03 ∧ byteAt msg (len + 2) = 0x02 ∧
    byteAt msg (len + 3) = 0x01

/-- Among the events there is a call of `process_config_message` on a frame
with a valid frame end, the opcode `op` in payload byte 0 and the success byte
1 in payload byte 1. -/
def ack_decoded (op : Nat) (es : List Event) : Prop :=
  ∃ m l, Event.process_config_message m l ∈ es ∧ frame_end_valid m l ∧
    byteAt m 0 = op ∧ byteAt m 1 = 1

/-- A configuration frame that acknowledges the leave-configuration command
of `sample_constants`: payload `FE 01 00 00`. -/
def leave_config_ack : List Nat :=
  config_header ++ [0x04, 0x00] ++ [0xFE, 0x01, 0x00, 0x00] ++ [0x04, 0x03, 0x02, 0x01]

/-- The initial hub in configuration mode, with the command `A0 00` in its
queue. -/
def active_hub : Hub Target :=
  { initial_hub fresh_targets 250 with
    configuration_mode_ := true
    command_queue_ := [[0xA0, 0x00]] }

/-- The initial hub in configuration mode, waiting for a configuration message
of 4 bytes, with the message `FE 01 00 00` and a wrong frame end in the receive
buffer. -/
def bad_end_hub : Hub Target :=
  { initial_hub fresh_targets 250 with
    configuration_mode_ := true
    peek_status_ := 2
    configuration_message_length_ := 4
    rx := [0xFE, 0x01, 0x00, 0x00, 0x04, 0x03, 0x02, 0x00] }

/-! ## Commands put in the queue from outside -/

/-- Modelled from the spec: `enqueue_command` (section 6), which is not part
of `LD2450.cpp`, puts a command at the back of the FIFO queue. -/
def enqueue_command {T : Type} (s : Hub T) (command : List Nat) : Hub T :=
  { s with command_queue_ := s.command_queue_ ++ [command] }

/-- What happens to a hub: a poll, or a command put in its queue. -/
inductive Step where
  | poll (p : Poll)
  | enqueue (command : List Nat)

/-- One step of a hub. -/
def step {T : Type} (ops : TargetOps T) (k : Constants) : Step → Hub T → Hub T
  | Step.poll p, s => loop ops k p.now (receive s p.incoming)
  | Step.enqueue command, s => enqueue_command s command

/-- A sequence of steps, first to last. -/
def run_steps {T : Type} (ops : TargetOps T) (k : Constants) : List Step → Hub T → Hub T
  | [], s => s
  | a :: rest, s => run_steps ops k rest (step ops k a s)
/-- The initial hub in configuration mode, with an empty command queue. -/
def drained_hub : Hub Target :=
  { initial_hub fresh_targets 250 with configuration_mode_ := true }

/-- The hub `queued_hub` with a pending target-update classification and, in
the receive buffer, `sample_payload`, the wrong trailer `55 00` and two more
bytes. -/
def bad_trailer_hub : Hub Target :=
  { queued_hub with
    peek_status_ := 1
    rx := sample_payload ++ [0x55, 0x00] ++ [0x00, 0x00] }

/-- The hub `queued_hub` with a pending configuration classification, the
cached length 4 and, in the receive buffer, the message `FF 01 00 00` with the
wrong frame end `04 03 02 00`. -/
def bad_frame_end_hub : Hub Target :=
  { queued_hub with
    peek_status_ := 2
    configuration_message_length_ := 4
    rx := [0xFF, 0x01, 0x00, 0x00, 0x04, 0x03, 0x02, 0x00] }

/-- The initial hub with a pending configuration classification whose length
is still to be read, and in the receive buffer the length `04 00`, the
message `FF 01 00 00` and the wrong frame end `04 03 02 00`. -/
def unread_length_hub : Hub Target :=
  { initial_hub fresh_targets 250 with
    peek_status_ := 2
    rx := [0x04, 0x00, 0xFF, 0x01, 0x00, 0x00, 0x04, 0x03, 0x02, 0x00] }

/-- A configuration frame that declares the payload length 0. -/
def zero_length_frame : List Nat :=
  config_header ++ [0x00, 0x00] ++ [0x04, 0x03, 0x02, 0x01]

/-! ## The reads of a header match -/

/-- Lines 114-123: the header that the scan tries to match and the
classification that goes with it, chosen by the byte that `peek()` returns. -/
def chosen_header (rx : List Nat) : List Nat × Nat :=
  if rx.head? = some 0xAA then (update_header, 1) else (config_header, 2)

/-- Lines 125-129: the values that the calls of `read()` return during one
header match, in order; `none` stands for a `read()` on an empty buffer. -/
def header_reads : List Nat → List Nat → List (Option Nat)
  | [], _ => []
  | _ :: _, [] => [none]
  | h :: header, b :: rx => if b ≠ h then [some b] else some b :: header_reads header rx

/-- The initial hub with the byte `AA`, `sample_frame` and two more bytes in
its receive buffer. -/
def stray_hub : Hub Target :=
  receive (initial_hub fresh_targets 250) ([0xAA] ++ sample_frame ++ [0x00, 0x00])

/-- The initial hub with the bytes `01 02`, `sample_frame` and two more bytes
in its receive buffer. -/
def garbage_hub : Hub Target :=
  receive (initial_hub fresh_targets 250) ([0x01, 0x02] ++ sample_frame ++ [0x00, 0x00])

/-! ## Element accesses of `process_config_message` -/

/-- An element access made by `process_config_message`: `command_queue_.front()`
on a queue of `size` commands, `command[index]` on a command of `size` bytes,
or `msg[index]` on the frame buffer. -/
inductive Access where
  | queue_front (size : Nat)
  | command_byte (index size : Nat)
  | msg_byte (index : Nat)
deriving DecidableEq, Repr

/-- Whether an access stays inside its object, for a frame buffer of
`buffer_size` bytes. -/
def Access.in_bounds (buffer_size : Nat) : Access → Bool
  | Access.queue_front size => decide (0 < size)
  | Access.command_byte index size => decide (index < size)
  | Access.msg_byte index => decide (index < buffer_size)

/-- Lines 231-232: the copy of `command_queue_.front()`, then the operands of
`command_queue_.size() > 0 && command[0] == msg[0] && msg[1] == 0x01` as far as
the `&&` evaluates them. -/
def acknowledge_accesses {T : Type} (s : Hub T) (msg : List Nat) : List Access :=
  let command := s.command_queue_.headD []
  Access.queue_front s.command_queue_.length ::
    (if s.command_queue_.length > 0 then
      Access.command_byte 0 command.length :: Access.msg_byte 0 ::
        (if opcode command = some (byteAt msg 0) then [Access.msg_byte 1] else [])
    else [])

/-- The operands of a test `msg[0] == op && msg[1] == true` (lines 239, 244,
249) as far as the `&&` evaluates them. -/
def ack_test_accesses (op : Nat) (msg : List Nat) : List Access :=
  Access.msg_byte 0 :: (if byteAt msg 0 = op then [Access.msg_byte 1] else [])

/-- Lines 249-252: the test, and the six bytes of the firmware version. -/
def report_version_accesses (k : Constants) (msg : List Nat) : List Access :=
  ack_test_accesses k.COMMAND_READ_VERSION msg ++
    (if byteAt msg 0 = k.COMMAND_READ_VERSION ∧ byteAt msg 1 = 1 then
      [Access.msg_byte 7, Access.msg_byte 6, Access.msg_byte 11, Access.msg_byte 10,
        Access.msg_byte 9, Access.msg_byte 8]
    else [])

/-- The element accesses of `process_config_message(msg, len)`, lines 228-253,
in program order. -/
def process_config_message_accesses {T : Type} (k : Constants) (s : Hub T) (msg : List Nat) :
    List Access :=
  acknowledge_accesses s msg ++ ack_test_accesses k.COMMAND_ENTER_CONFIG msg ++
    ack_test_accesses k.COMMAND_LEAVE_CONFIG msg ++ report_version_accesses k msg

/-- A configuration frame with the declared length 2 that acknowledges the
read-version command of `sample_constants`: payload `A0 01`. -/
def short_version_ack : List Nat :=
  config_header ++ [0x02, 0x00] ++ [0xA0, 0x01] ++ [0x04, 0x03, 0x02, 0x01]

/-! ## A run that leaves a spent retry counter on a command that stays in front -/

/-- The command `A0 00` is put in the queue of the hub; the hub sends the
enter-configuration command and receives its acknowledgement; it sends
`A0 00` ten times without an answer; then a frame that acknowledges the
leave-configuration command arrives. -/
def stale_retry_steps : List Step :=
  [Step.enqueue [0xA0, 0x00],
    Step.poll ⟨101, []⟩,
    Step.poll ⟨150, enter_config_ack⟩,
    Step.poll ⟨300, []⟩, Step.poll ⟨401, []⟩, Step.poll ⟨502, []⟩, Step.poll ⟨603, []⟩,
    Step.poll ⟨704, []⟩, Step.poll ⟨805, []⟩, Step.poll ⟨906, []⟩, Step.poll ⟨1007, []⟩,
    Step.poll ⟨1108, []⟩, Step.poll ⟨1209, []⟩,
    Step.poll ⟨1250, leave_config_ack⟩]

/-- The hub after `stale_retry_steps`, from the initial hub. -/
def stale_retry_hub : Hub Target :=
  run_steps targetOps sample_constants stale_retry_steps (initial_hub fresh_targets 250)

/-! ## `process_config_message` with its element accesses checked -/

/-- An element access outside its object: `front()` on an empty queue,
`command[index]` on a command of `size` bytes, or `msg[index]` on a frame
buffer of `size` bytes. -/
inductive Fault where
  | front_of_empty_queue
  | command_index (index size : Nat)
  | msg_index (index size : Nat)
deriving DecidableEq, Repr

/-- The fault of a computation, if it ran into one. -/
def fault {α : Type} : Except Fault α → Option Fault
  | Except.error f => some f
  | Except.ok _ => none

/-- The expression `command_queue_.front()`: the first command of a queue that
has one. -/
def front_checked : List (List Nat) → Except Fault (List Nat)
  | [] => Except.error Fault.front_of_empty_queue
  | command :: _ => Except.ok command

/-- The expression `command[i]`: the byte `i` of a command that has one. -/
def command_at (command : List Nat) (i : Nat) : Except Fault Nat :=
  match command.get? i with
  | some b => Except.ok b
  | none => Except.error (Fault.command_index i command.length)

/-- The expression `msg[i]`: the byte `i` of a frame buffer that has one. -/
def msg_at (msg : List Nat) (i : Nat) : Except Fault Nat :=
  match msg.get? i with
  | some b => Except.ok b
  | none => Except.error (Fault.msg_index i msg.length)

/-- Lines 231-237 with every element access checked: the copy of
`command_queue_.front()` of line 231, then the operands of
`command_queue_.size() > 0 && command[0] == msg[0] && msg[1] == 0x01` as far as
the `&&` evaluates them. -/
def acknowledge_checked {T : Type} (s : Hub T) (msg : List Nat) : Except Fault (Hub T) := do
  let command ← front_checked s.command_queue_
  if s.command_queue_.length > 0 then
    let c0 ← command_at command 0
    let m0 ← msg_at msg 0
    if c0 = m0 then
      let m1 ← msg_at msg 1
      if m1 = 0x01 then
        Except.ok { s with
          command_queue_ := s.command_queue_.tail
          command_send_retries_ := 0
          command_last_sent_ := 0 }
      else
        Except.ok s
    else
      Except.ok s
  else
    Except.ok s

/-- The test `msg[0] == op && msg[1] == true` of lines 239, 244 and 249 with
the accesses to `msg` checked. -/
def success_of (op : Nat) (msg : List Nat) : Except Fault Bool := do
  let m0 ← msg_at msg 0
  if m0 = op then
    let m1 ← msg_at msg 1
    Except.ok (decide (m1 = 1))
  else
    Except.ok false

/-- Lines 239-247 with the accesses to `msg` checked. -/
def track_configuration_mode_checked {T : Type} (k : Constants) (s : Hub T) (msg : List Nat) :
    Except Fault (Hub T) := do
  let entered ← success_of k.COMMAND_ENTER_CONFIG msg
  let s := if entered = true then { s with configuration_mode_ := true } else s
  let left ← success_of k.COMMAND_LEAVE_CONFIG msg
  Except.ok (if left = true then { s with configuration_mode_ := false } else s)

/-- Lines 249-252 with the accesses to `msg` checked; the arguments of the log
call are read in the order in which line 251 lists them. -/
def report_version_checked {T : Type} (k : Constants) (s : Hub T) (msg : List Nat) :
    Except Fault (Hub T) := do
  let version ← success_of k.COMMAND_READ_VERSION msg
  if version = true then
    let b7 ← msg_at msg 7
    let b6 ← msg_at msg 6
    let b11 ← msg_at msg 11
    let b10 ← msg_at msg 10
    let b9 ← msg_at msg 9
    let b8 ← msg_at msg 8
    Except.ok { s with events := s.events ++ [Event.firmware_version [b7, b6, b11, b10, b9, b8]] }
  else
    Except.ok s

/-- The function `LD2450::process_config_message(msg, len)`, lines 228-253, with
every element access checked; `msg` is the frame buffer, of `len + 4` bytes in
`loop()`. -/
def process_config_message_checked {T : Type} (k : Constants) (s : Hub T) (msg : List Nat)
    (len : Nat) : Except Fault (Hub T) := do
  let s := { s with events := s.events ++ [Event.process_config_message msg len] }
  let s ← acknowledge_checked s msg
  let s ← track_configuration_mode_checked k s msg
  report_version_checked k s msg

/-- Lines 160-172 with the element accesses of `process_config_message`
checked; the buffer `msg` has `configuration_message_length_ + 4` bytes, and
the frame end is read inside it. -/
def read_config_frame_checked {T : Type} (k : Constants) (s : Hub T) : Except Fault (Hub T) :=
  if s.rx.length ≥ s.configuration_message_length_ + 4 then do
    let len := s.configuration_message_length_
    let msg := s.rx.take (len + 4)
    let s := { s with rx := s.rx.drop (len + 4) }
    let s ←
      if byteAt msg len = 0x04 ∧ byteAt msg (len + 1) = 0x03 ∧ byteAt msg (len + 2) = 0x02 ∧
          byteAt msg (len + 3) = 0x01 then
        process_config_message_checked k s msg len
      else Except.ok s
    Except.ok { s with configuration_message_length_ := 0, peek_status_ := 0 }
  else
    Except.ok s

/-- Lines 149-173 with the element accesses of `process_config_message`
checked. -/
def config_stage_checked {T : Type} (k : Constants) (s : Hub T) : Except Fault (Hub T) :=
  if s.peek_status_ = 2 ∧ (s.rx.length ≥ 2 ∨ s.configuration_message_length_ > 0) then
    read_config_frame_checked k (read_content_length s)
  else
    Except.ok s

/-- Lines 108-173 with the element accesses of `process_config_message`
checked. -/
def receive_stage_checked {T : Type} (ops : TargetOps T) (k : Constants) (s : Hub T) :
    Except Fault (Hub T) :=
  let r := update_stage ops (header_scan s.rx.length s)
  if r.2 = true then Except.ok r.1 else config_stage_checked k r.1

/-- The function `LD2450::loop()`, lines 70-174, with the element accesses of
`process_config_message` checked. -/
def loop_checked {T : Type} (ops : TargetOps T) (k : Constants) (now : Nat) (s : Hub T) :
    Except Fault (Hub T) :=
  receive_stage_checked ops k (command_stage k now s)

/-- One step of a hub, with the element accesses of `process_config_message`
checked. -/
def step_checked {T : Type} (ops : TargetOps T) (k : Constants) : Step → Hub T →
    Except Fault (Hub T)
  | Step.poll p, s => loop_checked ops k p.now (receive s p.incoming)
  | Step.enqueue command, s => Except.ok (enqueue_command s command)

/-- A sequence of steps, first to last, up to the first fault. -/
def run_steps_checked {T : Type} (ops : TargetOps T) (k : Constants) :
    List Step → Hub T → Except Fault (Hub T)
  | [], s => Except.ok s
  | a :: rest, s => do
    let s ← step_checked ops k a s
    run_steps_checked ops k rest s

/-- The command `A0 00` (read the firmware version) is put in the queue of the
hub; the hub sends the enter-configuration command and receives its
acknowledgement; then it sends `A0 00`. -/
def version_request_steps : List Step :=
  [Step.enqueue [0xA0, 0x00],
    Step.poll ⟨101, []⟩,
    Step.poll ⟨150, enter_config_ack⟩,
    Step.poll ⟨300, []⟩]

/-- The hub after `version_request_steps`, from the initial hub: it waits for
the acknowledgement of `A0 00`. -/
def version_pending_hub : Hub Target :=
  run_steps targetOps sample_constants version_request_steps (initial_hub fresh_targets 250)

/-! ## Arithmetic of the field decoding -/

theorem le16_eq (lo hi : Nat) (hlo : lo < 256) : le16 lo hi = hi * 256 + lo := by
  unfold le16
  have h := @Nat.mul_add_lt_is_or 8 lo (by simpa using hlo) hi
  rw [Nat.shiftLeft_eq, Nat.mul_comm hi, ← h]

theorem sign_bit_iff (hi : Nat) (h : hi < 256) : (hi &&& 0x80 ≠ 0 ↔ 128 ≤ hi) := by
  interval_cases hi <;> decide

theorem decode_y_value (lo hi : Nat) (hlo : lo < 256) (hhi : hi < 256) :
    decode_y lo hi =
      if hi * 256 + lo = 0 then 0 else ((hi * 256 + lo : Nat) : Int) - 0x8000 := by
  unfold decode_y toInt16
  rw [le16_eq lo hi hlo]
  simp only []
  split_ifs <;> omega

theorem decode_x_value (lo hi : Nat) (hlo : lo < 256) (hhi : hi < 256) :
    decode_x lo hi =
      if hi * 256 + lo < 0x8000 then ((hi * 256 + lo : Nat) : Int)
      else -(((hi * 256 + lo : Nat) : Int) - 0x8000) := by
  have hs := sign_bit_iff hi hhi
  unfold decode_x toInt16
  rw [le16_eq lo hi hlo]
  simp only []
  split_ifs <;> omega

theorem decode_speed_value (lo hi : Nat) (hlo : lo < 256) (hhi : hi < 256) :
    decode_speed lo hi =
      if hi * 256 + lo < 0x8000 then ((hi * 256 + lo : Nat) : Int)
      else -(((hi * 256 + lo : Nat) : Int) - 0x8000) := by
  have hs := sign_bit_iff hi hhi
  unfold decode_speed toInt32
  rw [le16_eq lo hi hlo]
  simp only []
  split_ifs <;> omega

theorem decode_distance_resolution_value (lo hi : Nat) (hlo : lo < 256) (hhi : hi < 256) :
    decode_distance_resolution lo hi = ((hi * 256 + lo : Nat) : Int) := by
  unfold decode_distance_resolution toInt32
  rw [le16_eq lo hi hlo]
  omega

theorem decode_x_range (lo hi : Nat) (hlo : lo < 256) (hhi : hi < 256) :
    -32767 ≤ decode_x lo hi ∧ decode_x lo hi ≤ 32767 := by
  rw [decode_x_value lo hi hlo hhi]
  split_ifs <;> omega

theorem flip_x_false (x : Int) (h : -32767 ≤ x ∧ x ≤ 32767) : flip_x false x = x := by
  unfold flip_x toInt16
  simp only [Bool.false_eq_true, if_false]
  omega

theorem flip_x_true (x : Int) (h : -32767 ≤ x ∧ x ≤ 32767) : flip_x true x = -x := by
  unfold flip_x toInt16
  simp only [if_true]
  omega

/-- C4: for wire bytes `lo`, `hi` (raw value `hi*256 + lo`), the `int16_t`
value `y` of `process_message` is 0 when the raw value is 0 and is the integer
`raw - 0x8000` for every nonzero raw value; it is a value of `int16_t`. -/
theorem decode_y_exact (lo hi : Nat) (hlo : lo < 256) (hhi : hi < 256) :
    le16 lo hi = hi * 256 + lo ∧
    (hi * 256 + lo = 0 → decode_y lo hi = 0) ∧
    (hi * 256 + lo ≠ 0 → decode_y lo hi = ((hi * 256 + lo : Nat) : Int) - 0x8000) ∧
    -32768 ≤ decode_y lo hi ∧ decode_y lo hi ≤ 32767 := by
  have hv := decode_y_value lo hi hlo hhi
  refine ⟨le16_eq lo hi hlo, ?_, ?_, ?_, ?_⟩
  · intro h
    rw [hv, if_pos h]
  · intro h
    rw [hv, if_neg h]
  · rw [hv]
    split_ifs <;> omega
  · rw [hv]
    split_ifs <;> omega

/-- Witness of C4 on the bytes `F4 81` (raw `0x81F4`, `y = 500`). -/
theorem decode_y_exact_witness :
    (0xF4 < 256 ∧ 0x81 < 256) ∧
    (le16 0xF4 0x81 = 0x81 * 256 + 0xF4 ∧
    (0x81 * 256 + 0xF4 = 0 → decode_y 0xF4 0x81 = 0) ∧
    (0x81 * 256 + 0xF4 ≠ 0 →
      decode_y 0xF4 0x81 = ((0x81 * 256 + 0xF4 : Nat) : Int) - 0x8000) ∧
    -32768 ≤ decode_y 0xF4 0x81 ∧ decode_y 0xF4 0x81 ≤ 32767) :=
  ⟨by decide, decode_y_exact 0xF4 0x81 (by decide) (by decide)⟩

/-- C5: for wire bytes `lo`, `hi` (raw value `hi*256 + lo`), the `int16_t`
computation of `x` and the `int` computation of `speed` both give `raw` when
bit 15 is clear and `-(raw - 0x8000)` when it is set; they agree, and the
result lies in `[-32767, 32767]`. -/
theorem sign_magnitude_decoding (lo hi : Nat) (hlo : lo < 256) (hhi : hi < 256) :
    le16 lo hi = hi * 256 + lo ∧
    (hi &&& 0x80 = 0 ↔ hi * 256 + lo < 0x8000) ∧
    (hi &&& 0x80 = 0 →
      decode_x lo hi = ((hi * 256 + lo : Nat) : Int) ∧
      decode_speed lo hi = ((hi * 256 + lo : Nat) : Int)) ∧
    (hi &&& 0x80 ≠ 0 →
      decode_x lo hi = -(((hi * 256 + lo : Nat) : Int) - 0x8000) ∧
      decode_speed lo hi = -(((hi * 256 + lo : Nat) : Int) - 0x8000)) ∧
    decode_x lo hi = decode_speed lo hi ∧
    -32767 ≤ decode_x lo hi ∧ decode_x lo hi ≤ 32767 := by
  have hs := sign_bit_iff hi hhi
  have hx := decode_x_value lo hi hlo hhi
  have hsp := decode_speed_value lo hi hlo hhi
  have hr := decode_x_range lo hi hlo hhi
  have hbit : hi &&& 0x80 = 0 ↔ hi * 256 + lo < 0x8000 := by
    constructor
    · intro h
      by_contra hc
      exact (hs.mpr (by omega)) h
    · intro h
      by_contra hc
      have := hs.mp hc
      omega
  refine ⟨le16_eq lo hi hlo, hbit, ?_, ?_, ?_, hr.1, hr.2⟩
  · intro h
    have hlt := hbit.mp h
    rw [hx, hsp, if_pos hlt]
    exact ⟨rfl, rfl⟩
  · intro h
    have hge : ¬ hi * 256 + lo < 0x8000 := fun hlt => h (hbit.mpr hlt)
    rw [hx, hsp, if_neg hge]
    exact ⟨rfl, rfl⟩
  · rw [hx, hsp]

/-- Witness of C5 on the bytes `64 80` (bit 15 set, magnitude 100). -/
theorem sign_magnitude_decoding_witness :
    (0x64 < 256 ∧ 0x80 < 256) ∧
    (le16 0x64 0x80 = 0x80 * 256 + 0x64 ∧
    (0x80 &&& 0x80 = 0 ↔ 0x80 * 256 + 0x64 < 0x8000) ∧
    (0x80 &&& 0x80 = 0 →
      decode_x 0x64 0x80 = ((0x80 * 256 + 0x64 : Nat) : Int) ∧
      decode_speed 0x64 0x80 = ((0x80 * 256 + 0x64 : Nat) : Int)) ∧
    (0x80 &&& 0x80 ≠ 0 →
      decode_x 0x64 0x80 = -(((0x80 * 256 + 0x64 : Nat) : Int) - 0x8000) ∧
      decode_speed 0x64 0x80 = -(((0x80 * 256 + 0x64 : Nat) : Int) - 0x8000)) ∧
    decode_x 0x64 0x80 = decode_speed 0x64 0x80 ∧
    -32767 ≤ decode_x 0x64 0x80 ∧ decode_x 0x64 0x80 ≤ 32767) :=
  ⟨by decide, sign_magnitude_decoding 0x64 0x80 (by decide) (by decide)⟩

/-! ## Round trip of a target record -/

theorem length_eight {α : Type} (b : List α) (h : b.length = 8) :
    ∃ b0 b1 b2 b3 b4 b5 b6 b7, b = [b0, b1, b2, b3, b4, b5, b6, b7] := by
  match b, h with
  | [b0, b1, b2, b3, b4, b5, b6, b7], _ => exact ⟨b0, b1, b2, b3, b4, b5, b6, b7, rfl⟩

theorem encode_decode_x (lo hi : Nat) (hlo : lo < 256) (hhi : hi < 256)
    (h : le16 lo hi ≠ 0x8000) :
    encode_le16 (encode_sign_magnitude (decode_x lo hi)) = [lo, hi] := by
  rw [le16_eq lo hi hlo] at h
  rw [decode_x_value lo hi hlo hhi]
  unfold encode_le16 encode_sign_magnitude
  split_ifs <;> simp <;> omega

theorem encode_decode_speed (lo hi : Nat) (hlo : lo < 256) (hhi : hi < 256)
    (h : le16 lo hi ≠ 0x8000) :
    encode_le16 (encode_sign_magnitude (decode_speed lo hi)) = [lo, hi] := by
  rw [le16_eq lo hi hlo] at h
  rw [decode_speed_value lo hi hlo hhi]
  unfold encode_le16 encode_sign_magnitude
  split_ifs <;> simp <;> omega

theorem encode_decode_y (lo hi : Nat) (hlo : lo < 256) (hhi : hi < 256)
    (h : le16 lo hi ≠ 0x8000) :
    encode_le16 (encode_y (decode_y lo hi)) = [lo, hi] := by
  rw [le16_eq lo hi hlo] at h
  rw [decode_y_value lo hi hlo hhi]
  unfold encode_le16 encode_y
  split_ifs <;> simp <;> omega

theorem encode_decode_distance_resolution (lo hi : Nat) (hlo : lo < 256) (hhi : hi < 256) :
    encode_le16 (decode_distance_resolution lo hi).toNat = [lo, hi] := by
  rw [decode_distance_resolution_value lo hi hlo hhi]
  unfold encode_le16
  simp
  omega

theorem encode_decode_record (b : List Nat) (hb : canonical_record b) :
    encode_record (decode_record false b 0) = b := by
  obtain ⟨hlen, hbytes, hx, hy, hs⟩ := hb
  obtain ⟨b0, b1, b2, b3, b4, b5, b6, b7, rfl⟩ := length_eight b hlen
  have h0 := hbytes 0 (by decide)
  have h1 := hbytes 1 (by decide)
  have h2 := hbytes 2 (by decide)
  have h3 := hbytes 3 (by decide)
  have h4 := hbytes 4 (by decide)
  have h5 := hbytes 5 (by decide)
  have h6 := hbytes 6 (by decide)
  have h7 := hbytes 7 (by decide)
  simp only [byteAt, List.getD_cons_zero, List.getD_cons_succ] at h0 h1 h2 h3 h4 h5 h6 h7 hx hy hs
  simp only [encode_record, decode_record, byteAt, Nat.zero_add, List.getD_cons_zero,
    List.getD_cons_succ]
  rw [flip_x_false _ (decode_x_range b0 b1 h0 h1), encode_decode_x b0 b1 h0 h1 hx,
    encode_decode_y b2 b3 h2 h3 hy, encode_decode_speed b4 b5 h4 h5 hs,
    encode_decode_distance_resolution b6 b7 h6 h7]
  rfl

theorem decode_record_flip (b : List Nat) (hb : canonical_record b) :
    decode_record true b 0 =
      { decode_record false b 0 with x := -(decode_record false b 0).x } := by
  obtain ⟨_, hbytes, _, _, _⟩ := hb
  have hr := decode_x_range (byteAt b (0 + 0)) (byteAt b (0 + 1)) (hbytes 0 (by decide))
    (hbytes 1 (by decide))
  simp only [decode_record]
  rw [flip_x_true _ hr, flip_x_false _ hr]

theorem decode_record_unflip (b c : List Nat) (hb : canonical_record b)
    (hc : canonical_record c) (flip : Bool)
    (h : decode_record flip c 0 = decode_record flip b 0) :
    decode_record false c 0 = decode_record false b 0 := by
  cases flip with
  | false => exact h
  | true =>
    rw [decode_record_flip b hb, decode_record_flip c hc] at h
    have hx : (decode_record false c 0).x = (decode_record false b 0).x := by
      have := congrArg Values.x h
      simp only [neg_inj] at this
      exact this
    have hy := congrArg Values.y h
    have hs := congrArg Values.speed h
    have hd := congrArg Values.distance_resolution h
    simp only at hy hs hd
    cases hb0 : decode_record false b 0
    cases hc0 : decode_record false c 0
    rw [hb0, hc0] at hx hy hs hd
    simp only at hx hy hs hd
    rw [hx, hy, hs, hd]

/-- C3 (as amended): for every 8-byte record none of whose `x`, `y`, `speed`
fields is the raw value `0x8000`, re-encoding the values decoded by
`process_message` (flip-x off) in the wire encoding reproduces the record, and
the decoding (with or without flip-x) is injective on such records. -/
theorem record_round_trip (b : List Nat) (hb : canonical_record b) :
    encode_record (decode_record false b 0) = b ∧
    ∀ (flip : Bool) (c : List Nat), canonical_record c →
      decode_record flip c 0 = decode_record flip b 0 → c = b := by
  refine ⟨encode_decode_record b hb, ?_⟩
  intro flip c hc h
  have h0 := decode_record_unflip b c hb hc flip h
  rw [← encode_decode_record b hb, ← encode_decode_record c hc, h0]

/-- The first record of `sample_payload` is canonical. -/
theorem sample_record_canonical :
    canonical_record [0x64, 0x00, 0xF4, 0x81, 0x00, 0x00, 0x0A, 0x00] := by
  unfold canonical_record
  decide

/-- Witness of C3 (as amended) on the record `64 00 F4 81 00 00 0A 00`. -/
theorem record_round_trip_witness :
    canonical_record [0x64, 0x00, 0xF4, 0x81, 0x00, 0x00, 0x0A, 0x00] ∧
    (encode_record (decode_record false [0x64, 0x00, 0xF4, 0x81, 0x00, 0x00, 0x0A, 0x00] 0) =
        [0x64, 0x00, 0xF4, 0x81, 0x00, 0x00, 0x0A, 0x00] ∧
      ∀ (flip : Bool) (c : List Nat), canonical_record c →
        decode_record flip c 0 =
          decode_record flip [0x64, 0x00, 0xF4, 0x81, 0x00, 0x00, 0x0A, 0x00] 0 →
        c = [0x64, 0x00, 0xF4, 0x81, 0x00, 0x00, 0x0A, 0x00]) :=
  ⟨sample_record_canonical, record_round_trip _ sample_record_canonical⟩

/-- C3 (counterexample): the record `00 80 00 00 00 00 00 00` (raw `x` field
`0x8000`) decodes to the same values as the all-zero record, so re-encoding
does not reproduce it and the decoding is not injective; the same happens for
the raw `y` field `0x8000`. -/
theorem record_round_trip_fails :
    encode_record (decode_record false [0x00, 0x80, 0, 0, 0, 0, 0, 0] 0) ≠
        [0x00, 0x80, 0, 0, 0, 0, 0, 0] ∧
    decode_record false [0x00, 0x80, 0, 0, 0, 0, 0, 0] 0 =
        decode_record false [0, 0, 0, 0, 0, 0, 0, 0] 0 ∧
    encode_record (decode_record false [0, 0, 0x00, 0x80, 0, 0, 0, 0] 0) ≠
        [0, 0, 0x00, 0x80, 0, 0, 0, 0] ∧
    decode_record false [0, 0, 0x00, 0x80, 0, 0, 0, 0] 0 =
        decode_record false [0, 0, 0, 0, 0, 0, 0, 0] 0 := by
  decide

/-! ## Outbound framing -/

theorem write_command_bytes_eq (msg : List Nat) :
    write_command_bytes msg msg.length =
      [0xFD, 0xFC, 0xFB, 0xFA] ++ [msg.length % 256, 0] ++ msg ++ [0x04, 0x03, 0x02, 0x01] := by
  have h : toUInt8 (msg.length <<< 8) = 0 := by
    unfold toUInt8
    rw [Nat.shiftLeft_eq]
    omega
  simp only [write_command_bytes, h]
  simp [toUInt8]

theorem write_command_of_length_256 (msg : List Nat) (h : msg.length = 256) :
    write_command_bytes msg 256 =
      [0xFD, 0xFC, 0xFB, 0xFA, 0x00, 0x00] ++ msg ++ [0x04, 0x03, 0x02, 0x01] ∧
    config_frame msg =
      [0xFD, 0xFC, 0xFB, 0xFA, 0x00, 0x01] ++ msg ++ [0x04, 0x03, 0x02, 0x01] ∧
    write_command_bytes msg 256 ≠ config_frame msg := by
  have h1 := write_command_bytes_eq msg
  rw [h] at h1
  have h2 : config_frame msg =
      [0xFD, 0xFC, 0xFB, 0xFA, 0x00, 0x01] ++ msg ++ [0x04, 0x03, 0x02, 0x01] := by
    simp [config_frame, h]
  refine ⟨by rw [h1]; rfl, h2, ?_⟩
  rw [h1, h2]
  simp

/-- C8 (the code at the failing input): for a payload of 256 zero bytes
`write_command` writes the length bytes `00 00`, where the little-endian
16-bit length of the frame format is `00 01`. -/
theorem write_command_256 :
    write_command_bytes (List.replicate 256 0) 256 =
      [0xFD, 0xFC, 0xFB, 0xFA, 0x00, 0x00] ++ List.replicate 256 0 ++
        [0x04, 0x03, 0x02, 0x01] ∧
    config_frame (List.replicate 256 0) =
      [0xFD, 0xFC, 0xFB, 0xFA, 0x00, 0x01] ++ List.replicate 256 0 ++
        [0x04, 0x03, 0x02, 0x01] ∧
    write_command_bytes (List.replicate 256 0) 256 ≠ config_frame (List.replicate 256 0) :=
  write_command_of_length_256 _ (List.length_replicate 256 0)

/-- For payloads shorter than 256 bytes the written frame is the frame of the
wire format. -/
theorem write_command_short (msg : List Nat) (h : msg.length < 256) :
    write_command_bytes msg msg.length = config_frame msg := by
  rw [write_command_bytes_eq]
  have h0 : msg.length / 256 = 0 := by omega
  simp [config_frame, h0]

/-! ## Polling on concrete input -/

theorem header_scan_eq {T : Type} (fuel : Nat) (s : Hub T) :
    header_scan fuel s =
      { s with
        peek_status_ := (scan_bytes fuel s.peek_status_ s.rx).1
        rx := (scan_bytes fuel s.peek_status_ s.rx).2 } := by
  induction fuel generalizing s with
  | zero => rfl
  | succ n ih =>
    unfold header_scan scan_bytes
    by_cases h : s.peek_status_ = 0 ∧ s.rx.length ≥ 4
    · rw [if_pos h, if_pos h, ih]
      unfold scan_iteration
      by_cases h2 : (read_header (if s.rx.head? = some 0xAA then (update_header, 1)
          else (config_header, 2)).1 s.rx).1 = true
      · simp only [h2, if_true]
      · simp only [h2, if_false]
        rfl
    · rw [if_neg h, if_neg h]

theorem command_stage_idle {T : Type} (k : Constants) (now : Nat) (s : Hub T)
    (hq : s.command_queue_ = []) (hm : s.configuration_mode_ = false) :
    command_stage k now s = s := by
  unfold command_stage
  simp [hq, hm]

theorem run_silent_fixed {T : Type} (ops : TargetOps T) (k : Constants) (s : Hub T)
    (h : ∀ now, loop ops k now (receive s []) = s) (times : List Nat) :
    run ops k (silent_polls times) s = s := by
  induction times with
  | nil => rfl
  | cons t ts ih =>
    simp only [silent_polls, List.map_cons, run] at ih ⊢
    rw [h t]
    exact ih

theorem exact_frame_first_poll {T : Type} (ops : TargetOps T) (k : Constants)
    (targets_ : List T) (margin : Int) (now : Nat) :
    loop ops k now (receive (initial_hub targets_ margin) sample_frame) =
      { initial_hub targets_ margin with
        peek_status_ := 1, rx := sample_payload ++ [0x55, 0xCC] } := by
  rfl

theorem exact_frame_next_poll {T : Type} (ops : TargetOps T) (k : Constants)
    (targets_ : List T) (margin : Int) (now : Nat) :
    loop ops k now (receive { initial_hub targets_ margin with
        peek_status_ := 1, rx := sample_payload ++ [0x55, 0xCC] } []) =
      { initial_hub targets_ margin with
        peek_status_ := 1, rx := sample_payload ++ [0x55, 0xCC] } := by
  rfl

/-- C1 (the code at the failing input): from the initial state, when the
receive buffer holds exactly the 30-byte frame, the first `loop()` consumes
the header and every later `loop()` changes nothing: `process_message` is not
run, the targets and the occupancy are untouched, the classification stays
pending and the 26 bytes after the header stay in the buffer. -/
theorem exact_frame_not_decoded {T : Type} (ops : TargetOps T) (k : Constants)
    (targets_ : List T) (margin : Int) (now : Nat) (later : List Nat) :
    (run ops k ({ now := now, incoming := sample_frame } :: silent_polls later)
        (initial_hub targets_ margin)).events = [] ∧
    (run ops k ({ now := now, incoming := sample_frame } :: silent_polls later)
        (initial_hub targets_ margin)).targets_ = targets_ ∧
    (run ops k ({ now := now, incoming := sample_frame } :: silent_polls later)
        (initial_hub targets_ margin)).is_occupied_ = false ∧
    (run ops k ({ now := now, incoming := sample_frame } :: silent_polls later)
        (initial_hub targets_ margin)).peek_status_ = 1 ∧
    (run ops k ({ now := now, incoming := sample_frame } :: silent_polls later)
        (initial_hub targets_ margin)).rx = sample_payload ++ [0x55, 0xCC] := by
  have h : run ops k ({ now := now, incoming := sample_frame } :: silent_polls later)
      (initial_hub targets_ margin) =
      { initial_hub targets_ margin with
        peek_status_ := 1, rx := sample_payload ++ [0x55, 0xCC] } := by
    simp only [run]
    rw [exact_frame_first_poll]
    exact run_silent_fixed ops k _ (exact_frame_next_poll ops k targets_ margin) later
  rw [h]
  exact ⟨rfl, rfl, rfl, rfl, rfl⟩

/-- With two further bytes behind the frame the decode of C1 takes place:
target 1 holds `(100, 500, 0, 10)` and is present, the other two are absent,
occupancy is true and one target is counted. -/
theorem frame_and_two_bytes_decoded :
    (loop targetOps sample_constants 0
        (receive (initial_hub fresh_targets 250) (sample_frame ++ [0, 0]))).targets_ =
      [{ x := 100, y := 500, speed := 0, distance_resolution := 10, present := true },
        Target.fresh, Target.fresh] ∧
    (loop targetOps sample_constants 0
        (receive (initial_hub fresh_targets 250) (sample_frame ++ [0, 0]))).is_occupied_ = true ∧
    target_count targetOps (loop targetOps sample_constants 0
        (receive (initial_hub fresh_targets 250) (sample_frame ++ [0, 0]))).targets_ = 1 ∧
    (loop targetOps sample_constants 0
        (receive (initial_hub fresh_targets 250) (sample_frame ++ [0, 0]))).events =
      [Event.process_message sample_payload] := by
  decide

theorem stray_byte_first_poll {T : Type} (ops : TargetOps T) (k : Constants)
    (targets_ : List T) (margin : Int) (now : Nat) :
    loop ops k now (receive (initial_hub targets_ margin) ([0xAA] ++ sample_frame ++ [0, 0])) =
      { initial_hub targets_ margin with rx := [0xCC, 0, 0] } := by
  have e : scan_bytes 33 0 ([0xAA] ++ sample_frame ++ [0, 0]) = (0, [0xCC, 0, 0]) := by decide
  have e2 : scan_bytes
      (receive (initial_hub targets_ margin) ([0xAA] ++ sample_frame ++ [0, 0])).rx.length
      (receive (initial_hub targets_ margin) ([0xAA] ++ sample_frame ++ [0, 0])).peek_status_
      (receive (initial_hub targets_ margin) ([0xAA] ++ sample_frame ++ [0, 0])).rx =
      (0, [0xCC, 0, 0]) := e
  unfold loop receive_stage
  rw [command_stage_idle _ _ _ rfl rfl, header_scan_eq, e2]
  rfl

theorem stray_byte_next_poll {T : Type} (ops : TargetOps T) (k : Constants)
    (targets_ : List T) (margin : Int) (now : Nat) :
    loop ops k now (receive { initial_hub targets_ margin with rx := [0xCC, 0, 0] } []) =
      { initial_hub targets_ margin with rx := [0xCC, 0, 0] } := by
  rfl

/-- C2 (the code at the failing input): with the single garbage byte `AA` in
front of a valid frame that is followed by two bytes, the scan discards the
first byte of the frame header together with the garbage; the frame is never
decoded, whatever the number of polls, and all but three bytes are consumed. -/
theorem stray_byte_loses_frame {T : Type} (ops : TargetOps T) (k : Constants)
    (targets_ : List T) (margin : Int) (now : Nat) (later : List Nat) :
    (run ops k ({ now := now, incoming := [0xAA] ++ sample_frame ++ [0, 0] } ::
        silent_polls later) (initial_hub targets_ margin)).events = [] ∧
    (run ops k ({ now := now, incoming := [0xAA] ++ sample_frame ++ [0, 0] } ::
        silent_polls later) (initial_hub targets_ margin)).targets_ = targets_ ∧
    (run ops k ({ now := now, incoming := [0xAA] ++ sample_frame ++ [0, 0] } ::
        silent_polls later) (initial_hub targets_ margin)).peek_status_ = 0 ∧
    (run ops k ({ now := now, incoming := [0xAA] ++ sample_frame ++ [0, 0] } ::
        silent_polls later) (initial_hub targets_ margin)).rx = [0xCC, 0, 0] := by
  have h : run ops k ({ now := now, incoming := [0xAA] ++ sample_frame ++ [0, 0] } ::
      silent_polls later) (initial_hub targets_ margin) =
      { initial_hub targets_ margin with rx := [0xCC, 0, 0] } := by
    simp only [run]
    rw [stray_byte_first_poll]
    exact run_silent_fixed ops k _ (stray_byte_next_poll ops k targets_ margin) later
  rw [h]
  exact ⟨rfl, rfl, rfl, rfl⟩

/-- Garbage that starts no header match is skipped: behind the bytes `01 02`
the same frame is decoded once. -/
theorem garbage_then_frame_decoded :
    (loop targetOps sample_constants 0 (receive (initial_hub fresh_targets 250)
        ([0x01, 0x02] ++ sample_frame ++ [0, 0]))).events =
      [Event.process_message sample_payload] := by
  decide

/-! ## The distance gate -/

theorem modifyAt_get {α : Type} (f : α → α) (l : List α) (j i : Nat) :
    (modifyAt f j l)[i]? = if i = j then (l[i]?).map f else l[i]? := by
  induction l generalizing i j with
  | nil => cases j <;> simp [modifyAt]
  | cons a l ih =>
    cases j with
    | zero =>
      cases i with
      | zero => simp [modifyAt]
      | succ i => simp [modifyAt]
    | succ j =>
      cases i with
      | zero => simp [modifyAt]
      | succ i => simp [modifyAt, ih]

theorem process_records_slot {T : Type} (ops : TargetOps T) (flip : Bool) (D M : Int)
    (msg : List Nat) (targets_ : List T) (i : Nat) (hi : i < 3) :
    (process_records ops flip D M msg 3 targets_)[i]? =
      (targets_[i]?).map (gate_target ops D M (decode_record flip msg (8 * i))) := by
  interval_cases i <;> simp [process_records, modifyAt_get]

theorem process_message_slot {T : Type} (ops : TargetOps T) (s : Hub T) (msg : List Nat)
    (len : Nat) (i : Nat) (hi : i < 3) :
    (process_message ops s msg len).targets_[i]? =
      (s.targets_[i]?).map (gate_target ops s.max_detection_distance_ s.max_distance_margin_
        (decode_record s.flip_x_axis_ msg (8 * i))) := by
  unfold process_message
  exact process_records_slot ops _ _ _ msg s.targets_ i hi

/-- Whatever the decoded `y`, the first call that `process_message` makes on
the target of a slot is `update_values` with the decoded values (line 196). -/
theorem gate_target_recording_first {T : Type} (ops : TargetOps T) (D M : Int) (v : Values)
    (t : T) (cs : List Call) :
    ∃ rest, gate_target (recordingOps ops) D M v (t, cs) =
      (gate_target ops D M v t,
        cs ++ Call.update_values v.x v.y v.speed v.distance_resolution :: rest) := by
  unfold gate_target
  simp only [recordingOps]
  split_ifs
  · exact ⟨[Call.update_values v.x v.y v.speed v.distance_resolution], by simp⟩
  · exact ⟨[Call.clear], by simp⟩
  · exact ⟨[], by simp⟩

/-- C6 (what the code does under the hypotheses of the claim): for a record
whose decoded `y` lies strictly between `max_detection_distance` and
`max_detection_distance + max_distance_margin`, on a target that is not
present before the frame, `process_message` calls `update_values` with the
decoded values (line 196), and calls it a second time when the target reports
present after that call; the stored target is the result of those calls. -/
theorem band_target_is_updated {T : Type} (ops : TargetOps T) (s : Hub (T × List Call))
    (msg : List Nat) (len i : Nat) (hi : i < 3) (t : T) (cs : List Call)
    (hslot : s.targets_[i]? = some (t, cs)) (_habsent : ops.is_present t = false)
    (v : Values) (hv : v = decode_record s.flip_x_axis_ msg (8 * i))
    (hband : s.max_detection_distance_ < v.y ∧
      v.y < s.max_detection_distance_ + s.max_distance_margin_) :
    (process_message (recordingOps ops) s msg len).targets_[i]? =
      some (
        if ops.is_present (ops.update_values t v.x v.y v.speed v.distance_resolution) = true then
          (ops.update_values (ops.update_values t v.x v.y v.speed v.distance_resolution)
              v.x v.y v.speed v.distance_resolution,
            cs ++ [Call.update_values v.x v.y v.speed v.distance_resolution,
              Call.update_values v.x v.y v.speed v.distance_resolution])
        else
          (ops.update_values t v.x v.y v.speed v.distance_resolution,
            cs ++ [Call.update_values v.x v.y v.speed v.distance_resolution])) := by
  rw [process_message_slot _ _ _ _ _ hi, hslot, ← hv]
  simp only [Option.map_some', gate_target, recordingOps]
  have h1 : ¬ v.y ≤ s.max_detection_distance_ := by omega
  have h2 : v.y ≤ s.max_detection_distance_ + s.max_distance_margin_ := by omega
  have h3 : ¬ v.y ≥ s.max_detection_distance_ + s.max_distance_margin_ := by omega
  by_cases hp : ops.is_present (ops.update_values t v.x v.y v.speed v.distance_resolution) = true
  · simp [hp, h1, h2]
  · simp [hp, h1, h3]

/-- Witness for C6, its failing input: with
`max_detection_distance = 6000` and margin 250, the record `y = 6100` on an
absent target without data makes it present at `(100, 6100)` through two calls
of `update_values`. -/
theorem band_target_is_updated_witness :
    (process_message (recordingOps targetOps)
        (initial_hub fresh_recording_targets 250) band_payload 24).targets_[0]? =
      some ({ x := 100, y := 6100, speed := 0, distance_resolution := 10, present := true },
        [Call.update_values 100 6100 0 10, Call.update_values 100 6100 0 10]) :=
  (band_target_is_updated targetOps (initial_hub fresh_recording_targets 250) band_payload 24 0
    (by decide) Target.fresh [] rfl rfl
    (decode_record false band_payload 0) rfl (by decide)).trans (by decide)

/-- C7 (as amended): with a positive margin, for a record whose decoded `y`
is at least `max_detection_distance + max_distance_margin`, the calls that
`process_message` makes on the target of that slot are `update_values` (line
196) followed by `clear`, and the stored target is the cleared one, except
when `y` equals `max_detection_distance + max_distance_margin` and the target
reports present at the gate: then the second call is `update_values` and the
target is not cleared. -/
theorem far_target_is_cleared {T : Type} (ops : TargetOps T) (s : Hub (T × List Call))
    (msg : List Nat) (len i : Nat) (hi : i < 3) (t : T) (cs : List Call)
    (hslot : s.targets_[i]? = some (t, cs))
    (v : Values) (hv : v = decode_record s.flip_x_axis_ msg (8 * i))
    (hmargin : 0 < s.max_distance_margin_)
    (hfar : v.y ≥ s.max_detection_distance_ + s.max_distance_margin_) :
    (process_message (recordingOps ops) s msg len).targets_[i]? =
      some (
        if v.y = s.max_detection_distance_ + s.max_distance_margin_ ∧
            ops.is_present (ops.update_values t v.x v.y v.speed v.distance_resolution) = true then
          (ops.update_values (ops.update_values t v.x v.y v.speed v.distance_resolution)
              v.x v.y v.speed v.distance_resolution,
            cs ++ [Call.update_values v.x v.y v.speed v.distance_resolution,
              Call.update_values v.x v.y v.speed v.distance_resolution])
        else
          (ops.clear (ops.update_values t v.x v.y v.speed v.distance_resolution),
            cs ++ [Call.update_values v.x v.y v.speed v.distance_resolution, Call.clear])) := by
  rw [process_message_slot _ _ _ _ _ hi, hslot, ← hv]
  simp only [Option.map_some', gate_target, recordingOps]
  have h1 : ¬ v.y ≤ s.max_detection_distance_ := by omega
  by_cases hp : ops.is_present (ops.update_values t v.x v.y v.speed v.distance_resolution) = true
  · by_cases he : v.y = s.max_detection_distance_ + s.max_distance_margin_
    · have h2 : v.y ≤ s.max_detection_distance_ + s.max_distance_margin_ := by omega
      rw [if_pos (Or.inr ⟨hp, h2⟩), if_pos ⟨he, hp⟩]
      simp
    · have h2 : ¬ v.y ≤ s.max_detection_distance_ + s.max_distance_margin_ := by omega
      rw [if_neg (not_or.mpr ⟨h1, fun h => h2 h.2⟩), if_pos hfar, if_neg (fun h => he h.1)]
      simp
  · rw [if_neg (not_or.mpr ⟨h1, fun h => hp h.1⟩), if_pos hfar, if_neg (fun h => hp h.2)]
    simp

/-- Witness of C7 (as amended): with `max_detection_distance = 6000` and
margin 250, a target present at `y = 6000` that moves to `y = 6251` is updated
and then cleared: it is absent and its values are zero. -/
theorem far_target_is_cleared_witness :
    (process_message (recordingOps targetOps)
        (initial_hub tracked_recording_targets 250) far_payload 24).targets_[0]? =
      some ({ x := 0, y := 0, speed := 0, distance_resolution := 0, present := false },
        [Call.update_values 100 6251 0 10, Call.clear]) :=
  (far_target_is_cleared targetOps (initial_hub tracked_recording_targets 250) far_payload 24 0
    (by decide)
    { x := 100, y := 6000, speed := 0, distance_resolution := 10, present := true } [] rfl
    (decode_record false far_payload 0) rfl (by decide) (by decide)).trans (by decide)

/-- C7 (counterexample): with `max_detection_distance = 6000` and margin 250,
a target present at `y = 6000` that moves to `y = 6250 = D + M` is not
cleared: both calls are `update_values`, and the target stays present with
the new values. -/
theorem boundary_target_not_cleared :
    (decode_record false boundary_payload 0).y = 6000 + 250 ∧
    (process_message (recordingOps targetOps)
        (initial_hub tracked_recording_targets 250) boundary_payload 24).targets_[0]? =
      some ({ x := 100, y := 6250, speed := 0, distance_resolution := 10, present := true },
        [Call.update_values 100 6250 0 10, Call.update_values 100 6250 0 10]) := by
  decide

/-! ## What the receive stage leaves alone -/

theorem header_scan_fields {T : Type} (fuel : Nat) (s : Hub T) :
    (header_scan fuel s).events = s.events ∧
    command_state (header_scan fuel s) = command_state s := by
  rw [header_scan_eq]
  exact ⟨rfl, rfl⟩

theorem update_stage_fields {T : Type} (ops : TargetOps T) (s : Hub T) :
    ∃ es, (update_stage ops s).1.events = s.events ++ es ∧
      (∀ e ∈ es, ∃ payload, e = Event.process_message payload) ∧
      command_state (update_stage ops s).1 = command_state s := by
  unfold update_stage
  by_cases h : s.peek_status_ = 1 ∧ s.rx.length ≥ 28
  · rw [if_pos h]
    by_cases h2 : byteAt (s.rx.take 26) 24 ≠ 0x55 ∨ byteAt (s.rx.take 26) 25 ≠ 0xCC
    · simp only [if_pos h2]
      exact ⟨[], by simp, by simp, rfl⟩
    · simp only [if_neg h2]
      exact ⟨[Event.process_message ((s.rx.take 26).take 24)], rfl, by simp, rfl⟩
  · rw [if_neg h]
    exact ⟨[], by simp, by simp, rfl⟩

theorem acknowledge_events {T : Type} (s : Hub T) (msg : List Nat) :
    (acknowledge s msg).events = s.events ∧ (acknowledge s msg).tx = s.tx := by
  unfold acknowledge
  simp only []
  split_ifs <;> exact ⟨rfl, rfl⟩

theorem track_configuration_mode_events {T : Type} (k : Constants) (s : Hub T)
    (msg : List Nat) :
    (track_configuration_mode k s msg).events = s.events ∧
      (track_configuration_mode k s msg).tx = s.tx := by
  unfold track_configuration_mode
  simp only []
  split_ifs <;> exact ⟨rfl, rfl⟩

theorem report_version_events {T : Type} (k : Constants) (s : Hub T) (msg : List Nat) :
    ∃ es, (report_version k s msg).events = s.events ++ es ∧
      (∀ m l, Event.write_command m l ∉ es) ∧ (report_version k s msg).tx = s.tx := by
  unfold report_version
  split_ifs
  · exact ⟨_, rfl, by simp, rfl⟩
  · exact ⟨[], by simp, by simp, rfl⟩

theorem process_config_message_events {T : Type} (k : Constants) (s : Hub T) (msg : List Nat)
    (len : Nat) :
    ∃ es, (process_config_message k s msg len).events =
        s.events ++ Event.process_config_message msg len :: es ∧
      (∀ m l, Event.write_command m l ∉ es) ∧
      (process_config_message k s msg len).tx = s.tx := by
  unfold process_config_message
  simp only []
  obtain ⟨es, he, hw, ht⟩ := report_version_events k (track_configuration_mode k
    (acknowledge { s with events := s.events ++ [Event.process_config_message msg len] } msg)
    msg) msg
  refine ⟨es, ?_, hw, ?_⟩
  · rw [he, (track_configuration_mode_events k _ msg).1, (acknowledge_events _ msg).1]
    simp
  · rw [ht, (track_configuration_mode_events k _ msg).2, (acknowledge_events _ msg).2]

theorem read_content_length_fields {T : Type} (s : Hub T) :
    (read_content_length s).events = s.events ∧
    command_state (read_content_length s) = command_state s := by
  unfold read_content_length
  split_ifs <;> exact ⟨rfl, rfl⟩

theorem read_config_frame_fields {T : Type} (k : Constants) (s : Hub T) :
    ∃ es, (read_config_frame k s).events = s.events ++ es ∧
      (∀ m l, Event.write_command m l ∉ es) ∧
      (read_config_frame k s).tx = s.tx ∧
      (es.all (fun e => !e.is_config_decode) = true →
        command_state (read_config_frame k s) = command_state s) := by
  unfold read_config_frame
  by_cases h : s.rx.length ≥ s.configuration_message_length_ + 4
  · rw [if_pos h]
    simp only []
    split_ifs with h2
    · obtain ⟨es, he, hw, ht⟩ := process_config_message_events k
        { s with rx := s.rx.drop (s.configuration_message_length_ + 4) }
        (s.rx.take (s.configuration_message_length_ + 4)) s.configuration_message_length_
      refine ⟨Event.process_config_message _ _ :: es, he, ?_, ht, ?_⟩
      · intro m l hm
        simp only [List.mem_cons] at hm
        rcases hm with hm | hm
        · cases hm
        · exact hw m l hm
      · intro hall
        simp [Event.is_config_decode] at hall
    · exact ⟨[], by simp, by simp, rfl, fun _ => rfl⟩
  · rw [if_neg h]
    exact ⟨[], by simp, by simp, rfl, fun _ => rfl⟩

theorem config_stage_fields {T : Type} (k : Constants) (s : Hub T) :
    ∃ es, (config_stage k s).events = s.events ++ es ∧
      (∀ m l, Event.write_command m l ∉ es) ∧
      (config_stage k s).tx = s.tx ∧
      (es.all (fun e => !e.is_config_decode) = true →
        command_state (config_stage k s) = command_state s) := by
  unfold config_stage
  split_ifs with h
  · obtain ⟨es, he, hw, ht, hc⟩ := read_config_frame_fields k (read_content_length s)
    have hr := read_content_length_fields s
    refine ⟨es, by rw [he, hr.1], hw, ?_, fun hall => by rw [hc hall, hr.2]⟩
    rw [ht]
    exact congrArg (fun c => c.2.2.2.2) hr.2
  · exact ⟨[], by simp, by simp, rfl, fun _ => rfl⟩

theorem receive_stage_fields {T : Type} (ops : TargetOps T) (k : Constants) (s : Hub T) :
    ∃ es, (receive_stage ops k s).events = s.events ++ es ∧
      (∀ m l, Event.write_command m l ∉ es) ∧
      (receive_stage ops k s).tx = s.tx ∧
      (es.all (fun e => !e.is_config_decode) = true →
        command_state (receive_stage ops k s) = command_state s) := by
  unfold receive_stage
  simp only []
  obtain ⟨es1, he1, hk1, hc1⟩ := update_stage_fields ops (header_scan s.rx.length s)
  have hs := header_scan_fields s.rx.length s
  rw [hs.1] at he1
  rw [hs.2] at hc1
  have hw1 : ∀ m l, Event.write_command m l ∉ es1 := by
    intro m l hm
    obtain ⟨payload, hp⟩ := hk1 _ hm
    cases hp
  have ht1 : (update_stage ops (header_scan s.rx.length s)).1.tx = s.tx :=
    congrArg (fun c => c.2.2.2.2) hc1
  split_ifs with h
  · exact ⟨es1, he1, hw1, ht1, fun _ => hc1⟩
  · obtain ⟨es2, he2, hw2, ht2, hc2⟩ :=
      config_stage_fields k (update_stage ops (header_scan s.rx.length s)).1
    refine ⟨es1 ++ es2, ?_, ?_, ?_, ?_⟩
    · rw [he2, he1, List.append_assoc]
    · intro m l hm
      rcases List.mem_append.mp hm with hm | hm
      · exact hw1 m l hm
      · exact hw2 m l hm
    · rw [ht2, ht1]
    · intro hall
      rw [List.all_append, Bool.and_eq_true] at hall
      rw [hc2 hall.2, hc1]

/-! ## The command stage -/

theorem head_eq_some_headD {α : Type} (l : List α) (d : α) (h : l ≠ []) :
    l.head? = some (l.headD d) := by
  cases l with
  | nil => exact absurd rfl h
  | cons a l => rfl

theorem inject_enter_config_queue {T : Type} (k : Constants) (s : Hub T) :
    (inject_enter_config k s).command_queue_ = s.command_queue_ ∨
    (inject_enter_config k s).command_queue_ =
      [k.COMMAND_ENTER_CONFIG, 0x00, 0x01, 0x00] :: s.command_queue_ := by
  unfold inject_enter_config
  split_ifs
  · exact Or.inr rfl
  · exact Or.inl rfl

theorem inject_enter_config_fields {T : Type} (k : Constants) (s : Hub T) :
    (inject_enter_config k s).events = s.events ∧
    (inject_enter_config k s).tx = s.tx ∧
    (inject_enter_config k s).configuration_mode_ = s.configuration_mode_ ∧
    (inject_enter_config k s).command_send_retries_ = s.command_send_retries_ ∧
    (inject_enter_config k s).command_last_sent_ = s.command_last_sent_ := by
  unfold inject_enter_config
  split_ifs <;> exact ⟨rfl, rfl, rfl, rfl, rfl⟩

theorem inject_enter_config_front {T : Type} (k : Constants) (s : Hub T)
    (hmode : s.configuration_mode_ = false) :
    (inject_enter_config k s).command_queue_.head?.bind opcode =
      some k.COMMAND_ENTER_CONFIG := by
  unfold inject_enter_config
  by_cases h : s.command_queue_.head?.bind opcode = some k.COMMAND_ENTER_CONFIG
  · rw [if_neg (fun hc => hc.2 h)]
    exact h
  · rw [if_pos ⟨hmode, h⟩]
    rfl

theorem inject_enter_config_skip {T : Type} (k : Constants) (s : Hub T) (c : List Nat)
    (rest : List (List Nat)) (hq : s.command_queue_ = c :: rest)
    (h : s.configuration_mode_ = true ∨ opcode c = some k.COMMAND_ENTER_CONFIG) :
    inject_enter_config k s = s := by
  unfold inject_enter_config
  rw [if_neg]
  rintro ⟨hm, hne⟩
  rcases h with h | h
  · rw [h] at hm
    cases hm
  · apply hne
    rw [hq]
    exact h

theorem retransmit_writes {T : Type} (k : Constants) (now : Nat) (s : Hub T) :
    ∃ es, (retransmit k now s).events = s.events ++ es ∧
      ∀ m l, Event.write_command m l ∈ es →
        m = s.command_queue_.headD [] ∧ l = m.length := by
  unfold retransmit
  split_ifs
  · exact ⟨[Event.command_timeout], rfl, by simp⟩
  · refine ⟨[Event.write_command (s.command_queue_.headD []) (s.command_queue_.headD []).length],
      rfl, ?_⟩
    intro m l hm
    simp only [List.mem_singleton, Event.write_command.injEq] at hm
    obtain ⟨rfl, rfl⟩ := hm
    exact ⟨rfl, rfl⟩
  · exact ⟨[], by simp, by simp⟩

theorem command_stage_writes {T : Type} (k : Constants) (now : Nat) (s : Hub T) :
    ∃ es, (command_stage k now s).events = s.events ++ es ∧
      ∀ m l, Event.write_command m l ∈ es →
        (inject_enter_config k s).command_queue_.head? = some m ∧ l = m.length ∧
          s.command_queue_ ≠ [] := by
  unfold command_stage
  split_ifs with h h2
  · obtain ⟨es, he, hw⟩ := retransmit_writes k now (inject_enter_config k s)
    refine ⟨es, by rw [he, (inject_enter_config_fields k s).1], ?_⟩
    intro m l hm
    obtain ⟨h1, h2⟩ := hw m l hm
    have hne : s.command_queue_ ≠ [] := by
      intro hc
      rw [hc] at h
      simp at h
    have hne2 : (inject_enter_config k s).command_queue_ ≠ [] := by
      rcases inject_enter_config_queue k s with hq | hq <;> rw [hq]
      · exact hne
      · simp
    exact ⟨by rw [head_eq_some_headD _ [] hne2, h1], h2, hne⟩
  · exact ⟨[], by simp, by simp⟩
  · exact ⟨[], by simp, by simp⟩

theorem new_events_append {T : Type} (s s1 : Hub T) (es : List Event)
    (h : s1.events = s.events ++ es) : new_events s s1 = es := by
  unfold new_events
  rw [h, List.drop_left]

theorem loop_writes {T : Type} (ops : TargetOps T) (k : Constants) (now : Nat) (s : Hub T)
    (m : List Nat) (l : Nat)
    (h : Event.write_command m l ∈ new_events s (loop ops k now s)) :
    (inject_enter_config k s).command_queue_.head? = some m ∧ l = m.length ∧
      s.command_queue_ ≠ [] := by
  obtain ⟨es1, he1, hw1⟩ := command_stage_writes k now s
  obtain ⟨es2, he2, hw2, _, _⟩ := receive_stage_fields ops k (command_stage k now s)
  have he : (loop ops k now s).events = s.events ++ (es1 ++ es2) := by
    unfold loop
    rw [he2, he1, List.append_assoc]
  rw [new_events_append s _ _ he] at h
  rcases List.mem_append.mp h with h | h
  · exact hw1 m l h
  · exact absurd h (hw2 m l)

/-! ## How configuration mode becomes active -/

theorem enter_ack_logged_mono (k : Constants) (es1 es2 : List Event)
    (h : enter_ack_logged k es1 ∨ enter_ack_logged k es2) :
    enter_ack_logged k (es1 ++ es2) := by
  rcases h with ⟨m, l, hm, hb⟩ | ⟨m, l, hm, hb⟩
  · exact ⟨m, l, List.mem_append.mpr (Or.inl hm), hb⟩
  · exact ⟨m, l, List.mem_append.mpr (Or.inr hm), hb⟩

theorem track_configuration_mode_activates {T : Type} (k : Constants) (s : Hub T)
    (msg : List Nat) (h1 : (track_configuration_mode k s msg).configuration_mode_ = true)
    (h0 : s.configuration_mode_ = false) :
    byteAt msg 0 = k.COMMAND_ENTER_CONFIG ∧ byteAt msg 1 = 1 := by
  unfold track_configuration_mode at h1
  simp only [] at h1
  by_cases ha : byteAt msg 0 = k.COMMAND_LEAVE_CONFIG ∧ byteAt msg 1 = 1
  · rw [if_pos ha] at h1
    cases h1
  · rw [if_neg ha] at h1
    by_cases hb : byteAt msg 0 = k.COMMAND_ENTER_CONFIG ∧ byteAt msg 1 = 1
    · exact hb
    · rw [if_neg hb, h0] at h1
      cases h1

theorem acknowledge_mode {T : Type} (s : Hub T) (msg : List Nat) :
    (acknowledge s msg).configuration_mode_ = s.configuration_mode_ := by
  unfold acknowledge
  simp only []
  split_ifs <;> rfl

theorem report_version_mode {T : Type} (k : Constants) (s : Hub T) (msg : List Nat) :
    (report_version k s msg).configuration_mode_ = s.configuration_mode_ := by
  unfold report_version
  split_ifs <;> rfl

theorem process_config_message_trace {T : Type} (k : Constants) (s : Hub T)
    (msg : List Nat) (len : Nat) :
    ∃ es, (process_config_message k s msg len).events = s.events ++ es ∧
      ((process_config_message k s msg len).configuration_mode_ = true →
        s.configuration_mode_ = false → enter_ack_logged k es) := by
  obtain ⟨es, he, _, _⟩ := process_config_message_events k s msg len
  refine ⟨_, he, ?_⟩
  intro h1 h0
  unfold process_config_message at h1
  simp only [report_version_mode] at h1
  have hb := track_configuration_mode_activates k _ msg h1 (by rw [acknowledge_mode]; exact h0)
  exact ⟨msg, len, List.mem_cons_self _ _, hb⟩

theorem read_config_frame_trace {T : Type} (k : Constants) (s : Hub T) :
    ∃ es, (read_config_frame k s).events = s.events ++ es ∧
      ((read_config_frame k s).configuration_mode_ = true →
        s.configuration_mode_ = false → enter_ack_logged k es) := by
  unfold read_config_frame
  by_cases h : s.rx.length ≥ s.configuration_message_length_ + 4
  · rw [if_pos h]
    simp only []
    by_cases h2 : byteAt (s.rx.take (s.configuration_message_length_ + 4))
        s.configuration_message_length_ = 0x04 ∧
      byteAt (s.rx.take (s.configuration_message_length_ + 4))
        (s.configuration_message_length_ + 1) = 0x03 ∧
      byteAt (s.rx.take (s.configuration_message_length_ + 4))
        (s.configuration_message_length_ + 2) = 0x02 ∧
      byteAt (s.rx.take (s.configuration_message_length_ + 4))
        (s.configuration_message_length_ + 3) = 0x01
    · rw [if_pos h2]
      exact process_config_message_trace k
        { s with rx := s.rx.drop (s.configuration_message_length_ + 4) }
        (s.rx.take (s.configuration_message_length_ + 4)) s.configuration_message_length_
    · rw [if_neg h2]
      refine ⟨[], by simp, ?_⟩
      intro h1 h0
      rw [h0] at h1
      cases h1
  · rw [if_neg h]
    refine ⟨[], by simp, ?_⟩
    intro h1 h0
    rw [h0] at h1
    cases h1

theorem config_stage_trace {T : Type} (k : Constants) (s : Hub T) :
    ∃ es, (config_stage k s).events = s.events ++ es ∧
      ((config_stage k s).configuration_mode_ = true →
        s.configuration_mode_ = false → enter_ack_logged k es) := by
  unfold config_stage
  split_ifs with h
  · obtain ⟨es, he, hm⟩ := read_config_frame_trace k (read_content_length s)
    have hr := read_content_length_fields s
    have hmode : (read_content_length s).configuration_mode_ = s.configuration_mode_ :=
      congrArg (fun c => c.2.2.2.1) hr.2
    exact ⟨es, by rw [he, hr.1], fun h1 h0 => hm h1 (by rw [hmode]; exact h0)⟩
  · refine ⟨[], by simp, ?_⟩
    intro h1 h0
    rw [h0] at h1
    cases h1

theorem receive_stage_trace {T : Type} (ops : TargetOps T) (k : Constants) (s : Hub T) :
    ∃ es, (receive_stage ops k s).events = s.events ++ es ∧
      ((receive_stage ops k s).configuration_mode_ = true →
        s.configuration_mode_ = false → enter_ack_logged k es) := by
  unfold receive_stage
  simp only []
  obtain ⟨es1, he1, _, hc1⟩ := update_stage_fields ops (header_scan s.rx.length s)
  have hs := header_scan_fields s.rx.length s
  rw [hs.1] at he1
  rw [hs.2] at hc1
  have hmode : (update_stage ops (header_scan s.rx.length s)).1.configuration_mode_ =
      s.configuration_mode_ := congrArg (fun c => c.2.2.2.1) hc1
  split_ifs with h
  · refine ⟨es1, he1, ?_⟩
    intro h1 h0
    rw [hmode, h0] at h1
    cases h1
  · obtain ⟨es2, he2, hm2⟩ :=
      config_stage_trace k (update_stage ops (header_scan s.rx.length s)).1
    refine ⟨es1 ++ es2, by rw [he2, he1, List.append_assoc], ?_⟩
    intro h1 h0
    exact enter_ack_logged_mono k es1 es2 (Or.inr (hm2 h1 (by rw [hmode]; exact h0)))

theorem retransmit_mode {T : Type} (k : Constants) (now : Nat) (s : Hub T) :
    (retransmit k now s).configuration_mode_ = s.configuration_mode_ := by
  unfold retransmit
  split_ifs <;> rfl

theorem command_stage_mode {T : Type} (k : Constants) (now : Nat) (s : Hub T) :
    (command_stage k now s).configuration_mode_ = s.configuration_mode_ := by
  unfold command_stage
  split_ifs
  · rw [retransmit_mode, (inject_enter_config_fields k s).2.2.1]
  · rfl
  · rfl

theorem loop_trace {T : Type} (ops : TargetOps T) (k : Constants) (now : Nat) (s : Hub T) :
    ∃ es, (loop ops k now s).events = s.events ++ es ∧
      ((loop ops k now s).configuration_mode_ = true →
        s.configuration_mode_ = false → enter_ack_logged k es) := by
  obtain ⟨es1, he1, _⟩ := command_stage_writes k now s
  obtain ⟨es2, he2, hm2⟩ := receive_stage_trace ops k (command_stage k now s)
  refine ⟨es1 ++ es2, by unfold loop; rw [he2, he1, List.append_assoc], ?_⟩
  intro h1 h0
  exact enter_ack_logged_mono k es1 es2
    (Or.inr (hm2 h1 (by rw [command_stage_mode]; exact h0)))

theorem run_trace {T : Type} (ops : TargetOps T) (k : Constants) (polls : List Poll)
    (s : Hub T) :
    ∃ es, (run ops k polls s).events = s.events ++ es ∧
      ((run ops k polls s).configuration_mode_ = true →
        s.configuration_mode_ = false → enter_ack_logged k es) := by
  induction polls generalizing s with
  | nil =>
    refine ⟨[], by simp [run], ?_⟩
    intro h1 h0
    simp only [run] at h1
    rw [h0] at h1
    cases h1
  | cons p ps ih =>
    obtain ⟨es1, he1, hm1⟩ := loop_trace ops k p.now (receive s p.incoming)
    obtain ⟨es2, he2, hm2⟩ := ih (loop ops k p.now (receive s p.incoming))
    have he1 : (loop ops k p.now (receive s p.incoming)).events = s.events ++ es1 := he1
    refine ⟨es1 ++ es2, by simp only [run]; rw [he2, he1, List.append_assoc], ?_⟩
    intro h1 h0
    simp only [run] at h1
    cases hmid : (loop ops k p.now (receive s p.incoming)).configuration_mode_ with
    | true => exact enter_ack_logged_mono k es1 es2 (Or.inl (hm1 hmid h0))
    | false => exact enter_ack_logged_mono k es1 es2 (Or.inr (hm2 h1 hmid))

/-- C9 (as amended): in every `loop()` of a run that begins with configuration
mode inactive, any command written by that `loop()` is the front of the queue
as it stands after the injection step and has the opcode of
`COMMAND_ENTER_CONFIG`; and when the run started with configuration mode
inactive, a command with another opcode is written only after the decoding of
an acknowledgement of `COMMAND_ENTER_CONFIG` in an earlier poll. -/
theorem only_enter_config_while_inactive {T : Type} (ops : TargetOps T) (k : Constants)
    (before : List Poll) (p : Poll) (s0 s : Hub T)
    (hs : s = receive (run ops k before s0) p.incoming)
    (msg : List Nat) (len : Nat)
    (hsent : Event.write_command msg len ∈ new_events s (loop ops k p.now s)) :
    (s.configuration_mode_ = false →
      opcode msg = some k.COMMAND_ENTER_CONFIG ∧
      (inject_enter_config k s).command_queue_.head? = some msg ∧
      len = msg.length) ∧
    (s0.configuration_mode_ = false → opcode msg ≠ some k.COMMAND_ENTER_CONFIG →
      enter_ack_logged k (new_events s0 (run ops k before s0))) := by
  obtain ⟨h1, h2, _⟩ := loop_writes ops k p.now s msg len hsent
  have key : s.configuration_mode_ = false → opcode msg = some k.COMMAND_ENTER_CONFIG := by
    intro hmode
    have h4 := inject_enter_config_front k s hmode
    rw [h1] at h4
    exact h4
  refine ⟨fun hmode => ⟨key hmode, h1, h2⟩, ?_⟩
  intro h0 hne
  obtain ⟨es, he, hm⟩ := run_trace ops k before s0
  rw [new_events_append s0 _ es he]
  apply hm _ h0
  cases hmode : s.configuration_mode_ with
  | false => exact absurd (key hmode) hne
  | true =>
    rw [hs] at hmode
    exact hmode

/-- Witness of C9 (as amended): from `queued_hub` the first `loop()` after the
retry delay writes the injected enter-configuration command; and in the run in
which the command `A0 00` is written, the acknowledgement was decoded in the
poll before. -/
theorem only_enter_config_while_inactive_witness :
    (opcode [0xFF, 0x00, 0x01, 0x00] = some sample_constants.COMMAND_ENTER_CONFIG ∧
      (inject_enter_config sample_constants (receive queued_hub [])).command_queue_.head? =
        some [0xFF, 0x00, 0x01, 0x00] ∧
      4 = [0xFF, 0x00, 0x01, 0x00].length) ∧
    enter_ack_logged sample_constants (new_events queued_hub
      (run targetOps sample_constants [{ now := 50, incoming := enter_config_ack }]
        queued_hub)) :=
  ⟨(only_enter_config_while_inactive targetOps sample_constants []
      { now := 200, incoming := [] } queued_hub (receive queued_hub []) rfl
      [0xFF, 0x00, 0x01, 0x00] 4 (by decide)).1 rfl,
    (only_enter_config_while_inactive targetOps sample_constants
      [{ now := 50, incoming := enter_config_ack }]
      { now := 200, incoming := [] } queued_hub
      (receive (run targetOps sample_constants [{ now := 50, incoming := enter_config_ack }]
        queued_hub) []) rfl
      [0xA0, 0x00] 2 (by decide)).2 rfl (by decide)⟩

/-- C9 (counterexample): the command `A0 00` is queued while configuration
mode is inactive; an acknowledgement of the enter-configuration command is
decoded in a `loop()` in which the retry delay has not elapsed, so the
injected command is removed unsent, and the next `loop()` writes `A0 00`: it
is the only command ever written. -/
theorem command_sent_without_enter_config :
    queued_hub.configuration_mode_ = false ∧
    queued_hub.command_queue_ = [[0xA0, 0x00]] ∧
    sent_commands (run targetOps sample_constants
      [{ now := 50, incoming := enter_config_ack }, { now := 200, incoming := [] }]
      queued_hub).events = [[0xA0, 0x00]] := by
  decide

/-! ## The retry cap -/

theorem sent_commands_append (es1 es2 : List Event) :
    sent_commands (es1 ++ es2) = sent_commands es1 ++ sent_commands es2 := by
  induction es1 with
  | nil => rfl
  | cons e es ih =>
    cases e <;> simp [sent_commands, ih]

theorem sent_commands_no_writes (es : List Event)
    (h : ∀ m l, Event.write_command m l ∉ es) : sent_commands es = [] := by
  induction es with
  | nil => rfl
  | cons e es ih =>
    have ih2 := ih (fun m l hm => h m l (List.mem_cons_of_mem _ hm))
    cases e with
    | write_command m l => exact absurd (List.mem_cons_self _ _) (h m l)
    | process_message _ => simpa [sent_commands] using ih2
    | process_config_message _ _ => simpa [sent_commands] using ih2
    | command_timeout => simpa [sent_commands] using ih2
    | firmware_version _ => simpa [sent_commands] using ih2

theorem retransmit_send {T : Type} (k : Constants) (now : Nat) (s : Hub T) (c : List Nat)
    (rest : List (List Nat)) (hq : s.command_queue_ = c :: rest)
    (he : retry_delay_elapsed k now s.command_last_sent_ = true)
    (hr : s.command_send_retries_ < k.COMMAND_MAX_RETRIES) :
    retransmit k now s =
      { s with
        tx := s.tx ++ write_command_bytes c c.length
        events := s.events ++ [Event.write_command c c.length]
        command_last_sent_ := now
        command_send_retries_ := s.command_send_retries_ + 1 } := by
  unfold retransmit
  rw [if_pos he, if_neg (Nat.not_le.mpr hr)]
  simp only [hq, List.headD_cons, write_command]

theorem retransmit_drop {T : Type} (k : Constants) (now : Nat) (s : Hub T)
    (he : retry_delay_elapsed k now s.command_last_sent_ = true)
    (hr : k.COMMAND_MAX_RETRIES ≤ s.command_send_retries_) :
    retransmit k now s =
      { s with
        command_queue_ := s.command_queue_.tail
        command_send_retries_ := 0
        events := s.events ++ [Event.command_timeout] } := by
  unfold retransmit
  rw [if_pos he, if_pos hr]

theorem command_stage_nonempty {T : Type} (k : Constants) (now : Nat) (s : Hub T) (c : List Nat)
    (rest : List (List Nat)) (hq : s.command_queue_ = c :: rest)
    (hm : s.configuration_mode_ = true ∨ opcode c = some k.COMMAND_ENTER_CONFIG) :
    command_stage k now s = retransmit k now s := by
  unfold command_stage
  rw [if_pos (by rw [hq]; simp), inject_enter_config_skip k s c rest hq hm]


theorem command_stage_send {T : Type} (k : Constants) (now : Nat) (s : Hub T) (c : List Nat)
    (rest : List (List Nat)) (hq : s.command_queue_ = c :: rest)
    (hm : s.configuration_mode_ = true ∨ opcode c = some k.COMMAND_ENTER_CONFIG)
    (he : retry_delay_elapsed k now s.command_last_sent_ = true)
    (hr : s.command_send_retries_ < k.COMMAND_MAX_RETRIES) :
    (command_stage k now s).events = s.events ++ [Event.write_command c c.length] ∧
    command_state (command_stage k now s) =
      (c :: rest, s.command_send_retries_ + 1, now, s.configuration_mode_,
        s.tx ++ write_command_bytes c c.length) := by
  rw [command_stage_nonempty k now s c rest hq hm, retransmit_send k now s c rest hq he hr]
  refine ⟨rfl, ?_⟩
  show (s.command_queue_, _, _, _, _) = _
  rw [hq]

theorem command_stage_drop {T : Type} (k : Constants) (now : Nat) (s : Hub T) (c : List Nat)
    (rest : List (List Nat)) (hq : s.command_queue_ = c :: rest)
    (hm : s.configuration_mode_ = true ∨ opcode c = some k.COMMAND_ENTER_CONFIG)
    (he : retry_delay_elapsed k now s.command_last_sent_ = true)
    (hr : k.COMMAND_MAX_RETRIES ≤ s.command_send_retries_) :
    (command_stage k now s).events = s.events ++ [Event.command_timeout] ∧
    command_state (command_stage k now s) =
      (rest, 0, s.command_last_sent_, s.configuration_mode_, s.tx) := by
  rw [command_stage_nonempty k now s c rest hq hm, retransmit_drop k now s he hr]
  refine ⟨rfl, ?_⟩
  show (s.command_queue_.tail, _, _, _, _) = _
  rw [hq]
  rfl

theorem quiet_poll_step {T : Type} (ops : TargetOps T) (k : Constants) (p : Poll) (s : Hub T)
    (c : List Nat) (rest : List (List Nat)) (hq : s.command_queue_ = c :: rest)
    (hm : s.configuration_mode_ = true ∨ opcode c = some k.COMMAND_ENTER_CONFIG)
    (he : retry_delay_elapsed k p.now s.command_last_sent_ = true)
    (hquiet : (new_events (receive s p.incoming)
      (loop ops k p.now (receive s p.incoming))).all (fun e => !e.is_config_decode) = true) :
    (s.command_send_retries_ < k.COMMAND_MAX_RETRIES →
      command_state (loop ops k p.now (receive s p.incoming)) =
        (c :: rest, s.command_send_retries_ + 1, p.now, s.configuration_mode_,
          s.tx ++ write_command_bytes c c.length) ∧
      sent_commands (loop ops k p.now (receive s p.incoming)).events =
        sent_commands s.events ++ [c]) ∧
    (k.COMMAND_MAX_RETRIES ≤ s.command_send_retries_ →
      command_state (loop ops k p.now (receive s p.incoming)) =
        (rest, 0, s.command_last_sent_, s.configuration_mode_, s.tx) ∧
      sent_commands (loop ops k p.now (receive s p.incoming)).events =
        sent_commands s.events) := by
  obtain ⟨es2, he2, hw2, _, hc2⟩ :=
    receive_stage_fields ops k (command_stage k p.now (receive s p.incoming))
  have hloop : loop ops k p.now (receive s p.incoming) =
      receive_stage ops k (command_stage k p.now (receive s p.incoming)) := rfl
  rw [hloop] at hquiet ⊢
  constructor
  · intro hr
    obtain ⟨h1, h2⟩ := command_stage_send k p.now (receive s p.incoming) c rest hq hm he hr
    rw [h1] at he2
    have hev : (receive_stage ops k (command_stage k p.now (receive s p.incoming))).events =
        (receive s p.incoming).events ++ ([Event.write_command c c.length] ++ es2) := by
      rw [he2, List.append_assoc]
    rw [new_events_append _ _ _ hev, List.all_append, Bool.and_eq_true] at hquiet
    refine ⟨by rw [hc2 hquiet.2, h2]; rfl, ?_⟩
    rw [hev, sent_commands_append, sent_commands_append, sent_commands_no_writes es2 hw2,
      List.append_nil]
    show sent_commands s.events ++ [List.take c.length c] = _
    rw [List.take_length]
  · intro hr
    obtain ⟨h1, h2⟩ := command_stage_drop k p.now (receive s p.incoming) c rest hq hm he hr
    rw [h1] at he2
    have hev : (receive_stage ops k (command_stage k p.now (receive s p.incoming))).events =
        (receive s p.incoming).events ++ ([Event.command_timeout] ++ es2) := by
      rw [he2, List.append_assoc]
    rw [new_events_append _ _ _ hev, List.all_append, Bool.and_eq_true] at hquiet
    refine ⟨by rw [hc2 hquiet.2, h2]; rfl, ?_⟩
    rw [hev, sent_commands_append, sent_commands_append, sent_commands_no_writes es2 hw2,
      List.append_nil]
    show sent_commands s.events ++ [] = _
    rw [List.append_nil]


theorem quiet_retry_polls_append {T : Type} (ops : TargetOps T) (k : Constants)
    (a b : List Poll) (s : Hub T) :
    quiet_retry_polls ops k (a ++ b) s =
      (quiet_retry_polls ops k a s && quiet_retry_polls ops k b (run ops k a s)) := by
  induction a generalizing s with
  | nil => simp [quiet_retry_polls, run]
  | cons p ps ih =>
    show (retry_delay_elapsed k p.now (receive s p.incoming).command_last_sent_ &&
        (new_events (receive s p.incoming) (loop ops k p.now (receive s p.incoming))).all
          (fun e => !e.is_config_decode) &&
        quiet_retry_polls ops k (ps ++ b) (loop ops k p.now (receive s p.incoming))) =
      ((retry_delay_elapsed k p.now (receive s p.incoming).command_last_sent_ &&
        (new_events (receive s p.incoming) (loop ops k p.now (receive s p.incoming))).all
          (fun e => !e.is_config_decode) &&
        quiet_retry_polls ops k ps (loop ops k p.now (receive s p.incoming))) &&
        quiet_retry_polls ops k b (run ops k ps (loop ops k p.now (receive s p.incoming))))
    rw [ih, Bool.and_assoc, Bool.and_assoc, Bool.and_assoc]

theorem run_append {T : Type} (ops : TargetOps T) (k : Constants) (a b : List Poll)
    (s : Hub T) : run ops k (a ++ b) s = run ops k b (run ops k a s) := by
  induction a generalizing s with
  | nil => rfl
  | cons p ps ih => exact ih (loop ops k p.now (receive s p.incoming))

theorem retry_phase {T : Type} (ops : TargetOps T) (k : Constants) (c : List Nat)
    (rest : List (List Nat)) (polls : List Poll) :
    ∀ (s : Hub T), s.command_queue_ = c :: rest →
      (s.configuration_mode_ = true ∨ opcode c = some k.COMMAND_ENTER_CONFIG) →
      s.command_send_retries_ + polls.length ≤ k.COMMAND_MAX_RETRIES →
      quiet_retry_polls ops k polls s = true →
      (run ops k polls s).command_queue_ = c :: rest ∧
      (run ops k polls s).command_send_retries_ = s.command_send_retries_ + polls.length ∧
      (run ops k polls s).configuration_mode_ = s.configuration_mode_ ∧
      sent_commands (run ops k polls s).events =
        sent_commands s.events ++ List.replicate polls.length c ∧
      (run ops k polls s).tx =
        s.tx ++ (List.replicate polls.length (write_command_bytes c c.length)).flatten := by
  induction polls with
  | nil =>
    intro s hq _ _ _
    simp [run, hq]
  | cons p ps ih =>
    intro s hq hm hr hquiet
    simp only [quiet_retry_polls, Bool.and_eq_true] at hquiet
    obtain ⟨⟨he, hall⟩, hrest⟩ := hquiet
    simp only [List.length_cons] at hr
    obtain ⟨hcs, hsent⟩ := (quiet_poll_step ops k p s c rest hq hm he hall).1 (by omega)
    have h1 : (loop ops k p.now (receive s p.incoming)).command_queue_ = c :: rest :=
      congrArg (fun x => x.1) hcs
    have h2 : (loop ops k p.now (receive s p.incoming)).command_send_retries_ =
        s.command_send_retries_ + 1 := congrArg (fun x => x.2.1) hcs
    have h3 : (loop ops k p.now (receive s p.incoming)).configuration_mode_ =
        s.configuration_mode_ := congrArg (fun x => x.2.2.2.1) hcs
    have h4 : (loop ops k p.now (receive s p.incoming)).tx =
        s.tx ++ write_command_bytes c c.length := congrArg (fun x => x.2.2.2.2) hcs
    obtain ⟨r1, r2, r3, r4, r5⟩ := ih (loop ops k p.now (receive s p.incoming)) h1
      (by rw [h3]; exact hm) (by rw [h2]; omega) hrest
    simp only [run]
    refine ⟨r1, ?_, by rw [r3, h3], ?_, ?_⟩
    · rw [r2, h2, List.length_cons]
      omega
    · rw [r4, hsent, List.length_cons, List.replicate_succ, List.append_assoc]
      rfl
    · rw [r5, h4, List.length_cons, List.replicate_succ, List.flatten_cons, List.append_assoc]


/-- C10: from a state with retry counter 0 and a command `c` at the front of
the queue (configuration mode active, or `c` an enter-configuration command),
over polls in each of which the retry delay has elapsed and no configuration
frame is decoded, `c` is written once in each of the first
`COMMAND_MAX_RETRIES` polls and stays at the front; the next poll writes
nothing, removes `c` (the rest of the queue keeps its order) and resets the
retry counter to 0. -/
theorem retry_cap {T : Type} (ops : TargetOps T) (k : Constants) (c : List Nat)
    (rest : List (List Nat)) (polls : List Poll) (last : Poll) (s : Hub T)
    (hq : s.command_queue_ = c :: rest)
    (hm : s.configuration_mode_ = true ∨ opcode c = some k.COMMAND_ENTER_CONFIG)
    (hr : s.command_send_retries_ = 0)
    (hlen : polls.length = k.COMMAND_MAX_RETRIES)
    (hquiet : quiet_retry_polls ops k (polls ++ [last]) s = true) :
    (∀ n, n ≤ k.COMMAND_MAX_RETRIES →
      sent_commands (run ops k (polls.take n) s).events =
        sent_commands s.events ++ List.replicate n c ∧
      (run ops k (polls.take n) s).command_queue_ = c :: rest ∧
      (run ops k (polls.take n) s).command_send_retries_ = n) ∧
    sent_commands (run ops k polls s).events =
      sent_commands s.events ++ List.replicate k.COMMAND_MAX_RETRIES c ∧
    (run ops k polls s).tx =
      s.tx ++ (List.replicate k.COMMAND_MAX_RETRIES (write_command_bytes c c.length)).flatten ∧
    (run ops k polls s).command_queue_ = c :: rest ∧
    sent_commands (run ops k (polls ++ [last]) s).events =
      sent_commands s.events ++ List.replicate k.COMMAND_MAX_RETRIES c ∧
    (run ops k (polls ++ [last]) s).tx = (run ops k polls s).tx ∧
    (run ops k (polls ++ [last]) s).command_queue_ = rest ∧
    (run ops k (polls ++ [last]) s).command_queue_.length + 1 =
      (run ops k polls s).command_queue_.length ∧
    (run ops k (polls ++ [last]) s).command_send_retries_ = 0 := by
  rw [quiet_retry_polls_append, Bool.and_eq_true] at hquiet
  obtain ⟨hq1, hq2⟩ := hquiet
  obtain ⟨p1, p2, p3, p4, p5⟩ := retry_phase ops k c rest polls s hq hm (by omega) hq1
  rw [hlen] at p4 p5
  rw [hr, hlen, Nat.zero_add] at p2
  have hfirst : ∀ n, n ≤ k.COMMAND_MAX_RETRIES →
      sent_commands (run ops k (polls.take n) s).events =
        sent_commands s.events ++ List.replicate n c ∧
      (run ops k (polls.take n) s).command_queue_ = c :: rest ∧
      (run ops k (polls.take n) s).command_send_retries_ = n := by
    intro n hn
    have hsplit : quiet_retry_polls ops k (polls.take n ++ polls.drop n) s = true := by
      rw [List.take_append_drop]
      exact hq1
    rw [quiet_retry_polls_append, Bool.and_eq_true] at hsplit
    have hl : (polls.take n).length = n := by
      rw [List.length_take]
      omega
    obtain ⟨q1, q2, _, q4, _⟩ :=
      retry_phase ops k c rest (polls.take n) s hq hm (by omega) hsplit.1
    rw [hl] at q2 q4
    exact ⟨q4, q1, by rw [q2, hr, Nat.zero_add]⟩
  simp only [quiet_retry_polls, Bool.and_eq_true, and_true] at hq2
  have hstep := (quiet_poll_step ops k last (run ops k polls s) c rest p1
    (by rw [p3]; exact hm) hq2.1 hq2.2).2 (by omega)
  obtain ⟨hcs, hsent⟩ := hstep
  have hrun : run ops k (polls ++ [last]) s =
      loop ops k last.now (receive (run ops k polls s) last.incoming) := by
    rw [run_append]
    rfl
  rw [hrun]
  have h1 : (loop ops k last.now (receive (run ops k polls s) last.incoming)).command_queue_ =
      rest := congrArg (fun x => x.1) hcs
  refine ⟨hfirst, p4, p5, p1, by rw [hsent, p4], congrArg (fun x => x.2.2.2.2) hcs, h1, ?_,
    congrArg (fun x => x.2.1) hcs⟩
  rw [h1, p1]
  rfl

/-- Witness of C10: with the retry cap 10 and the retry delay 100, the
enter-configuration command at the front of `retry_hub` is written in the
polls at 101, 202, ..., 1010 and removed in the poll at 1111. -/
theorem retry_cap_witness :
    (retry_hub.command_queue_ = [0xFF, 0x00, 0x01, 0x00] :: [[0xA0, 0x00]] ∧
      retry_hub.command_send_retries_ = 0 ∧
      (silent_polls [101, 202, 303, 404, 505, 606, 707, 808, 909, 1010]).length =
        sample_constants.COMMAND_MAX_RETRIES ∧
      quiet_retry_polls targetOps sample_constants
        (silent_polls [101, 202, 303, 404, 505, 606, 707, 808, 909, 1010] ++
          [{ now := 1111, incoming := [] }]) retry_hub = true) ∧
    sent_commands (run targetOps sample_constants
        (silent_polls [101, 202, 303, 404, 505, 606, 707, 808, 909, 1010]) retry_hub).events =
      sent_commands retry_hub.events ++
        List.replicate sample_constants.COMMAND_MAX_RETRIES [0xFF, 0x00, 0x01, 0x00] ∧
    (run targetOps sample_constants
        (silent_polls [101, 202, 303, 404, 505, 606, 707, 808, 909, 1010] ++
          [{ now := 1111, incoming := [] }]) retry_hub).command_queue_ = [[0xA0, 0x00]] ∧
    (run targetOps sample_constants
        (silent_polls [101, 202, 303, 404, 505, 606, 707, 808, 909, 1010] ++
          [{ now := 1111, incoming := [] }]) retry_hub).command_send_retries_ = 0 :=
  have h := retry_cap targetOps sample_constants [0xFF, 0x00, 0x01, 0x00] [[0xA0, 0x00]]
    (silent_polls [101, 202, 303, 404, 505, 606, 707, 808, 909, 1010])
    { now := 1111, incoming := [] } retry_hub rfl (Or.inr rfl) rfl rfl (by decide)
  ⟨⟨rfl, rfl, rfl, by decide⟩, h.2.1, h.2.2.2.2.2.2.1, h.2.2.2.2.2.2.2.2⟩


/-! ## The scan loop runs to its exit -/

theorem read_header_length_le (header rx : List Nat) :
    (read_header header rx).2.length ≤ rx.length := by
  induction header generalizing rx with
  | nil => exact Nat.le_refl _
  | cons h hs ih =>
    cases rx with
    | nil => exact Nat.le_refl _
    | cons b rx =>
      unfold read_header
      split_ifs
      · exact Nat.le_succ _
      · exact Nat.le_trans (ih rx) (Nat.le_succ _)

theorem read_header_consumes (h : Nat) (hs rx : List Nat) (hrx : rx ≠ []) :
    (read_header (h :: hs) rx).2.length < rx.length := by
  cases rx with
  | nil => exact absurd rfl hrx
  | cons b rx =>
    unfold read_header
    split_ifs
    · exact Nat.lt_succ_self _
    · exact Nat.lt_succ_of_le (read_header_length_le hs rx)

theorem scan_bytes_exits (fuel : Nat) :
    ∀ (status : Nat) (rx : List Nat), rx.length ≤ fuel →
      ¬ ((scan_bytes fuel status rx).1 = 0 ∧ (scan_bytes fuel status rx).2.length ≥ 4) := by
  induction fuel with
  | zero =>
    intro status rx hlen
    simp only [scan_bytes]
    omega
  | succ n ih =>
    intro status rx hlen
    unfold scan_bytes
    by_cases hc : status = 0 ∧ rx.length ≥ 4
    · rw [if_pos hc]
      have hne : rx ≠ [] := by
        intro h
        rw [h] at hc
        simp at hc
      have hlt : ∀ header : List Nat × Nat, header.1 = update_header ∨ header.1 = config_header →
          (read_header header.1 rx).2.length ≤ n := by
        intro header hh
        rcases hh with hh | hh <;> rw [hh]
        · have := read_header_consumes 0xAA [0xFF, 0x03, 0x00] rx hne
          exact Nat.le_of_lt_succ (Nat.lt_of_lt_of_le this hlen)
        · have := read_header_consumes 0xFD [0xFC, 0xFB, 0xFA] rx hne
          exact Nat.le_of_lt_succ (Nat.lt_of_lt_of_le this hlen)
      simp only []
      split_ifs
      · exact ih _ _ (hlt (update_header, 1) (Or.inl rfl))
      · exact ih _ _ (hlt (update_header, 1) (Or.inl rfl))
      · exact ih _ _ (hlt (config_header, 2) (Or.inr rfl))
      · exact ih _ _ (hlt (config_header, 2) (Or.inr rfl))
    · rw [if_neg hc]
      exact hc

/-- The scan loop of `loop()`, run with one unit of fuel per byte in the
receive buffer, ends at the exit of the `while`: a classification is pending
or fewer than 4 bytes are left. -/
theorem header_scan_exits {T : Type} (s : Hub T) :
    ¬ ((header_scan s.rx.length s).peek_status_ = 0 ∧
      (header_scan s.rx.length s).rx.length ≥ 4) := by
  rw [header_scan_eq]
  exact scan_bytes_exits s.rx.length s.peek_status_ s.rx (Nat.le_refl _)


/-! ## Garbage that starts no header match -/

theorem scan_bytes_pending (fuel status : Nat) (rx : List Nat) (h : status ≠ 0) :
    scan_bytes fuel status rx = (status, rx) := by
  cases fuel with
  | zero => rfl
  | succ n =>
    unfold scan_bytes
    rw [if_neg (fun hc => h hc.1)]

theorem scan_bytes_skip_byte (fuel b : Nat) (rest : List Nat)
    (hb : b ≠ 0xAA ∧ b ≠ 0xFD) (hlen : rest.length ≥ 3) :
    scan_bytes (fuel + 1) 0 (b :: rest) = scan_bytes fuel 0 rest := by
  conv_lhs => unfold scan_bytes
  have hc : (0 : Nat) = 0 ∧ (b :: rest).length ≥ 4 := ⟨rfl, by simp only [List.length_cons]; omega⟩
  rw [if_pos hc]
  have hhead : ¬ (b :: rest).head? = some 0xAA := by
    simp only [List.head?_cons, Option.some.injEq]
    exact hb.1
  have hr : read_header config_header (b :: rest) = (true, rest) := by
    simp [config_header, read_header, hb.2]
  simp only [if_neg hhead, hr, if_true]

theorem scan_bytes_skip_garbage (g rest : List Nat) (fuel : Nat)
    (hg : ∀ b ∈ g, b ≠ 0xAA ∧ b ≠ 0xFD) (hlen : rest.length ≥ 3) :
    scan_bytes (g.length + fuel) 0 (g ++ rest) = scan_bytes fuel 0 rest := by
  induction g with
  | nil => simp
  | cons b g ih =>
    have h1 : (b :: g).length + fuel = (g.length + fuel) + 1 := by
      simp only [List.length_cons]
      omega
    rw [h1, List.cons_append, scan_bytes_skip_byte _ b (g ++ rest)
      (hg b (List.mem_cons_self _ _)) (by rw [List.length_append]; omega)]
    exact ih (fun x hx => hg x (List.mem_cons_of_mem _ hx))

theorem scan_bytes_update_header (fuel : Nat) (rest : List Nat) :
    scan_bytes (fuel + 1) 0 (update_header ++ rest) = (1, rest) := by
  conv_lhs => unfold scan_bytes
  have hc : (0 : Nat) = 0 ∧ (update_header ++ rest).length ≥ 4 :=
    ⟨rfl, by rw [List.length_append]; exact Nat.le_add_right _ _⟩
  rw [if_pos hc]
  have hhead : (update_header ++ rest).head? = some 0xAA := rfl
  have hr : read_header update_header (update_header ++ rest) = (false, rest) := by
    simp [update_header, read_header]
  simp only [if_pos hhead, hr, Bool.false_eq_true, if_false]
  exact scan_bytes_pending fuel 1 rest (by decide)

theorem update_stage_valid {T : Type} (ops : TargetOps T) (s : Hub T) (payload tail : List Nat)
    (hs : s.peek_status_ = 1) (hrx : s.rx = payload ++ [0x55, 0xCC] ++ tail)
    (hp : payload.length = 24) (ht : 2 ≤ tail.length) :
    update_stage ops s =
      (process_message ops { s with rx := tail, peek_status_ := 0 }
        (payload ++ [0x55, 0xCC]) 24, false) := by
  have htake : s.rx.take 26 = payload ++ [0x55, 0xCC] := by
    rw [hrx, List.take_append_of_le_length (by simp [hp])]
    rw [List.take_of_length_le (by simp [hp])]
  have hdrop : s.rx.drop 26 = tail := by
    rw [hrx, List.drop_append_of_le_length (by simp [hp])]
    rw [List.drop_of_length_le (by simp [hp])]
    rfl
  have hlen : s.rx.length ≥ 28 := by
    rw [hrx]
    simp only [List.length_append, List.length_cons, List.length_nil, hp]
    omega
  have h24 : byteAt (payload ++ [0x55, 0xCC]) 24 = 0x55 := by
    unfold byteAt
    rw [List.getD_append_right _ _ _ _ (by omega), hp]
    rfl
  have h25 : byteAt (payload ++ [0x55, 0xCC]) 25 = 0xCC := by
    unfold byteAt
    rw [List.getD_append_right _ _ _ _ (by omega), hp]
    rfl
  unfold update_stage
  rw [if_pos ⟨hs, hlen⟩]
  simp only [htake, hdrop]
  rw [if_neg (by rw [h24, h25]; simp)]

theorem process_message_events {T : Type} (ops : TargetOps T) (s : Hub T) (msg : List Nat)
    (len : Nat) :
    (process_message ops s msg len).events =
      s.events ++ [Event.process_message (msg.take len)] := rfl

theorem config_stage_idle {T : Type} (k : Constants) (s : Hub T) (h : s.peek_status_ ≠ 2) :
    config_stage k s = s := by
  unfold config_stage
  rw [if_neg (fun hc => h hc.1)]

/-- Garbage none of whose bytes is `AA` or `FD`, in front of a valid
target-update frame that is followed by two or three bytes: one `loop()`
skips the garbage, decodes the frame once and leaves the bytes behind it. -/
theorem clean_garbage_resync {T : Type} (ops : TargetOps T) (k : Constants)
    (targets_ : List T) (margin : Int) (now : Nat) (g payload tail : List Nat)
    (hg : ∀ b ∈ g, b ≠ 0xAA ∧ b ≠ 0xFD) (hp : payload.length = 24)
    (ht : 2 ≤ tail.length ∧ tail.length ≤ 3) :
    (loop ops k now (receive (initial_hub targets_ margin)
        (g ++ (update_header ++ (payload ++ [0x55, 0xCC] ++ tail))))).events =
      [Event.process_message payload] ∧
    (loop ops k now (receive (initial_hub targets_ margin)
        (g ++ (update_header ++ (payload ++ [0x55, 0xCC] ++ tail))))).rx = tail ∧
    (loop ops k now (receive (initial_hub targets_ margin)
        (g ++ (update_header ++ (payload ++ [0x55, 0xCC] ++ tail))))).peek_status_ = 0 := by
  have hfuel : (g ++ (update_header ++ (payload ++ [0x55, 0xCC] ++ tail))).length =
      g.length + ((25 + tail.length + 4) + 1) := by
    simp only [List.length_append, update_header, List.length_cons, List.length_nil, hp]
    omega
  have e : scan_bytes
      (receive (initial_hub targets_ margin)
        (g ++ (update_header ++ (payload ++ [0x55, 0xCC] ++ tail)))).rx.length
      (receive (initial_hub targets_ margin)
        (g ++ (update_header ++ (payload ++ [0x55, 0xCC] ++ tail)))).peek_status_
      (receive (initial_hub targets_ margin)
        (g ++ (update_header ++ (payload ++ [0x55, 0xCC] ++ tail)))).rx =
      (1, payload ++ [0x55, 0xCC] ++ tail) := by
    show scan_bytes (g ++ (update_header ++ (payload ++ [0x55, 0xCC] ++ tail))).length 0
      (g ++ (update_header ++ (payload ++ [0x55, 0xCC] ++ tail))) = _
    rw [hfuel, scan_bytes_skip_garbage g _ _ hg
      (by simp only [List.length_append, update_header, List.length_cons]; omega),
      scan_bytes_update_header]
  have hpay : (payload ++ [0x55, 0xCC]).take 24 = payload := by
    rw [← hp, List.take_left]
  unfold loop receive_stage
  rw [command_stage_idle _ _ _ rfl rfl, header_scan_eq, e]
  simp only []
  rw [update_stage_valid ops _ payload tail rfl rfl hp ht.1]
  simp only [Bool.false_eq_true, if_false]
  rw [config_stage_idle k _ (by show (0 : Nat) ≠ 2; decide)]
  refine ⟨?_, rfl, rfl⟩
  rw [process_message_events, hpay]
  rfl

/-! ## Acknowledgement handling -/

theorem track_configuration_mode_command_state {T : Type} (k : Constants) (s : Hub T)
    (msg : List Nat) :
    (track_configuration_mode k s msg).command_queue_ = s.command_queue_ ∧
    (track_configuration_mode k s msg).command_send_retries_ = s.command_send_retries_ ∧
    (track_configuration_mode k s msg).command_last_sent_ = s.command_last_sent_ := by
  unfold track_configuration_mode
  simp only []
  split_ifs <;> exact ⟨rfl, rfl, rfl⟩

theorem report_version_command_state {T : Type} (k : Constants) (s : Hub T) (msg : List Nat) :
    (report_version k s msg).command_queue_ = s.command_queue_ ∧
    (report_version k s msg).command_send_retries_ = s.command_send_retries_ ∧
    (report_version k s msg).command_last_sent_ = s.command_last_sent_ := by
  unfold report_version
  split_ifs <;> exact ⟨rfl, rfl, rfl⟩

theorem process_config_message_command_state {T : Type} (k : Constants) (s : Hub T)
    (msg : List Nat) (len : Nat) :
    (process_config_message k s msg len).command_queue_ = (acknowledge s msg).command_queue_ ∧
    (process_config_message k s msg len).command_send_retries_ =
      (acknowledge s msg).command_send_retries_ ∧
    (process_config_message k s msg len).command_last_sent_ =
      (acknowledge s msg).command_last_sent_ := by
  unfold process_config_message
  simp only []
  have hr := report_version_command_state k (track_configuration_mode k
    (acknowledge { s with events := s.events ++ [Event.process_config_message msg len] } msg)
    msg) msg
  have ht := track_configuration_mode_command_state k
    (acknowledge { s with events := s.events ++ [Event.process_config_message msg len] } msg) msg
  rw [hr.1, hr.2.1, hr.2.2, ht.1, ht.2.1, ht.2.2]
  unfold acknowledge
  simp only []
  split_ifs <;> exact ⟨rfl, rfl, rfl⟩

/-- C11 (as amended): when `process_config_message` runs on a frame while the
command queue is `c :: rest`, it removes `c` (leaving `rest` in its order) and
sets the retry counter and the last-sent time to 0 if payload byte 0 is the
opcode of `c` and payload byte 1 equals 1; in every other case the queue, the
retry counter and the last-sent time are unchanged. -/
theorem acknowledgement_handling {T : Type} (k : Constants) (s : Hub T) (msg : List Nat)
    (len : Nat) (c : List Nat) (rest : List (List Nat)) (hq : s.command_queue_ = c :: rest) :
    (opcode c = some (byteAt msg 0) ∧ byteAt msg 1 = 1 →
      (process_config_message k s msg len).command_queue_ = rest ∧
      (process_config_message k s msg len).command_send_retries_ = 0 ∧
      (process_config_message k s msg len).command_last_sent_ = 0) ∧
    (¬ (opcode c = some (byteAt msg 0) ∧ byteAt msg 1 = 1) →
      (process_config_message k s msg len).command_queue_ = c :: rest ∧
      (process_config_message k s msg len).command_send_retries_ = s.command_send_retries_ ∧
      (process_config_message k s msg len).command_last_sent_ = s.command_last_sent_) := by
  have h := process_config_message_command_state k s msg len
  rw [h.1, h.2.1, h.2.2]
  unfold acknowledge
  simp only [hq, List.headD_cons, List.length_cons, List.tail_cons]
  constructor
  · intro hc
    rw [if_pos ⟨Nat.succ_pos _, hc⟩]
    exact ⟨rfl, rfl, rfl⟩
  · intro hc
    rw [if_neg (fun h2 => hc h2.2)]
    exact ⟨hq, rfl, rfl⟩

/-- Witness of C11 (as amended): on `retry_hub` the acknowledgement
`FF 01 00 00` removes the enter-configuration command and leaves `A0 00`. -/
theorem acknowledgement_handling_witness :
    (process_config_message sample_constants retry_hub
        [0xFF, 0x01, 0x00, 0x00, 0x04, 0x03, 0x02, 0x01] 4).command_queue_ = [[0xA0, 0x00]] ∧
    (process_config_message sample_constants retry_hub
        [0xFF, 0x01, 0x00, 0x00, 0x04, 0x03, 0x02, 0x01] 4).command_send_retries_ = 0 ∧
    (process_config_message sample_constants retry_hub
        [0xFF, 0x01, 0x00, 0x00, 0x04, 0x03, 0x02, 0x01] 4).command_last_sent_ = 0 :=
  (acknowledgement_handling sample_constants retry_hub
    [0xFF, 0x01, 0x00, 0x00, 0x04, 0x03, 0x02, 0x01] 4 [0xFF, 0x00, 0x01, 0x00] [[0xA0, 0x00]]
    rfl).1 (by decide)

/-- C11 (counterexample): the frame with payload `FF 02 00 00` and a valid
frame end has the opcode of the front command of `retry_hub` in byte 0 and a
nonzero byte 1, and `process_config_message` does not remove the front
command. -/
theorem nonzero_success_byte_not_acknowledged :
    frame_end_valid [0xFF, 0x02, 0x00, 0x00, 0x04, 0x03, 0x02, 0x01] 4 ∧
    retry_hub.command_queue_.head?.bind opcode =
      some (byteAt [0xFF, 0x02, 0x00, 0x00, 0x04, 0x03, 0x02, 0x01] 0) ∧
    byteAt [0xFF, 0x02, 0x00, 0x00, 0x04, 0x03, 0x02, 0x01] 1 ≠ 0 ∧
    (process_config_message sample_constants retry_hub
        [0xFF, 0x02, 0x00, 0x00, 0x04, 0x03, 0x02, 0x01] 4).command_queue_ =
      retry_hub.command_queue_ := by
  unfold frame_end_valid
  decide

/-! ## The configuration-mode state machine -/

theorem track_configuration_mode_deactivates {T : Type} (k : Constants) (s : Hub T)
    (msg : List Nat) (h1 : (track_configuration_mode k s msg).configuration_mode_ = false)
    (h0 : s.configuration_mode_ = true) :
    byteAt msg 0 = k.COMMAND_LEAVE_CONFIG ∧ byteAt msg 1 = 1 := by
  unfold track_configuration_mode at h1
  simp only [] at h1
  by_cases ha : byteAt msg 0 = k.COMMAND_LEAVE_CONFIG ∧ byteAt msg 1 = 1
  · exact ha
  · rw [if_neg ha] at h1
    by_cases hb : byteAt msg 0 = k.COMMAND_ENTER_CONFIG ∧ byteAt msg 1 = 1
    · rw [if_pos hb] at h1
      cases h1
    · rw [if_neg hb, h0] at h1
      cases h1

theorem process_config_message_mode {T : Type} (k : Constants) (s : Hub T)
    (msg : List Nat) (len : Nat) :
    (s.configuration_mode_ = false →
      (process_config_message k s msg len).configuration_mode_ = true →
      byteAt msg 0 = k.COMMAND_ENTER_CONFIG ∧ byteAt msg 1 = 1) ∧
    (s.configuration_mode_ = true →
      (process_config_message k s msg len).configuration_mode_ = false →
      byteAt msg 0 = k.COMMAND_LEAVE_CONFIG ∧ byteAt msg 1 = 1) := by
  unfold process_config_message
  simp only [report_version_mode]
  constructor
  · intro h0 h1
    exact track_configuration_mode_activates k _ msg h1 (by rw [acknowledge_mode]; exact h0)
  · intro h0 h1
    exact track_configuration_mode_deactivates k _ msg h1 (by rw [acknowledge_mode]; exact h0)

theorem ack_decoded_append (op : Nat) (es1 es2 : List Event)
    (h : ack_decoded op es1 ∨ ack_decoded op es2) : ack_decoded op (es1 ++ es2) := by
  rcases h with ⟨m, l, hm, hb⟩ | ⟨m, l, hm, hb⟩
  · exact ⟨m, l, List.mem_append.mpr (Or.inl hm), hb⟩
  · exact ⟨m, l, List.mem_append.mpr (Or.inr hm), hb⟩

theorem read_config_frame_mode {T : Type} (k : Constants) (s : Hub T) :
    ∃ es, (read_config_frame k s).events = s.events ++ es ∧
      (s.configuration_mode_ = false → (read_config_frame k s).configuration_mode_ = true →
        ack_decoded k.COMMAND_ENTER_CONFIG es) ∧
      (s.configuration_mode_ = true → (read_config_frame k s).configuration_mode_ = false →
        ack_decoded k.COMMAND_LEAVE_CONFIG es) := by
  unfold read_config_frame
  by_cases h : s.rx.length ≥ s.configuration_message_length_ + 4
  · rw [if_pos h]
    simp only []
    by_cases h2 : byteAt (s.rx.take (s.configuration_message_length_ + 4))
        s.configuration_message_length_ = 0x04 ∧
      byteAt (s.rx.take (s.configuration_message_length_ + 4))
        (s.configuration_message_length_ + 1) = 0x03 ∧
      byteAt (s.rx.take (s.configuration_message_length_ + 4))
        (s.configuration_message_length_ + 2) = 0x02 ∧
      byteAt (s.rx.take (s.configuration_message_length_ + 4))
        (s.configuration_message_length_ + 3) = 0x01
    · rw [if_pos h2]
      obtain ⟨es, he, _, _⟩ := process_config_message_events k
        { s with rx := s.rx.drop (s.configuration_message_length_ + 4) }
        (s.rx.take (s.configuration_message_length_ + 4)) s.configuration_message_length_
      have hm := process_config_message_mode k
        { s with rx := s.rx.drop (s.configuration_message_length_ + 4) }
        (s.rx.take (s.configuration_message_length_ + 4)) s.configuration_message_length_
      refine ⟨_, he, ?_, ?_⟩
      · intro h0 h1
        exact ⟨_, _, List.mem_cons_self _ _, h2, hm.1 h0 h1⟩
      · intro h0 h1
        exact ⟨_, _, List.mem_cons_self _ _, h2, hm.2 h0 h1⟩
    · rw [if_neg h2]
      refine ⟨[], by simp, ?_, ?_⟩ <;>
      · intro h0 h1
        rw [h0] at h1
        cases h1
  · rw [if_neg h]
    refine ⟨[], by simp, ?_, ?_⟩ <;>
    · intro h0 h1
      rw [h0] at h1
      cases h1

theorem config_stage_mode {T : Type} (k : Constants) (s : Hub T) :
    ∃ es, (config_stage k s).events = s.events ++ es ∧
      (s.configuration_mode_ = false → (config_stage k s).configuration_mode_ = true →
        ack_decoded k.COMMAND_ENTER_CONFIG es) ∧
      (s.configuration_mode_ = true → (config_stage k s).configuration_mode_ = false →
        ack_decoded k.COMMAND_LEAVE_CONFIG es) := by
  unfold config_stage
  split_ifs with h
  · obtain ⟨es, he, hm1, hm2⟩ := read_config_frame_mode k (read_content_length s)
    have hr := read_content_length_fields s
    have hmode : (read_content_length s).configuration_mode_ = s.configuration_mode_ :=
      congrArg (fun c => c.2.2.2.1) hr.2
    exact ⟨es, by rw [he, hr.1], fun h0 h1 => hm1 (by rw [hmode]; exact h0) h1,
      fun h0 h1 => hm2 (by rw [hmode]; exact h0) h1⟩
  · refine ⟨[], by simp, ?_, ?_⟩ <;>
    · intro h0 h1
      rw [h0] at h1
      cases h1

theorem update_stage_mode {T : Type} (ops : TargetOps T) (s : Hub T) :
    (update_stage ops s).1.configuration_mode_ = s.configuration_mode_ := by
  obtain ⟨_, _, _, hc⟩ := update_stage_fields ops s
  exact congrArg (fun c => c.2.2.2.1) hc

theorem header_scan_mode {T : Type} (fuel : Nat) (s : Hub T) :
    (header_scan fuel s).configuration_mode_ = s.configuration_mode_ :=
  congrArg (fun c => c.2.2.2.1) (header_scan_fields fuel s).2

theorem receive_stage_mode {T : Type} (ops : TargetOps T) (k : Constants) (s : Hub T) :
    ∃ es, (receive_stage ops k s).events = s.events ++ es ∧
      (s.configuration_mode_ = false → (receive_stage ops k s).configuration_mode_ = true →
        ack_decoded k.COMMAND_ENTER_CONFIG es) ∧
      (s.configuration_mode_ = true → (receive_stage ops k s).configuration_mode_ = false →
        ack_decoded k.COMMAND_LEAVE_CONFIG es) := by
  unfold receive_stage
  simp only []
  obtain ⟨es1, he1, _, _⟩ := update_stage_fields ops (header_scan s.rx.length s)
  rw [(header_scan_fields s.rx.length s).1] at he1
  have hmode : (update_stage ops (header_scan s.rx.length s)).1.configuration_mode_ =
      s.configuration_mode_ := by
    rw [update_stage_mode, header_scan_mode]
  split_ifs with h
  · refine ⟨es1, he1, ?_, ?_⟩ <;>
    · intro h0 h1
      rw [hmode, h0] at h1
      cases h1
  · obtain ⟨es2, he2, hm1, hm2⟩ :=
      config_stage_mode k (update_stage ops (header_scan s.rx.length s)).1
    refine ⟨es1 ++ es2, by rw [he2, he1, List.append_assoc], ?_, ?_⟩
    · intro h0 h1
      exact ack_decoded_append _ es1 es2 (Or.inr (hm1 (by rw [hmode]; exact h0) h1))
    · intro h0 h1
      exact ack_decoded_append _ es1 es2 (Or.inr (hm2 (by rw [hmode]; exact h0) h1))

theorem read_config_frame_bad_end {T : Type} (k : Constants) (s : Hub T)
    (hbad : ¬ frame_end_valid (s.rx.take (s.configuration_message_length_ + 4))
      s.configuration_message_length_) :
    (read_config_frame k s).configuration_mode_ = s.configuration_mode_ := by
  unfold read_config_frame
  unfold frame_end_valid at hbad
  by_cases h : s.rx.length ≥ s.configuration_message_length_ + 4
  · rw [if_pos h]
    simp only []
    rw [if_neg hbad]
  · rw [if_neg h]

/-- C12: across one `loop()`, `configuration_mode_` goes from false to true
only if that `loop()` decodes a configuration frame with valid frame end,
opcode `COMMAND_ENTER_CONFIG` and success byte 1, and from true to false only
if it decodes such a frame with opcode `COMMAND_LEAVE_CONFIG`; the command
stage, the header scan, the target-update reader and a configuration frame
with a bad frame end leave it as it is. -/
theorem configuration_mode_state_machine {T : Type} (ops : TargetOps T) (k : Constants)
    (now fuel : Nat) (s : Hub T) :
    (s.configuration_mode_ = false → (loop ops k now s).configuration_mode_ = true →
      ack_decoded k.COMMAND_ENTER_CONFIG (new_events s (loop ops k now s))) ∧
    (s.configuration_mode_ = true → (loop ops k now s).configuration_mode_ = false →
      ack_decoded k.COMMAND_LEAVE_CONFIG (new_events s (loop ops k now s))) ∧
    (command_stage k now s).configuration_mode_ = s.configuration_mode_ ∧
    (header_scan fuel s).configuration_mode_ = s.configuration_mode_ ∧
    (update_stage ops s).1.configuration_mode_ = s.configuration_mode_ ∧
    (¬ frame_end_valid (s.rx.take (s.configuration_message_length_ + 4))
        s.configuration_message_length_ →
      (read_config_frame k s).configuration_mode_ = s.configuration_mode_) := by
  obtain ⟨es1, he1, _⟩ := command_stage_writes k now s
  obtain ⟨es2, he2, hm1, hm2⟩ := receive_stage_mode ops k (command_stage k now s)
  have he : (loop ops k now s).events = s.events ++ (es1 ++ es2) := by
    unfold loop
    rw [he2, he1, List.append_assoc]
  rw [new_events_append s _ _ he]
  refine ⟨?_, ?_, command_stage_mode k now s, header_scan_mode fuel s, update_stage_mode ops s,
    read_config_frame_bad_end k s⟩
  · intro h0 h1
    exact ack_decoded_append _ es1 es2
      (Or.inr (hm1 (by rw [command_stage_mode]; exact h0) h1))
  · intro h0 h1
    exact ack_decoded_append _ es1 es2
      (Or.inr (hm2 (by rw [command_stage_mode]; exact h0) h1))
/-- Witness of C12: `queued_hub` enters configuration mode in the `loop()` that
decodes `enter_config_ack`, `active_hub` leaves it in the `loop()` that decodes
`leave_config_ack`, and the frame with the wrong frame end in `bad_end_hub`
does not change the mode. -/
theorem configuration_mode_state_machine_witness :
    ack_decoded sample_constants.COMMAND_ENTER_CONFIG
      (new_events (receive queued_hub enter_config_ack)
        (loop targetOps sample_constants 50 (receive queued_hub enter_config_ack))) ∧
    ack_decoded sample_constants.COMMAND_LEAVE_CONFIG
      (new_events (receive active_hub leave_config_ack)
        (loop targetOps sample_constants 50 (receive active_hub leave_config_ack))) ∧
    (read_config_frame sample_constants bad_end_hub).configuration_mode_ =
      bad_end_hub.configuration_mode_ :=
  ⟨(configuration_mode_state_machine targetOps sample_constants 50 0
      (receive queued_hub enter_config_ack)).1 rfl (by decide),
    (configuration_mode_state_machine targetOps sample_constants 50 0
      (receive active_hub leave_config_ack)).2.1 rfl (by decide),
    (configuration_mode_state_machine targetOps sample_constants 50 0
      bad_end_hub).2.2.2.2.2 (by unfold frame_end_valid; decide)⟩

/-! ## The leave-configuration command -/

theorem acknowledge_queue {T : Type} (s : Hub T) (msg : List Nat) :
    (acknowledge s msg).command_queue_ <:+ s.command_queue_ := by
  unfold acknowledge
  simp only []
  split_ifs
  · exact List.tail_suffix _
  · exact List.suffix_refl _

theorem read_config_frame_queue {T : Type} (k : Constants) (s : Hub T) :
    (read_config_frame k s).command_queue_ <:+ s.command_queue_ := by
  unfold read_config_frame
  by_cases h : s.rx.length ≥ s.configuration_message_length_ + 4
  · rw [if_pos h]
    simp only []
    split_ifs
    · have hq := (process_config_message_command_state k
        { s with rx := s.rx.drop (s.configuration_message_length_ + 4) }
        (s.rx.take (s.configuration_message_length_ + 4)) s.configuration_message_length_).1
      show (process_config_message k _ _ _).command_queue_ <:+ s.command_queue_
      rw [hq]
      exact acknowledge_queue _ _
    · exact List.suffix_refl _
  · rw [if_neg h]

theorem receive_stage_queue {T : Type} (ops : TargetOps T) (k : Constants) (s : Hub T) :
    (receive_stage ops k s).command_queue_ <:+ s.command_queue_ := by
  unfold receive_stage
  simp only []
  obtain ⟨_, _, _, hc1⟩ := update_stage_fields ops (header_scan s.rx.length s)
  rw [(header_scan_fields s.rx.length s).2] at hc1
  have hq : (update_stage ops (header_scan s.rx.length s)).1.command_queue_ =
      s.command_queue_ := congrArg (fun c => c.1) hc1
  split_ifs
  · rw [hq]
  · unfold config_stage
    split_ifs
    · have h2 := read_config_frame_queue k
        (read_content_length (update_stage ops (header_scan s.rx.length s)).1)
      have h3 : (read_content_length
          (update_stage ops (header_scan s.rx.length s)).1).command_queue_ =
          s.command_queue_ := by
        rw [← hq]
        exact congrArg (fun c => c.1) (read_content_length_fields _).2
      rw [h3] at h2
      exact h2
    · rw [hq]

theorem retransmit_queue {T : Type} (k : Constants) (now : Nat) (s : Hub T) :
    (retransmit k now s).command_queue_ <:+ s.command_queue_ := by
  unfold retransmit
  split_ifs
  · exact List.tail_suffix _
  · exact List.suffix_refl _
  · exact List.suffix_refl _

theorem command_stage_leave {T : Type} (k : Constants) (now : Nat) (s : Hub T)
    (hq : s.command_queue_ = []) (hm : s.configuration_mode_ = true) :
    command_stage k now s = { s with command_queue_ := [[k.COMMAND_LEAVE_CONFIG, 0x00]] } := by
  unfold command_stage
  rw [if_neg (by rw [hq]; simp), if_pos hm, hq]
  rfl

theorem command_stage_queue {T : Type} (k : Constants) (now : Nat) (s : Hub T)
    (hq : s.command_queue_ ≠ []) :
    (command_stage k now s).command_queue_ <:+
      ([k.COMMAND_ENTER_CONFIG, 0x00, 0x01, 0x00] :: s.command_queue_) := by
  unfold command_stage
  rw [if_pos (List.length_pos.mpr hq)]
  refine List.IsSuffix.trans (retransmit_queue k now _) ?_
  rcases inject_enter_config_queue k s with h | h
  · rw [h]
    exact List.suffix_cons _ _
  · rw [h]

theorem loop_queue {T : Type} (ops : TargetOps T) (k : Constants) (now : Nat) (s : Hub T)
    (hq : s.command_queue_ ≠ []) :
    (loop ops k now s).command_queue_ <:+
      ([k.COMMAND_ENTER_CONFIG, 0x00, 0x01, 0x00] :: s.command_queue_) :=
  List.IsSuffix.trans (receive_stage_queue ops k _) (command_stage_queue k now s hq)

theorem loop_leave_count {T : Type} (ops : TargetOps T) (k : Constants) (now : Nat) (s : Hub T)
    (h : s.command_queue_.count [k.COMMAND_LEAVE_CONFIG, 0x00] ≤ 1) :
    (loop ops k now s).command_queue_.count [k.COMMAND_LEAVE_CONFIG, 0x00] ≤ 1 := by
  by_cases hq : s.command_queue_ = []
  · have hsuf := receive_stage_queue ops k (command_stage k now s)
    have hcs : (command_stage k now s).command_queue_.count [k.COMMAND_LEAVE_CONFIG, 0x00] ≤ 1 := by
      cases hm : s.configuration_mode_ with
      | true =>
        rw [command_stage_leave k now s hq hm]
        simp
      | false =>
        rw [command_stage_idle k now s hq hm, hq]
        simp
    exact Nat.le_trans (hsuf.sublist.count_le _) hcs
  · have hsuf := loop_queue ops k now s hq
    refine Nat.le_trans (hsuf.sublist.count_le _) ?_
    rw [List.count_cons_of_ne (by intro hc; simpa using congrArg List.length hc)]
    exact h

theorem run_steps_leave_count {T : Type} (ops : TargetOps T) (k : Constants)
    (steps : List Step) :
    ∀ s : Hub T, s.command_queue_.count [k.COMMAND_LEAVE_CONFIG, 0x00] ≤ 1 →
      (∀ c, Step.enqueue c ∈ steps → c ≠ [k.COMMAND_LEAVE_CONFIG, 0x00]) →
      (run_steps ops k steps s).command_queue_.count [k.COMMAND_LEAVE_CONFIG, 0x00] ≤ 1 := by
  induction steps with
  | nil => intro s h _; exact h
  | cons a rest ih =>
    intro s h hne
    refine ih (step ops k a s) ?_ (fun c hc => hne c (List.mem_cons_of_mem _ hc))
    cases a with
    | poll p =>
      exact loop_leave_count ops k p.now (receive s p.incoming) h
    | enqueue c =>
      show (s.command_queue_ ++ [c]).count [k.COMMAND_LEAVE_CONFIG, 0x00] ≤ 1
      rw [List.count_append, List.count_cons_of_ne (hne c (List.mem_cons_self _ _)).symm]
      simpa using h

/-- C13: a `loop()` that begins with an empty command queue and configuration
mode active leaves the queue, after its command stage, equal to the single
command `[COMMAND_LEAVE_CONFIG, 0x00]` and writes nothing in that stage; a
`loop()` that begins with a non-empty queue appends nothing (its queue
afterwards is a suffix of the old queue with the enter-configuration command
in front); hence, over any sequence of polls and of other commands put in the
queue, the queue never holds more than one `[COMMAND_LEAVE_CONFIG, 0x00]`. -/
theorem leave_config_injection {T : Type} (ops : TargetOps T) (k : Constants) (now : Nat)
    (s s0 : Hub T) (steps : List Step) :
    (s.command_queue_ = [] → s.configuration_mode_ = true →
      (command_stage k now s).command_queue_ = [[k.COMMAND_LEAVE_CONFIG, 0x00]] ∧
      (command_stage k now s).tx = s.tx ∧
      (command_stage k now s).events = s.events) ∧
    (s.command_queue_ ≠ [] →
      (loop ops k now s).command_queue_ <:+
        ([k.COMMAND_ENTER_CONFIG, 0x00, 0x01, 0x00] :: s.command_queue_)) ∧
    (s0.command_queue_.count [k.COMMAND_LEAVE_CONFIG, 0x00] ≤ 1 →
      (∀ c, Step.enqueue c ∈ steps → c ≠ [k.COMMAND_LEAVE_CONFIG, 0x00]) →
      (run_steps ops k steps s0).command_queue_.count [k.COMMAND_LEAVE_CONFIG, 0x00] ≤ 1) := by
  refine ⟨?_, loop_queue ops k now s, run_steps_leave_count ops k steps s0⟩
  intro hq hm
  rw [command_stage_leave k now s hq hm]
  exact ⟨rfl, rfl, rfl⟩
/-- Witness of C13: `drained_hub` gets the leave-configuration command and
writes nothing, `queued_hub` gets nothing appended, and a run that polls, puts
`A0 00` in the queue and polls again holds at most one leave-configuration
command. -/
theorem leave_config_injection_witness :
    ((command_stage sample_constants 200 drained_hub).command_queue_ =
        [[sample_constants.COMMAND_LEAVE_CONFIG, 0x00]] ∧
      (command_stage sample_constants 200 drained_hub).tx = drained_hub.tx ∧
      (command_stage sample_constants 200 drained_hub).events = drained_hub.events) ∧
    (loop targetOps sample_constants 200 queued_hub).command_queue_ <:+
      ([sample_constants.COMMAND_ENTER_CONFIG, 0x00, 0x01, 0x00] :: queued_hub.command_queue_) ∧
    (run_steps targetOps sample_constants
        [Step.poll { now := 200, incoming := [] }, Step.enqueue [0xA0, 0x00],
          Step.poll { now := 400, incoming := [] }] drained_hub).command_queue_.count
        [sample_constants.COMMAND_LEAVE_CONFIG, 0x00] ≤ 1 :=
  ⟨(leave_config_injection targetOps sample_constants 200 drained_hub drained_hub []).1 rfl rfl,
    (leave_config_injection targetOps sample_constants 200 queued_hub drained_hub []).2.1
      (by decide),
    (leave_config_injection targetOps sample_constants 200 drained_hub drained_hub
      [Step.poll { now := 200, incoming := [] }, Step.enqueue [0xA0, 0x00],
        Step.poll { now := 400, incoming := [] }]).2.2 (by decide)
      (by
        intro c hc
        simp only [List.mem_cons, Step.enqueue.injEq, List.not_mem_nil, false_or, or_false,
          reduceCtorEq] at hc
        rw [hc]
        decide)⟩

/-! ## Frames with a wrong trailer -/

theorem command_stage_reader_state {T : Type} (k : Constants) (now : Nat) (s : Hub T) :
    (command_stage k now s).rx = s.rx ∧
    (command_stage k now s).peek_status_ = s.peek_status_ ∧
    (command_stage k now s).configuration_message_length_ = s.configuration_message_length_ ∧
    (command_stage k now s).targets_ = s.targets_ ∧
    (command_stage k now s).is_occupied_ = s.is_occupied_ := by
  unfold command_stage retransmit inject_enter_config write_command
  split_ifs <;> exact ⟨rfl, rfl, rfl, rfl, rfl⟩

theorem header_scan_pending {T : Type} (fuel : Nat) (s : Hub T) (h : s.peek_status_ ≠ 0) :
    header_scan fuel s = s := by
  cases fuel with
  | zero => rfl
  | succ n =>
    unfold header_scan
    rw [if_neg (fun hc => h hc.1)]

theorem update_stage_bad_trailer {T : Type} (ops : TargetOps T) (c : Hub T)
    (h1 : c.peek_status_ = 1) (h2 : c.rx.length ≥ 28)
    (hbad : ¬ (byteAt (c.rx.take 26) 24 = 0x55 ∧ byteAt (c.rx.take 26) 25 = 0xCC)) :
    update_stage ops c = ({ c with rx := c.rx.drop 26, peek_status_ := 0 }, true) := by
  have hb : byteAt (c.rx.take 26) 24 ≠ 0x55 ∨ byteAt (c.rx.take 26) 25 ≠ 0xCC := by
    by_contra hc
    rw [not_or, not_not, not_not] at hc
    exact hbad hc
  unfold update_stage
  rw [if_pos ⟨h1, h2⟩]
  simp only []
  rw [if_pos hb]

theorem update_stage_skip {T : Type} (ops : TargetOps T) (c : Hub T)
    (h1 : c.peek_status_ ≠ 1) : update_stage ops c = (c, false) := by
  unfold update_stage
  rw [if_neg (fun hc => h1 hc.1)]

theorem receive_stage_bad_trailer {T : Type} (ops : TargetOps T) (k : Constants) (c : Hub T)
    (h1 : c.peek_status_ = 1) (h2 : c.rx.length ≥ 28)
    (hbad : ¬ (byteAt (c.rx.take 26) 24 = 0x55 ∧ byteAt (c.rx.take 26) 25 = 0xCC)) :
    receive_stage ops k c = { c with rx := c.rx.drop 26, peek_status_ := 0 } := by
  unfold receive_stage
  rw [header_scan_pending _ c (by rw [h1]; decide), update_stage_bad_trailer ops c h1 h2 hbad]
  rfl

theorem read_config_frame_bad_frame_end {T : Type} (k : Constants) (c : Hub T)
    (h2 : c.rx.length ≥ c.configuration_message_length_ + 4)
    (hbad : ¬ frame_end_valid (c.rx.take (c.configuration_message_length_ + 4))
      c.configuration_message_length_) :
    read_config_frame k c =
      { c with
        rx := c.rx.drop (c.configuration_message_length_ + 4)
        peek_status_ := 0
        configuration_message_length_ := 0 } := by
  unfold frame_end_valid at hbad
  unfold read_config_frame
  rw [if_pos h2]
  simp only []
  rw [if_neg hbad]

theorem receive_stage_config {T : Type} (ops : TargetOps T) (k : Constants) (c : Hub T)
    (h1 : c.peek_status_ = 2) :
    receive_stage ops k c = config_stage k c := by
  unfold receive_stage
  rw [header_scan_pending _ c (by rw [h1]; decide),
    update_stage_skip ops c (by rw [h1]; decide)]
  rfl

theorem receive_stage_bad_frame_end {T : Type} (ops : TargetOps T) (k : Constants) (c : Hub T)
    (h1 : c.peek_status_ = 2) (hl : 0 < c.configuration_message_length_)
    (h2 : c.rx.length ≥ c.configuration_message_length_ + 4)
    (hbad : ¬ frame_end_valid (c.rx.take (c.configuration_message_length_ + 4))
      c.configuration_message_length_) :
    receive_stage ops k c =
      { c with
        rx := c.rx.drop (c.configuration_message_length_ + 4)
        peek_status_ := 0
        configuration_message_length_ := 0 } := by
  rw [receive_stage_config ops k c h1]
  unfold config_stage
  rw [if_pos ⟨h1, Or.inr hl⟩]
  have hr : read_content_length c = c := by
    unfold read_content_length
    rw [if_neg (Nat.pos_iff_ne_zero.mp hl)]
  rw [hr]
  exact read_config_frame_bad_frame_end k c h2 hbad

theorem receive_stage_bad_frame_end_unread {T : Type} (ops : TargetOps T) (k : Constants)
    (c : Hub T) (h1 : c.peek_status_ = 2) (hl : c.configuration_message_length_ = 0)
    (h0 : c.rx.length ≥ 2)
    (h2 : (c.rx.drop 2).length ≥ le16 (byteAt (c.rx.take 2) 0) (byteAt (c.rx.take 2) 1) + 4)
    (hbad : ¬ frame_end_valid
      ((c.rx.drop 2).take (le16 (byteAt (c.rx.take 2) 0) (byteAt (c.rx.take 2) 1) + 4))
      (le16 (byteAt (c.rx.take 2) 0) (byteAt (c.rx.take 2) 1))) :
    receive_stage ops k c =
      { c with
        rx := (c.rx.drop 2).drop (le16 (byteAt (c.rx.take 2) 0) (byteAt (c.rx.take 2) 1) + 4)
        peek_status_ := 0
        configuration_message_length_ := 0 } := by
  rw [receive_stage_config ops k c h1]
  unfold config_stage
  rw [if_pos ⟨h1, Or.inl h0⟩]
  have hr : read_content_length c =
      { c with
        rx := c.rx.drop 2
        configuration_message_length_ :=
          le16 (byteAt (c.rx.take 2) 0) (byteAt (c.rx.take 2) 1) } := by
    unfold read_content_length
    rw [if_pos hl]
  rw [hr]
  exact read_config_frame_bad_frame_end k _ h2 hbad

/-- C14 (as amended): (a) with a pending target-update classification and at
least 28 bytes available, if bytes 24..25 of the 26 bytes read are not `55 CC`,
`loop()` consumes exactly those 26 bytes, clears the pending classification
and leaves everything else as its command stage left it; (b) with a pending
configuration classification, a cached length `L > 0` and at least `L + 4`
bytes available, if the 4 bytes after the payload are not `04 03 02 01`,
`loop()` consumes exactly those `L + 4` bytes, clears the pending
classification and the cached length and leaves everything else as its
command stage left it (when the length is still to be read, the two length
bytes are consumed as well); the command stage keeps targets, occupancy and
configuration mode, and keeps the whole state when the queue is empty and
configuration mode is inactive. -/
theorem bad_trailer_discards_frame {T : Type} (ops : TargetOps T) (k : Constants) (now : Nat)
    (s : Hub T) :
    (s.peek_status_ = 1 → s.rx.length ≥ 28 →
      ¬ (byteAt (s.rx.take 26) 24 = 0x55 ∧ byteAt (s.rx.take 26) 25 = 0xCC) →
      loop ops k now s =
        { command_stage k now s with rx := s.rx.drop 26, peek_status_ := 0 }) ∧
    (s.peek_status_ = 2 → 0 < s.configuration_message_length_ →
      s.rx.length ≥ s.configuration_message_length_ + 4 →
      ¬ frame_end_valid (s.rx.take (s.configuration_message_length_ + 4))
        s.configuration_message_length_ →
      loop ops k now s =
        { command_stage k now s with
          rx := s.rx.drop (s.configuration_message_length_ + 4)
          peek_status_ := 0
          configuration_message_length_ := 0 }) ∧
    (s.peek_status_ = 2 → s.configuration_message_length_ = 0 → s.rx.length ≥ 2 →
      (s.rx.drop 2).length ≥ le16 (byteAt (s.rx.take 2) 0) (byteAt (s.rx.take 2) 1) + 4 →
      ¬ frame_end_valid
        ((s.rx.drop 2).take (le16 (byteAt (s.rx.take 2) 0) (byteAt (s.rx.take 2) 1) + 4))
        (le16 (byteAt (s.rx.take 2) 0) (byteAt (s.rx.take 2) 1)) →
      loop ops k now s =
        { command_stage k now s with
          rx := (s.rx.drop 2).drop
            (le16 (byteAt (s.rx.take 2) 0) (byteAt (s.rx.take 2) 1) + 4)
          peek_status_ := 0
          configuration_message_length_ := 0 }) ∧
    (command_stage k now s).targets_ = s.targets_ ∧
    (command_stage k now s).is_occupied_ = s.is_occupied_ ∧
    (command_stage k now s).configuration_mode_ = s.configuration_mode_ ∧
    (s.command_queue_ = [] → s.configuration_mode_ = false → command_stage k now s = s) := by
  obtain ⟨hrx, hpeek, hlen, htargets, hocc⟩ := command_stage_reader_state k now s
  refine ⟨?_, ?_, ?_, htargets, hocc, command_stage_mode k now s, command_stage_idle k now s⟩
  · intro h1 h2 hbad
    unfold loop
    rw [receive_stage_bad_trailer ops k (command_stage k now s) (by rw [hpeek]; exact h1)
      (by rw [hrx]; exact h2) (by rw [hrx]; exact hbad), hrx]
  · intro h1 hl h2 hbad
    unfold loop
    rw [receive_stage_bad_frame_end ops k (command_stage k now s) (by rw [hpeek]; exact h1)
      (by rw [hlen]; exact hl) (by rw [hrx, hlen]; exact h2) (by rw [hrx, hlen]; exact hbad),
      hrx, hlen]
  · intro h1 hl h0 h2 hbad
    unfold loop
    rw [receive_stage_bad_frame_end_unread ops k (command_stage k now s)
      (by rw [hpeek]; exact h1) (by rw [hlen]; exact hl) (by rw [hrx]; exact h0)
      (by rw [hrx]; exact h2) (by rw [hrx]; exact hbad), hrx]
/-- Witness of C14 (as amended): the frames in `bad_trailer_hub`,
`bad_frame_end_hub` and `unread_length_hub` are consumed and nothing but the
receive buffer, the pending classification and the cached length differs from
the state that the command stage left. -/
theorem bad_trailer_discards_frame_witness :
    loop targetOps sample_constants 200 bad_trailer_hub =
      { command_stage sample_constants 200 bad_trailer_hub with
        rx := bad_trailer_hub.rx.drop 26, peek_status_ := 0 } ∧
    loop targetOps sample_constants 200 bad_frame_end_hub =
      { command_stage sample_constants 200 bad_frame_end_hub with
        rx := bad_frame_end_hub.rx.drop (bad_frame_end_hub.configuration_message_length_ + 4)
        peek_status_ := 0
        configuration_message_length_ := 0 } ∧
    loop targetOps sample_constants 200 unread_length_hub =
      { command_stage sample_constants 200 unread_length_hub with
        rx := (unread_length_hub.rx.drop 2).drop
          (le16 (byteAt (unread_length_hub.rx.take 2) 0)
            (byteAt (unread_length_hub.rx.take 2) 1) + 4)
        peek_status_ := 0
        configuration_message_length_ := 0 } ∧
    command_stage sample_constants 200 unread_length_hub = unread_length_hub :=
  ⟨(bad_trailer_discards_frame targetOps sample_constants 200 bad_trailer_hub).1 rfl
      (by decide) (by decide),
    (bad_trailer_discards_frame targetOps sample_constants 200 bad_frame_end_hub).2.1 rfl
      (by decide) (by decide) (by unfold frame_end_valid; decide),
    (bad_trailer_discards_frame targetOps sample_constants 200 unread_length_hub).2.2.1 rfl rfl
      (by decide) (by decide) (by unfold frame_end_valid; decide),
    (bad_trailer_discards_frame targetOps sample_constants 200
      unread_length_hub).2.2.2.2.2.2 rfl rfl⟩

/-- C14 (counterexample): in `bad_trailer_hub` and in `bad_frame_end_hub` the
frame has a wrong trailer, and the `loop()` that discards it changes the
command queue (the enter-configuration command is put in front), the retry
counter and the last-sent time, because its command stage runs first. -/
theorem bad_trailer_loop_changes_queue :
    (bad_trailer_hub.peek_status_ = 1 ∧ bad_trailer_hub.rx.length ≥ 28 ∧
      ¬ (byteAt (bad_trailer_hub.rx.take 26) 24 = 0x55 ∧
        byteAt (bad_trailer_hub.rx.take 26) 25 = 0xCC) ∧
      bad_trailer_hub.command_queue_ = [[0xA0, 0x00]] ∧
      (loop targetOps sample_constants 200 bad_trailer_hub).command_queue_ =
        [[0xFF, 0x00, 0x01, 0x00], [0xA0, 0x00]]) ∧
    (bad_frame_end_hub.peek_status_ = 2 ∧
      bad_frame_end_hub.configuration_message_length_ = 4 ∧
      bad_frame_end_hub.rx.length ≥ 4 + 4 ∧
      ¬ frame_end_valid (bad_frame_end_hub.rx.take (4 + 4)) 4 ∧
      bad_frame_end_hub.command_queue_ = [[0xA0, 0x00]] ∧
      (loop targetOps sample_constants 200 bad_frame_end_hub).command_queue_ =
        [[0xFF, 0x00, 0x01, 0x00], [0xA0, 0x00]] ∧
      bad_frame_end_hub.command_send_retries_ = 0 ∧
      (loop targetOps sample_constants 200 bad_frame_end_hub).command_send_retries_ = 1 ∧
      bad_frame_end_hub.command_last_sent_ = 0 ∧
      (loop targetOps sample_constants 200 bad_frame_end_hub).command_last_sent_ = 200) := by
  unfold frame_end_valid
  decide

/-! ## A declared length of zero -/

/-- C15 (the code at the failing input): the configuration frame
`FD FC FB FA 00 00 04 03 02 01`, with command queue empty and configuration
mode inactive.  Available as a whole, it is decoded by one
`process_config_message` and consumed, and the parser ends with no pending
classification.  Cut after the length bytes, the length 0 is read in the
first poll and cannot be told from a length not yet read, so the poll after
the second chunk reads `04 03` as a length of 772: nothing is decoded, two
bytes stay in the buffer and the parser ends waiting for 776 bytes. -/
theorem zero_length_frame_not_resumable :
    ((run targetOps sample_constants
        [{ now := 0, incoming := zero_length_frame }, { now := 1, incoming := [] }]
        (initial_hub fresh_targets 250)).events =
        [Event.process_config_message [0x04, 0x03, 0x02, 0x01] 0] ∧
      (run targetOps sample_constants
        [{ now := 0, incoming := zero_length_frame }, { now := 1, incoming := [] }]
        (initial_hub fresh_targets 250)).rx = [] ∧
      (run targetOps sample_constants
        [{ now := 0, incoming := zero_length_frame }, { now := 1, incoming := [] }]
        (initial_hub fresh_targets 250)).peek_status_ = 0 ∧
      (run targetOps sample_constants
        [{ now := 0, incoming := zero_length_frame }, { now := 1, incoming := [] }]
        (initial_hub fresh_targets 250)).configuration_message_length_ = 0) ∧
    ((run targetOps sample_constants
        [{ now := 0, incoming := zero_length_frame.take 6 }, { now := 1, incoming := [] },
          { now := 2, incoming := zero_length_frame.drop 6 }, { now := 3, incoming := [] }]
        (initial_hub fresh_targets 250)).events = [] ∧
      (run targetOps sample_constants
        [{ now := 0, incoming := zero_length_frame.take 6 }, { now := 1, incoming := [] },
          { now := 2, incoming := zero_length_frame.drop 6 }, { now := 3, incoming := [] }]
        (initial_hub fresh_targets 250)).rx = [0x02, 0x01] ∧
      (run targetOps sample_constants
        [{ now := 0, incoming := zero_length_frame.take 6 }, { now := 1, incoming := [] },
          { now := 2, incoming := zero_length_frame.drop 6 }, { now := 3, incoming := [] }]
        (initial_hub fresh_targets 250)).peek_status_ = 2 ∧
      (run targetOps sample_constants
        [{ now := 0, incoming := zero_length_frame.take 6 }, { now := 1, incoming := [] },
          { now := 2, incoming := zero_length_frame.drop 6 }, { now := 3, incoming := [] }]
        (initial_hub fresh_targets 250)).configuration_message_length_ = 772) ∧
    (run targetOps sample_constants
        [{ now := 0, incoming := zero_length_frame.take 6 }, { now := 1, incoming := [] },
          { now := 2, incoming := zero_length_frame.drop 6 }, { now := 3, incoming := [] }]
        (initial_hub fresh_targets 250)).command_queue_ = [] ∧
    (run targetOps sample_constants
        [{ now := 0, incoming := zero_length_frame.take 6 }, { now := 1, incoming := [] },
          { now := 2, incoming := zero_length_frame.drop 6 }, { now := 3, incoming := [] }]
        (initial_hub fresh_targets 250)).configuration_mode_ = false := by
  decide

/-- The same frame with a payload of four bytes is decoded alike whether it
arrives as a whole or cut after the length bytes. -/
theorem nonzero_length_frame_resumed :
    (run targetOps sample_constants
        [{ now := 0, incoming := leave_config_ack }, { now := 1, incoming := [] }]
        (initial_hub fresh_targets 250)).events =
      (run targetOps sample_constants
        [{ now := 0, incoming := leave_config_ack.take 6 }, { now := 1, incoming := [] },
          { now := 2, incoming := leave_config_ack.drop 6 }, { now := 3, incoming := [] }]
        (initial_hub fresh_targets 250)).events ∧
    (run targetOps sample_constants
        [{ now := 0, incoming := leave_config_ack.take 6 }, { now := 1, incoming := [] },
          { now := 2, incoming := leave_config_ack.drop 6 }, { now := 3, incoming := [] }]
        (initial_hub fresh_targets 250)).events =
      [Event.process_config_message [0xFE, 0x01, 0x00, 0x00, 0x04, 0x03, 0x02, 0x01] 4] := by
  decide

/-! ## The scan loop: termination and reads -/

theorem scan_iteration_eq {T : Type} (s : Hub T) :
    scan_iteration s =
      if (read_header (chosen_header s.rx).1 s.rx).1 = true then
        { s with rx := (read_header (chosen_header s.rx).1 s.rx).2 }
      else
        { s with
          rx := (read_header (chosen_header s.rx).1 s.rx).2
          peek_status_ := (chosen_header s.rx).2 } := rfl

theorem header_reads_spec (header : List Nat) :
    ∀ rx : List Nat, header ≠ [] → header.length ≤ rx.length →
      header_reads header rx = (rx.take (header_reads header rx).length).map some ∧
      1 ≤ (header_reads header rx).length ∧
      (header_reads header rx).length ≤ header.length ∧
      (read_header header rx).2 = rx.drop (header_reads header rx).length := by
  induction header with
  | nil => intro rx h; exact absurd rfl h
  | cons h hs ih =>
    intro rx _ hlen
    cases rx with
    | nil => simp at hlen
    | cons b rx =>
      unfold header_reads read_header
      by_cases hb : b ≠ h
      · rw [if_pos hb, if_pos hb]
        simp
      · rw [if_neg hb, if_neg hb]
        cases hs with
        | nil =>
          simp [header_reads, read_header]
        | cons h2 hs2 =>
          have hl : (h2 :: hs2).length ≤ rx.length := by
            simp only [List.length_cons] at hlen ⊢
            omega
          obtain ⟨i1, i2, i3, i4⟩ := ih rx (by simp) hl
          refine ⟨?_, ?_, ?_, ?_⟩
          · simp only [List.length_cons, List.take_succ_cons, List.map_cons]
            rw [← i1]
          · simp
          · simp only [List.length_cons] at i3 ⊢
            omega
          · simp only [List.length_cons, List.drop_succ_cons]
            exact i4

theorem chosen_header_length (rx : List Nat) :
    (chosen_header rx).1 ≠ [] ∧ (chosen_header rx).1.length = 4 := by
  unfold chosen_header
  split_ifs <;> exact ⟨by decide, rfl⟩

theorem scan_iteration_rx {T : Type} (s : Hub T) :
    (scan_iteration s).rx = (read_header (chosen_header s.rx).1 s.rx).2 := by
  rw [scan_iteration_eq]
  split_ifs <;> rfl

theorem scan_bytes_fuel (fuel1 : Nat) :
    ∀ (fuel2 status : Nat) (rx : List Nat), rx.length ≤ fuel1 → rx.length ≤ fuel2 →
      scan_bytes fuel1 status rx = scan_bytes fuel2 status rx := by
  induction fuel1 with
  | zero =>
    intro fuel2 status rx h1 _
    have hnil : rx = [] := List.length_eq_zero.mp (Nat.le_zero.mp h1)
    subst hnil
    cases fuel2 with
    | zero => rfl
    | succ m =>
      conv_rhs => unfold scan_bytes
      rw [if_neg (by simp)]
      rfl
  | succ n ih =>
    intro fuel2 status rx h1 h2
    cases fuel2 with
    | zero =>
      have hnil : rx = [] := List.length_eq_zero.mp (Nat.le_zero.mp h2)
      subst hnil
      conv_lhs => unfold scan_bytes
      rw [if_neg (by simp)]
      rfl
    | succ m =>
      unfold scan_bytes
      by_cases hc : status = 0 ∧ rx.length ≥ 4
      · rw [if_pos hc, if_pos hc]
        have hne : rx ≠ [] := by
          intro h
          rw [h] at hc
          simp at hc
        have hlt : (read_header (chosen_header rx).1 rx).2.length < rx.length := by
          unfold chosen_header
          split_ifs
          · exact read_header_consumes 0xAA [0xFF, 0x03, 0x00] rx hne
          · exact read_header_consumes 0xFD [0xFC, 0xFB, 0xFA] rx hne
        show (if (read_header (chosen_header rx).1 rx).1 = true then
            scan_bytes n status (read_header (chosen_header rx).1 rx).2
          else scan_bytes n (chosen_header rx).2 (read_header (chosen_header rx).1 rx).2) =
          (if (read_header (chosen_header rx).1 rx).1 = true then
            scan_bytes m status (read_header (chosen_header rx).1 rx).2
          else scan_bytes m (chosen_header rx).2 (read_header (chosen_header rx).1 rx).2)
        rw [ih m status _ (by omega) (by omega), ih m (chosen_header rx).2 _ (by omega) (by omega)]
      · rw [if_neg hc, if_neg hc]

theorem header_scan_fuel {T : Type} (fuel : Nat) (s : Hub T) (h : s.rx.length ≤ fuel) :
    header_scan fuel s = header_scan s.rx.length s := by
  rw [header_scan_eq, header_scan_eq,
    scan_bytes_fuel fuel s.rx.length s.peek_status_ s.rx h (Nat.le_refl _)]

/-- C16: the scan loop of `loop()` terminates on every receive buffer (with
one iteration allowed per byte it reaches the exit of the `while`, and more
iterations allowed change nothing); it runs an iteration only with no pending
classification and at least 4 bytes available; such an iteration calls
`read()` between 1 and 4 times, each call returns a byte of the buffer (none
is made on an empty buffer) and exactly the bytes read are consumed; on exit a
classification is pending or fewer than 4 bytes remain. -/
theorem header_scan_terminates_without_over_read {T : Type} (s : Hub T) (fuel : Nat) :
    (s.rx.length ≤ fuel → header_scan fuel s = header_scan s.rx.length s) ∧
    ¬ ((header_scan s.rx.length s).peek_status_ = 0 ∧
      (header_scan s.rx.length s).rx.length ≥ 4) ∧
    header_scan (fuel + 1) s =
      (if s.peek_status_ = 0 ∧ s.rx.length ≥ 4 then header_scan fuel (scan_iteration s)
        else s) ∧
    (s.peek_status_ = 0 → s.rx.length ≥ 4 →
      header_reads (chosen_header s.rx).1 s.rx =
        (s.rx.take (header_reads (chosen_header s.rx).1 s.rx).length).map some ∧
      (∀ r ∈ header_reads (chosen_header s.rx).1 s.rx, r ≠ none) ∧
      1 ≤ (header_reads (chosen_header s.rx).1 s.rx).length ∧
      (header_reads (chosen_header s.rx).1 s.rx).length ≤ 4 ∧
      (scan_iteration s).rx = s.rx.drop (header_reads (chosen_header s.rx).1 s.rx).length) := by
  refine ⟨header_scan_fuel fuel s, header_scan_exits s, rfl, ?_⟩
  intro _ hlen
  obtain ⟨hne, hl⟩ := chosen_header_length s.rx
  obtain ⟨i1, i2, i3, i4⟩ := header_reads_spec (chosen_header s.rx).1 s.rx hne (by omega)
  refine ⟨i1, ?_, i2, by omega, by rw [scan_iteration_rx, i4]⟩
  intro r hr
  rw [i1] at hr
  simp only [List.mem_map] at hr
  obtain ⟨b, _, hb⟩ := hr
  rw [← hb]
  simp

/-- Witness of C16 on `stray_hub` (33 bytes available, no classification
pending) with 40 iterations allowed. -/
theorem header_scan_terminates_without_over_read_witness :
    (stray_hub.rx.length ≤ 40 ∧ stray_hub.peek_status_ = 0 ∧ stray_hub.rx.length ≥ 4) ∧
    header_scan 40 stray_hub = header_scan stray_hub.rx.length stray_hub ∧
    (header_reads (chosen_header stray_hub.rx).1 stray_hub.rx =
        (stray_hub.rx.take (header_reads (chosen_header stray_hub.rx).1
          stray_hub.rx).length).map some ∧
      (∀ r ∈ header_reads (chosen_header stray_hub.rx).1 stray_hub.rx, r ≠ none) ∧
      1 ≤ (header_reads (chosen_header stray_hub.rx).1 stray_hub.rx).length ∧
      (header_reads (chosen_header stray_hub.rx).1 stray_hub.rx).length ≤ 4 ∧
      (scan_iteration stray_hub).rx =
        stray_hub.rx.drop (header_reads (chosen_header stray_hub.rx).1 stray_hub.rx).length) :=
  ⟨by decide,
    (header_scan_terminates_without_over_read stray_hub 40).1 (by decide),
    (header_scan_terminates_without_over_read stray_hub 40).2.2.2 (by decide) (by decide)⟩

/-! ## Soundness of the classification -/

theorem read_header_outcome (header : List Nat) :
    ∀ rx : List Nat, header.length ≤ rx.length →
      (∃ rest, rx = header ++ rest ∧ read_header header rx = (false, rest)) ∨
      (∃ i, i < header.length ∧ rx.take i = header.take i ∧
        byteAt rx i ≠ byteAt header i ∧ read_header header rx = (true, rx.drop (i + 1))) := by
  induction header with
  | nil =>
    intro rx _
    exact Or.inl ⟨rx, rfl, rfl⟩
  | cons h hs ih =>
    intro rx hlen
    cases rx with
    | nil => simp at hlen
    | cons b rx =>
      unfold read_header
      by_cases hb : b ≠ h
      · rw [if_pos hb]
        exact Or.inr ⟨0, by simp, rfl, by simpa [byteAt] using hb, rfl⟩
      · rw [if_neg hb]
        rw [not_not] at hb
        subst hb
        rcases ih rx (by simpa using hlen) with ⟨rest, h1, h2⟩ | ⟨i, h1, h2, h3, h4⟩
        · exact Or.inl ⟨rest, by rw [h1]; rfl, h2⟩
        · refine Or.inr ⟨i + 1, by simpa using h1, ?_, ?_, ?_⟩
          · simp only [List.take_succ_cons, h2]
          · simpa [byteAt] using h3
          · rw [h4]
            rfl

theorem chosen_header_cases (rx : List Nat) :
    chosen_header rx = (update_header, 1) ∨ chosen_header rx = (config_header, 2) := by
  unfold chosen_header
  split_ifs
  · exact Or.inl rfl
  · exact Or.inr rfl

theorem scan_iteration_outcome {T : Type} (s : Hub T) (hlen : s.rx.length ≥ 4) :
    (∃ rest, s.rx = (chosen_header s.rx).1 ++ rest ∧
      scan_iteration s = { s with rx := rest, peek_status_ := (chosen_header s.rx).2 }) ∨
    (∃ i, i < 4 ∧ s.rx.take i = (chosen_header s.rx).1.take i ∧
      byteAt s.rx i ≠ byteAt (chosen_header s.rx).1 i ∧
      scan_iteration s = { s with rx := s.rx.drop (i + 1) }) := by
  have hl := (chosen_header_length s.rx).2
  rcases read_header_outcome (chosen_header s.rx).1 s.rx (by omega) with
    ⟨rest, h1, h2⟩ | ⟨i, h1, h2, h3, h4⟩
  · refine Or.inl ⟨rest, h1, ?_⟩
    rw [scan_iteration_eq, h2]
    rfl
  · refine Or.inr ⟨i, by omega, h2, h3, ?_⟩
    rw [scan_iteration_eq, h4]
    rfl

theorem scan_bytes_sound (fuel : Nat) :
    ∀ rx : List Nat,
      ((scan_bytes fuel 0 rx).1 = 0 ∧ ∃ pre, rx = pre ++ (scan_bytes fuel 0 rx).2) ∨
      ((scan_bytes fuel 0 rx).1 = 1 ∧
        ∃ pre, rx = pre ++ update_header ++ (scan_bytes fuel 0 rx).2) ∨
      ((scan_bytes fuel 0 rx).1 = 2 ∧
        ∃ pre, rx = pre ++ config_header ++ (scan_bytes fuel 0 rx).2) := by
  induction fuel with
  | zero =>
    intro rx
    exact Or.inl ⟨rfl, [], rfl⟩
  | succ n ih =>
    intro rx
    have hstep : scan_bytes (n + 1) 0 rx =
        if (0 : Nat) = 0 ∧ rx.length ≥ 4 then
          (if (read_header (chosen_header rx).1 rx).1 = true then
            scan_bytes n 0 (read_header (chosen_header rx).1 rx).2
          else scan_bytes n (chosen_header rx).2 (read_header (chosen_header rx).1 rx).2)
        else (0, rx) := rfl
    rw [hstep]
    by_cases hc : (0 : Nat) = 0 ∧ rx.length ≥ 4
    · rw [if_pos hc]
      have hl := (chosen_header_length rx).2
      rcases read_header_outcome (chosen_header rx).1 rx (by omega) with
        ⟨rest, h1, h2⟩ | ⟨i, _, _, _, h4⟩
      · rw [h2]
        simp only [Bool.false_eq_true, if_false]
        rcases chosen_header_cases rx with hch | hch
        · rw [hch] at h1 ⊢
          rw [scan_bytes_pending n 1 rest (by decide)]
          exact Or.inr (Or.inl ⟨rfl, [], by simpa using h1⟩)
        · rw [hch] at h1 ⊢
          rw [scan_bytes_pending n 2 rest (by decide)]
          exact Or.inr (Or.inr ⟨rfl, [], by simpa using h1⟩)
      · rw [h4]
        simp only [if_true]
        have hsplit : rx = rx.take (i + 1) ++ rx.drop (i + 1) := (List.take_append_drop _ _).symm
        rcases ih (rx.drop (i + 1)) with ⟨a, pre, hp⟩ | ⟨a, pre, hp⟩ | ⟨a, pre, hp⟩
        · refine Or.inl ⟨a, rx.take (i + 1) ++ pre, ?_⟩
          rw [List.append_assoc, ← hp]
          exact hsplit
        · refine Or.inr (Or.inl ⟨a, rx.take (i + 1) ++ pre, ?_⟩)
          rw [List.append_assoc, List.append_assoc, ← List.append_assoc pre, ← hp]
          exact hsplit
        · refine Or.inr (Or.inr ⟨a, rx.take (i + 1) ++ pre, ?_⟩)
          rw [List.append_assoc, List.append_assoc, ← List.append_assoc pre, ← hp]
          exact hsplit
    · rw [if_neg hc]
      exact Or.inl ⟨rfl, [], rfl⟩

/-- C17: the header scan sets the pending classification to 1 only when the
last 4 bytes it consumed are `AA FF 03 00` and to 2 only when they are
`FD FC FB FA`; an iteration either matches the whole chosen header and sets
its classification, or consumes the bytes up to and including the first one
that differs from the chosen header and leaves the classification as it is;
and with a classification pending on entry the scan changes nothing. -/
theorem classification_soundness {T : Type} (s : Hub T) (fuel : Nat) :
    (s.peek_status_ ≠ 0 → header_scan fuel s = s) ∧
    (chosen_header s.rx = (update_header, 1) ∨ chosen_header s.rx = (config_header, 2)) ∧
    (s.rx.length ≥ 4 →
      (∃ rest, s.rx = (chosen_header s.rx).1 ++ rest ∧
        scan_iteration s = { s with rx := rest, peek_status_ := (chosen_header s.rx).2 }) ∨
      (∃ i, i < 4 ∧ s.rx.take i = (chosen_header s.rx).1.take i ∧
        byteAt s.rx i ≠ byteAt (chosen_header s.rx).1 i ∧
        scan_iteration s = { s with rx := s.rx.drop (i + 1) })) ∧
    (s.peek_status_ = 0 →
      ((header_scan fuel s).peek_status_ = 0 ∨ (header_scan fuel s).peek_status_ = 1 ∨
        (header_scan fuel s).peek_status_ = 2) ∧
      ((header_scan fuel s).peek_status_ = 0 → ∃ pre, s.rx = pre ++ (header_scan fuel s).rx) ∧
      ((header_scan fuel s).peek_status_ = 1 →
        ∃ pre, s.rx = pre ++ update_header ++ (header_scan fuel s).rx) ∧
      ((header_scan fuel s).peek_status_ = 2 →
        ∃ pre, s.rx = pre ++ config_header ++ (header_scan fuel s).rx)) := by
  refine ⟨header_scan_pending fuel s, chosen_header_cases s.rx, scan_iteration_outcome s, ?_⟩
  intro h0
  rw [header_scan_eq, h0]
  show ((scan_bytes fuel 0 s.rx).1 = 0 ∨ (scan_bytes fuel 0 s.rx).1 = 1 ∨
      (scan_bytes fuel 0 s.rx).1 = 2) ∧
    ((scan_bytes fuel 0 s.rx).1 = 0 → ∃ pre, s.rx = pre ++ (scan_bytes fuel 0 s.rx).2) ∧
    ((scan_bytes fuel 0 s.rx).1 = 1 →
      ∃ pre, s.rx = pre ++ update_header ++ (scan_bytes fuel 0 s.rx).2) ∧
    ((scan_bytes fuel 0 s.rx).1 = 2 →
      ∃ pre, s.rx = pre ++ config_header ++ (scan_bytes fuel 0 s.rx).2)
  rcases scan_bytes_sound fuel s.rx with ⟨a, hp⟩ | ⟨a, hp⟩ | ⟨a, hp⟩
  · refine ⟨Or.inl a, fun _ => hp, ?_, ?_⟩ <;>
    · intro h
      rw [a] at h
      cases h
  · refine ⟨Or.inr (Or.inl a), ?_, fun _ => hp, ?_⟩ <;>
    · intro h
      rw [a] at h
      cases h
  · refine ⟨Or.inr (Or.inr a), ?_, ?_, fun _ => hp⟩ <;>
    · intro h
      rw [a] at h
      cases h
/-- Witness of C17: the scan leaves `bad_trailer_hub`, whose classification is
pending, as it is; on `garbage_hub` the first iteration has one of the two
outcomes, and the scan ends with classification 1 behind the bytes
`AA FF 03 00`. -/
theorem classification_soundness_witness :
    header_scan 40 bad_trailer_hub = bad_trailer_hub ∧
    ((∃ rest, garbage_hub.rx = (chosen_header garbage_hub.rx).1 ++ rest ∧
        scan_iteration garbage_hub =
          { garbage_hub with rx := rest, peek_status_ := (chosen_header garbage_hub.rx).2 }) ∨
      (∃ i, i < 4 ∧ garbage_hub.rx.take i = (chosen_header garbage_hub.rx).1.take i ∧
        byteAt garbage_hub.rx i ≠ byteAt (chosen_header garbage_hub.rx).1 i ∧
        scan_iteration garbage_hub = { garbage_hub with rx := garbage_hub.rx.drop (i + 1) })) ∧
    (header_scan 40 garbage_hub).peek_status_ = 1 ∧
    (∃ pre, garbage_hub.rx = pre ++ update_header ++ (header_scan 40 garbage_hub).rx) :=
  ⟨(classification_soundness bad_trailer_hub 40).1 (by decide),
    (classification_soundness garbage_hub 40).2.2.1 (by decide),
    by decide,
    ((classification_soundness garbage_hub 40).2.2.2 rfl).2.2.1 (by decide)⟩

/-! ## Accesses outside the queue and outside the frame buffer -/

/-- C18 (what the code does on an empty queue): `process_config_message`
starts with the copy of `command_queue_.front()` (line 231), before the size
of the queue is tested, so on an empty queue it reads the front of a vector
without elements; the rest of the claim holds: the queue stays empty and the
retry counter and the last-sent time are unchanged. -/
theorem front_read_on_empty_queue {T : Type} (k : Constants) (s : Hub T) (msg : List Nat)
    (len : Nat) (hq : s.command_queue_ = []) :
    (process_config_message_accesses k s msg).head? = some (Access.queue_front 0) ∧
    (Access.queue_front 0).in_bounds (len + 4) = false ∧
    (process_config_message k s msg len).command_queue_ = [] ∧
    (process_config_message k s msg len).command_send_retries_ = s.command_send_retries_ ∧
    (process_config_message k s msg len).command_last_sent_ = s.command_last_sent_ ∧
    process_config_message k s msg len =
      { s with
        configuration_mode_ := (process_config_message k s msg len).configuration_mode_
        events := (process_config_message k s msg len).events } := by
  have hack : ∀ u : Hub T, u.command_queue_ = [] → acknowledge u msg = u := by
    intro u hu
    unfold acknowledge
    simp only [hu, List.length_nil, gt_iff_lt, Nat.lt_irrefl, false_and, if_false]
  have h := process_config_message_command_state k s msg len
  rw [h.1, h.2.1, h.2.2, hack s hq]
  refine ⟨?_, rfl, hq, rfl, rfl, ?_⟩
  · unfold process_config_message_accesses acknowledge_accesses
    simp only [hq, List.length_nil, gt_iff_lt, Nat.lt_irrefl, if_false]
    rfl
  · unfold process_config_message
    simp only []
    rw [hack { s with events := s.events ++ [Event.process_config_message msg len] } hq]
    unfold report_version track_configuration_mode
    simp only []
    split_ifs <;> rfl

/-- Witness for C18, its failing input: the initial hub, whose queue is empty,
receives `leave_config_ack`; `loop()` calls `process_config_message` on it,
and the first access of that call is `front()` on the empty queue. -/
theorem front_read_on_empty_queue_witness :
    (initial_hub fresh_targets 250).command_queue_ = [] ∧
    (loop targetOps sample_constants 0
        (receive (initial_hub fresh_targets 250) leave_config_ack)).events =
      [Event.process_config_message [0xFE, 0x01, 0x00, 0x00, 0x04, 0x03, 0x02, 0x01] 4] ∧
    ((process_config_message_accesses sample_constants (initial_hub fresh_targets 250)
        [0xFE, 0x01, 0x00, 0x00, 0x04, 0x03, 0x02, 0x01]).head? =
        some (Access.queue_front 0) ∧
      (Access.queue_front 0).in_bounds (4 + 4) = false ∧
      (process_config_message sample_constants (initial_hub fresh_targets 250)
        [0xFE, 0x01, 0x00, 0x00, 0x04, 0x03, 0x02, 0x01] 4).command_queue_ = [] ∧
      (process_config_message sample_constants (initial_hub fresh_targets 250)
        [0xFE, 0x01, 0x00, 0x00, 0x04, 0x03, 0x02, 0x01] 4).command_send_retries_ =
        (initial_hub fresh_targets 250).command_send_retries_ ∧
      (process_config_message sample_constants (initial_hub fresh_targets 250)
        [0xFE, 0x01, 0x00, 0x00, 0x04, 0x03, 0x02, 0x01] 4).command_last_sent_ =
        (initial_hub fresh_targets 250).command_last_sent_ ∧
      process_config_message sample_constants (initial_hub fresh_targets 250)
          [0xFE, 0x01, 0x00, 0x00, 0x04, 0x03, 0x02, 0x01] 4 =
        { initial_hub fresh_targets 250 with
          configuration_mode_ := (process_config_message sample_constants
            (initial_hub fresh_targets 250)
            [0xFE, 0x01, 0x00, 0x00, 0x04, 0x03, 0x02, 0x01] 4).configuration_mode_
          events := (process_config_message sample_constants
            (initial_hub fresh_targets 250)
            [0xFE, 0x01, 0x00, 0x00, 0x04, 0x03, 0x02, 0x01] 4).events }) :=
  ⟨rfl, by decide,
    front_read_on_empty_queue sample_constants (initial_hub fresh_targets 250)
      [0xFE, 0x01, 0x00, 0x00, 0x04, 0x03, 0x02, 0x01] 4 rfl⟩

theorem ack_test_accesses_bound (op : Nat) (msg : List Nat) (i : Nat)
    (h : Access.msg_byte i ∈ ack_test_accesses op msg) : i ≤ 1 := by
  unfold ack_test_accesses at h
  split_ifs at h <;> simp at h <;> omega

/-- Every `msg[i]` of `process_config_message` has `i ≤ 1`, except the reads of
the firmware version, which have `6 ≤ i ≤ 11` and are made when the frame
acknowledges the read-version command. -/
theorem msg_reads_bounded {T : Type} (k : Constants) (s : Hub T) (msg : List Nat) (i : Nat)
    (h : Access.msg_byte i ∈ process_config_message_accesses k s msg) :
    i ≤ 1 ∨ (byteAt msg 0 = k.COMMAND_READ_VERSION ∧ byteAt msg 1 = 1 ∧ 6 ≤ i ∧ i ≤ 11) := by
  unfold process_config_message_accesses at h
  simp only [List.mem_append] at h
  rcases h with ((h | h) | h) | h
  · left
    unfold acknowledge_accesses at h
    simp only [] at h
    split_ifs at h <;> simp at h <;> omega
  · exact Or.inl (ack_test_accesses_bound _ msg i h)
  · exact Or.inl (ack_test_accesses_bound _ msg i h)
  · unfold report_version_accesses at h
    simp only [List.mem_append] at h
    rcases h with h | h
    · exact Or.inl (ack_test_accesses_bound _ msg i h)
    · split_ifs at h with hv
      · right
        simp at h
        exact ⟨hv.1, hv.2, by omega, by omega⟩
      · simp at h

/-- For a declared length of at least 8 every `msg[i]` of
`process_config_message` lies inside the frame buffer of `len + 4` bytes. -/
theorem msg_reads_in_bounds {T : Type} (k : Constants) (s : Hub T) (msg : List Nat)
    (len i : Nat) (hlen : 8 ≤ len)
    (h : Access.msg_byte i ∈ process_config_message_accesses k s msg) :
    (Access.msg_byte i).in_bounds (len + 4) = true := by
  rcases msg_reads_bounded k s msg i h with h1 | ⟨_, _, _, h2⟩ <;>
    simp only [Access.in_bounds, decide_eq_true_eq] <;> omega

/-! ## The retry counter at an injection of the enter-configuration command -/

set_option maxRecDepth 100000 in
/-- C20 (the code at the failing input): after `stale_retry_steps` the command
`A0 00` is in front, configuration mode is inactive and the retry counter is
10, the value of `COMMAND_MAX_RETRIES`.  The poll at 1400 ms inserts the
enter-configuration command at the front while the counter is 10, and drops
it in the same command stage as timed out: it is not transmitted once. -/
theorem enter_config_injected_with_spent_retries :
    stale_retry_hub.command_queue_ = [[0xA0, 0x00]] ∧
    stale_retry_hub.configuration_mode_ = false ∧
    stale_retry_hub.command_send_retries_ = 10 ∧
    sample_constants.COMMAND_MAX_RETRIES = 10 ∧
    sent_commands stale_retry_hub.events =
      [[0xFF, 0x00, 0x01, 0x00],
        [0xA0, 0x00], [0xA0, 0x00], [0xA0, 0x00], [0xA0, 0x00], [0xA0, 0x00],
        [0xA0, 0x00], [0xA0, 0x00], [0xA0, 0x00], [0xA0, 0x00], [0xA0, 0x00]] ∧
    (inject_enter_config sample_constants stale_retry_hub).command_queue_ =
      [[0xFF, 0x00, 0x01, 0x00], [0xA0, 0x00]] ∧
    (inject_enter_config sample_constants stale_retry_hub).command_send_retries_ = 10 ∧
    new_events stale_retry_hub (loop targetOps sample_constants 1400 stale_retry_hub) =
      [Event.command_timeout] ∧
    (loop targetOps sample_constants 1400 stale_retry_hub).tx = stale_retry_hub.tx ∧
    (loop targetOps sample_constants 1400 stale_retry_hub).command_queue_ = [[0xA0, 0x00]] := by
  decide

/-! ## `process_config_message` with checked accesses and without them -/

theorem msg_at_of_lt (msg : List Nat) (i : Nat) (h : i < msg.length) :
    msg_at msg i = Except.ok (byteAt msg i) := by
  unfold msg_at byteAt
  rw [List.getD_eq_getElem?_getD, List.get?_eq_getElem?, List.getElem?_eq_getElem h]
  rfl

theorem msg_at_of_ge (msg : List Nat) (i : Nat) (h : msg.length ≤ i) :
    msg_at msg i = Except.error (Fault.msg_index i msg.length) := by
  unfold msg_at
  rw [List.get?_eq_getElem?, List.getElem?_eq_none h]

theorem msg_at_sound (msg : List Nat) (i b : Nat) (h : msg_at msg i = Except.ok b) :
    byteAt msg i = b := by
  by_cases hi : i < msg.length
  · rw [msg_at_of_lt msg i hi] at h
    exact Except.ok.inj h
  · rw [msg_at_of_ge msg i (by omega)] at h
    cases h

theorem success_of_eq (op : Nat) (msg : List Nat) (h : 2 ≤ msg.length) :
    success_of op msg = Except.ok (decide (byteAt msg 0 = op ∧ byteAt msg 1 = 1)) := by
  unfold success_of
  rw [msg_at_of_lt msg 0 (by omega), msg_at_of_lt msg 1 (by omega)]
  by_cases h0 : byteAt msg 0 = op
  · simp [h0, bind, Except.bind]
  · simp [h0, bind, Except.bind]

theorem success_of_sound (op : Nat) (msg : List Nat) (b : Bool)
    (h : success_of op msg = Except.ok b) :
    b = decide (byteAt msg 0 = op ∧ byteAt msg 1 = 1) := by
  unfold success_of at h
  cases h0 : msg_at msg 0 with
  | error f => rw [h0] at h; cases h
  | ok m0 =>
    have e0 := msg_at_sound msg 0 m0 h0
    rw [h0] at h
    by_cases hop : m0 = op
    · cases h1 : msg_at msg 1 with
      | error f => rw [h1] at h; simp [bind, Except.bind, hop] at h
      | ok m1 =>
        have e1 := msg_at_sound msg 1 m1 h1
        rw [h1] at h
        simp [bind, Except.bind, hop] at h
        rw [← h, e0, e1]
        simp [hop]
    · simp [bind, Except.bind, hop] at h
      rw [h, e0]
      simp [hop]

theorem acknowledge_checked_sound {T : Type} (s s1 : Hub T) (msg : List Nat)
    (h : acknowledge_checked s msg = Except.ok s1) : acknowledge s msg = s1 := by
  unfold acknowledge_checked at h
  unfold acknowledge
  cases hq : s.command_queue_ with
  | nil => rw [hq] at h; simp [front_checked, bind, Except.bind] at h
  | cons c rest =>
    rw [hq] at h
    cases c with
    | nil => simp [front_checked, command_at, bind, Except.bind] at h
    | cons c0 cs =>
      cases h0 : msg_at msg 0 with
      | error f => simp [front_checked, command_at, bind, Except.bind, h0] at h
      | ok m0 =>
        have e0 := msg_at_sound msg 0 m0 h0
        by_cases hc : c0 = m0
        · cases h1 : msg_at msg 1 with
          | error f => simp [front_checked, command_at, bind, Except.bind, h0, h1, hc] at h
          | ok m1 =>
            have e1 := msg_at_sound msg 1 m1 h1
            by_cases hm : m1 = 1
            · simp [front_checked, command_at, bind, Except.bind, h0, h1, hc, hm] at h
              simp [opcode, e0, e1, hc, hm, ← h, hq]
            · simp [front_checked, command_at, bind, Except.bind, h0, h1, hc, hm] at h
              simp [opcode, e0, e1, hc, hm, ← h]
        · simp [front_checked, command_at, bind, Except.bind, h0, hc] at h
          simp [opcode, e0, hc, ← h]

theorem track_configuration_mode_checked_sound {T : Type} (k : Constants) (s s1 : Hub T)
    (msg : List Nat) (h : track_configuration_mode_checked k s msg = Except.ok s1) :
    track_configuration_mode k s msg = s1 := by
  unfold track_configuration_mode_checked at h
  unfold track_configuration_mode
  cases he : success_of k.COMMAND_ENTER_CONFIG msg with
  | error f => rw [he] at h; simp [bind, Except.bind] at h
  | ok e =>
    have ee := success_of_sound _ msg e he
    cases hl : success_of k.COMMAND_LEAVE_CONFIG msg with
    | error f => rw [he, hl] at h; simp [bind, Except.bind] at h
    | ok l =>
      have el := success_of_sound _ msg l hl
      rw [he, hl] at h
      simp only [bind, Except.bind] at h
      have h2 := Except.ok.inj h
      rw [← h2, ee, el]
      simp only [decide_eq_true_eq]

theorem report_version_checked_sound {T : Type} (k : Constants) (s s1 : Hub T)
    (msg : List Nat) (h : report_version_checked k s msg = Except.ok s1) :
    report_version k s msg = s1 := by
  unfold report_version_checked at h
  unfold report_version
  cases hv : success_of k.COMMAND_READ_VERSION msg with
  | error f => rw [hv] at h; simp [bind, Except.bind] at h
  | ok v =>
    have ev := success_of_sound _ msg v hv
    rw [hv] at h
    by_cases hver : byteAt msg 0 = k.COMMAND_READ_VERSION ∧ byteAt msg 1 = 1
    · have hvt : v = true := by rw [ev]; exact decide_eq_true hver
      by_cases hl : 12 ≤ msg.length
      · rw [msg_at_of_lt msg 7 (by omega), msg_at_of_lt msg 6 (by omega),
          msg_at_of_lt msg 11 (by omega), msg_at_of_lt msg 10 (by omega),
          msg_at_of_lt msg 9 (by omega), msg_at_of_lt msg 8 (by omega)] at h
        simp only [bind, Except.bind, hvt, if_true] at h
        rw [if_pos hver]
        exact Except.ok.inj h
      · exfalso
        rw [msg_at_of_ge msg 11 (by omega)] at h
        simp only [bind, Except.bind, hvt, if_true] at h
        cases h7 : msg_at msg 7 with
        | error f => rw [h7] at h; cases h
        | ok b7 =>
          rw [h7] at h
          cases h6 : msg_at msg 6 with
          | error f => rw [h6] at h; cases h
          | ok b6 => rw [h6] at h; cases h
    · have hvf : v = false := by rw [ev]; exact decide_eq_false hver
      simp only [bind, Except.bind, hvf] at h
      rw [if_neg hver]
      exact Except.ok.inj h

/-- What `process_config_message` computes with every element access inside
its object is what the function without the checks computes. -/
theorem process_config_message_checked_sound {T : Type} (k : Constants) (s s1 : Hub T)
    (msg : List Nat) (len : Nat)
    (h : process_config_message_checked k s msg len = Except.ok s1) :
    process_config_message k s msg len = s1 := by
  unfold process_config_message_checked at h
  unfold process_config_message
  simp only [] at h ⊢
  cases ha : acknowledge_checked
      { s with events := s.events ++ [Event.process_config_message msg len] } msg with
  | error f => rw [ha] at h; cases h
  | ok a =>
    rw [ha] at h
    simp only [bind, Except.bind] at h
    rw [acknowledge_checked_sound _ a msg ha]
    cases ht : track_configuration_mode_checked k a msg with
    | error f => rw [ht] at h; cases h
    | ok t =>
      rw [ht] at h
      rw [track_configuration_mode_checked_sound k a t msg ht]
      exact report_version_checked_sound k t s1 msg h

theorem acknowledge_checked_eq {T : Type} (s : Hub T) (msg : List Nat) (b : Nat)
    (bs : List Nat) (rest : List (List Nat)) (hq : s.command_queue_ = (b :: bs) :: rest)
    (h : 2 ≤ msg.length) : acknowledge_checked s msg = Except.ok (acknowledge s msg) := by
  unfold acknowledge_checked acknowledge
  rw [msg_at_of_lt msg 0 (by omega), msg_at_of_lt msg 1 (by omega), hq]
  by_cases h0 : b = byteAt msg 0
  · by_cases h1 : byteAt msg 1 = 1
    · simp [front_checked, command_at, opcode, bind, Except.bind, h0, h1]
    · simp [front_checked, command_at, opcode, bind, Except.bind, h0, h1]
  · simp [front_checked, command_at, opcode, bind, Except.bind, h0]

theorem track_configuration_mode_checked_eq {T : Type} (k : Constants) (s : Hub T)
    (msg : List Nat) (h : 2 ≤ msg.length) :
    track_configuration_mode_checked k s msg = Except.ok (track_configuration_mode k s msg) := by
  unfold track_configuration_mode_checked track_configuration_mode
  rw [success_of_eq _ msg h, success_of_eq _ msg h]
  simp only [bind, Except.bind, decide_eq_true_eq]

theorem report_version_checked_eq {T : Type} (k : Constants) (s : Hub T) (msg : List Nat)
    (h : 12 ≤ msg.length ∨
      (2 ≤ msg.length ∧ ¬ (byteAt msg 0 = k.COMMAND_READ_VERSION ∧ byteAt msg 1 = 1))) :
    report_version_checked k s msg = Except.ok (report_version k s msg) := by
  unfold report_version_checked report_version
  rcases h with h | ⟨h, hv⟩
  · rw [success_of_eq _ msg (by omega), msg_at_of_lt msg 7 (by omega),
      msg_at_of_lt msg 6 (by omega), msg_at_of_lt msg 11 (by omega),
      msg_at_of_lt msg 10 (by omega), msg_at_of_lt msg 9 (by omega),
      msg_at_of_lt msg 8 (by omega)]
    by_cases hv : byteAt msg 0 = k.COMMAND_READ_VERSION ∧ byteAt msg 1 = 1
    · simp only [bind, Except.bind, decide_eq_true hv, if_true, if_pos hv]
    · simp only [bind, Except.bind, decide_eq_false hv, if_neg hv]
      rfl
  · rw [success_of_eq _ msg h]
    simp only [bind, Except.bind, decide_eq_false hv, if_neg hv]
    rfl

theorem report_version_checked_short {T : Type} (k : Constants) (s : Hub T) (msg : List Nat)
    (h2 : 2 ≤ msg.length) (h12 : msg.length < 12)
    (hv : byteAt msg 0 = k.COMMAND_READ_VERSION ∧ byteAt msg 1 = 1) :
    report_version_checked k s msg =
      Except.error (Fault.msg_index (if msg.length < 8 then 7 else 11) msg.length) := by
  unfold report_version_checked
  rw [success_of_eq _ msg h2]
  by_cases h8 : msg.length < 8
  · rw [msg_at_of_ge msg 7 (by omega), if_pos h8]
    simp only [bind, Except.bind, decide_eq_true hv, if_true]
  · rw [msg_at_of_lt msg 7 (by omega), msg_at_of_lt msg 6 (by omega),
      msg_at_of_ge msg 11 (by omega), if_neg h8]
    simp only [bind, Except.bind, decide_eq_true hv, if_true]

/-- With a command of at least one byte in front of the queue and a frame
buffer of `len + 4` bytes, every element access of `process_config_message` is
inside its object when the declared length is at least 8 or the frame does not
acknowledge the read-version command. -/
theorem process_config_message_checked_ok {T : Type} (k : Constants) (s : Hub T)
    (msg : List Nat) (len b : Nat) (bs : List Nat) (rest : List (List Nat))
    (hq : s.command_queue_ = (b :: bs) :: rest) (hlen : msg.length = len + 4)
    (h : 8 ≤ len ∨ ¬ (byteAt msg 0 = k.COMMAND_READ_VERSION ∧ byteAt msg 1 = 1)) :
    process_config_message_checked k s msg len =
      Except.ok (process_config_message k s msg len) := by
  unfold process_config_message_checked process_config_message
  simp only []
  rw [acknowledge_checked_eq { s with events := s.events ++ [Event.process_config_message msg len] }
    msg b bs rest hq (by omega)]
  simp only [bind, Except.bind]
  rw [track_configuration_mode_checked_eq k _ msg (by omega)]
  simp only []
  apply report_version_checked_eq
  rcases h with h | h
  · exact Or.inl (by omega)
  · exact Or.inr ⟨by omega, h⟩

/-- With a command of at least one byte in front of the queue and a frame
buffer of `len + 4` bytes, a frame that acknowledges the read-version command
with a declared length below 8 makes `process_config_message` read `msg[7]`
(for a length below 4) or `msg[11]` outside the buffer. -/
theorem version_read_faults {T : Type} (k : Constants) (s : Hub T)
    (msg : List Nat) (len b : Nat) (bs : List Nat) (rest : List (List Nat))
    (hq : s.command_queue_ = (b :: bs) :: rest) (hlen : msg.length = len + 4)
    (hshort : len < 8)
    (hv : byteAt msg 0 = k.COMMAND_READ_VERSION ∧ byteAt msg 1 = 1) :
    process_config_message_checked k s msg len =
      Except.error (Fault.msg_index (if len < 4 then 7 else 11) (len + 4)) := by
  unfold process_config_message_checked
  simp only []
  rw [acknowledge_checked_eq { s with events := s.events ++ [Event.process_config_message msg len] }
    msg b bs rest hq (by omega)]
  simp only [bind, Except.bind]
  rw [track_configuration_mode_checked_eq k _ msg (by omega)]
  simp only []
  rw [report_version_checked_short k _ msg (by omega) (by omega) hv, hlen]
  by_cases h4 : len < 4
  · rw [if_pos h4, if_pos (by omega)]
  · rw [if_neg h4, if_neg (by omega)]

theorem read_config_frame_checked_sound {T : Type} (k : Constants) (s s1 : Hub T)
    (h : read_config_frame_checked k s = Except.ok s1) : read_config_frame k s = s1 := by
  unfold read_config_frame_checked at h
  unfold read_config_frame
  by_cases hl : s.rx.length ≥ s.configuration_message_length_ + 4
  · rw [if_pos hl] at h
    rw [if_pos hl]
    simp only [] at h ⊢
    split_ifs at h ⊢ with hend
    · cases hp : process_config_message_checked k
          { s with rx := s.rx.drop (s.configuration_message_length_ + 4) }
          (s.rx.take (s.configuration_message_length_ + 4))
          s.configuration_message_length_ with
      | error f => rw [hp] at h; cases h
      | ok p =>
        rw [hp] at h
        rw [process_config_message_checked_sound k _ p _ _ hp]
        exact Except.ok.inj h
    · exact Except.ok.inj h
  · rw [if_neg hl] at h
    rw [if_neg hl]
    exact Except.ok.inj h

/-- A `loop()` in which every element access of `process_config_message` is
inside its object ends in the state that `loop` computes. -/
theorem loop_checked_sound {T : Type} (ops : TargetOps T) (k : Constants) (now : Nat)
    (s s1 : Hub T) (h : loop_checked ops k now s = Except.ok s1) : loop ops k now s = s1 := by
  unfold loop_checked receive_stage_checked at h
  unfold loop receive_stage
  simp only [] at h ⊢
  split_ifs at h ⊢ with hr
  · exact Except.ok.inj h
  · unfold config_stage_checked at h
    unfold config_stage
    split_ifs at h ⊢ with hc
    · exact read_config_frame_checked_sound k _ s1 h
    · exact Except.ok.inj h

/-- A run in which every element access of `process_config_message` is inside
its object ends in the state that `run_steps` computes. -/
theorem run_steps_checked_sound {T : Type} (ops : TargetOps T) (k : Constants)
    (steps : List Step) (s s1 : Hub T)
    (h : run_steps_checked ops k steps s = Except.ok s1) : run_steps ops k steps s = s1 := by
  induction steps generalizing s with
  | nil => exact Except.ok.inj h
  | cons a rest ih =>
    unfold run_steps_checked at h
    unfold run_steps
    cases hs : step_checked ops k a s with
    | error f => rw [hs] at h; cases h
    | ok t =>
      rw [hs] at h
      have : step ops k a s = t := by
        cases a with
        | poll p => exact loop_checked_sound ops k p.now _ t hs
        | enqueue c => exact Except.ok.inj hs
      rw [this]
      exact ih t h

theorem process_config_message_checked_of_length {T : Type} (k : Constants) (s : Hub T)
    (msg : List Nat) (len b : Nat) (bs : List Nat) (rest : List (List Nat))
    (hq : s.command_queue_ = (b :: bs) :: rest) (h2 : 2 ≤ msg.length) :
    process_config_message_checked k s msg len =
      report_version_checked k (track_configuration_mode k (acknowledge
        { s with events := s.events ++ [Event.process_config_message msg len] } msg) msg)
        msg := by
  unfold process_config_message_checked
  simp only []
  rw [acknowledge_checked_eq { s with events := s.events ++ [Event.process_config_message msg len] }
    msg b bs rest hq h2]
  simp only [bind, Except.bind]
  rw [track_configuration_mode_checked_eq k _ msg h2]

/-- The list `process_config_message_accesses` and the checked function agree:
on a frame buffer of at least 2 bytes, `process_config_message` runs without a
fault exactly when every access of the list is inside its object. -/
theorem accesses_in_bounds_iff {T : Type} (k : Constants) (s : Hub T) (msg : List Nat)
    (len : Nat) (h2 : 2 ≤ msg.length) :
    fault (process_config_message_checked k s msg len) = none ↔
      ∀ a ∈ process_config_message_accesses k s msg, a.in_bounds msg.length = true := by
  cases hq : s.command_queue_ with
  | nil =>
    have hf : process_config_message_checked k s msg len =
        Except.error Fault.front_of_empty_queue := by
      unfold process_config_message_checked acknowledge_checked
      simp only [hq, front_checked, bind, Except.bind]
    rw [hf]
    constructor
    · intro h
      cases h
    · intro h
      have h0 := h (Access.queue_front 0) (by
        simp [process_config_message_accesses, acknowledge_accesses, hq])
      simp [Access.in_bounds] at h0
  | cons c rest =>
    cases c with
    | nil =>
      have hf : process_config_message_checked k s msg len =
          Except.error (Fault.command_index 0 0) := by
        unfold process_config_message_checked acknowledge_checked
        simp [hq, front_checked, command_at, bind, Except.bind]
      rw [hf]
      constructor
      · intro h
        cases h
      · intro h
        have h0 := h (Access.command_byte 0 0) (by
          simp [process_config_message_accesses, acknowledge_accesses, hq])
        simp [Access.in_bounds] at h0
    | cons b bs =>
      rw [process_config_message_checked_of_length k s msg len b bs rest hq h2]
      by_cases hv : byteAt msg 0 = k.COMMAND_READ_VERSION ∧ byteAt msg 1 = 1
      · by_cases h12 : 12 ≤ msg.length
        · rw [report_version_checked_eq k _ msg (Or.inl h12)]
          constructor
          · intro _ a ha
            cases a with
            | queue_front n =>
              simp [process_config_message_accesses, acknowledge_accesses, ack_test_accesses,
                report_version_accesses, hq] at ha
              simp [Access.in_bounds, ha]
            | command_byte i n =>
              simp [process_config_message_accesses, acknowledge_accesses, ack_test_accesses,
                report_version_accesses, hq] at ha
              simp [Access.in_bounds, ha.1, ha.2]
            | msg_byte i =>
              rcases msg_reads_bounded k s msg i ha with h1 | ⟨_, _, _, h11⟩ <;>
                simp only [Access.in_bounds, decide_eq_true_eq] <;> omega
          · intro _
            rfl
        · rw [report_version_checked_short k _ msg h2 (by omega) hv]
          constructor
          · intro h
            cases h
          · intro h
            have h0 := h (Access.msg_byte 11) (by
              simp [process_config_message_accesses, report_version_accesses, hv])
            simp [Access.in_bounds] at h0
            omega
      · rw [report_version_checked_eq k _ msg (Or.inr ⟨h2, hv⟩)]
        constructor
        · intro _ a ha
          cases a with
          | queue_front n =>
            simp [process_config_message_accesses, acknowledge_accesses, ack_test_accesses,
              report_version_accesses, hq] at ha
            simp [Access.in_bounds, ha]
          | command_byte i n =>
            simp [process_config_message_accesses, acknowledge_accesses, ack_test_accesses,
              report_version_accesses, hq] at ha
            simp [Access.in_bounds, ha.1, ha.2]
          | msg_byte i =>
            rcases msg_reads_bounded k s msg i ha with h1 | ⟨h3, h4, _, _⟩
            · simp only [Access.in_bounds, decide_eq_true_eq]
              omega
            · exact absurd ⟨h3, h4⟩ hv
        · intro _
          rfl

/-! ## Reads of the firmware version outside the frame buffer -/

set_option maxRecDepth 100000 in
/-- C19 (the code at the failing input): the hub has sent the command `A0 00`
in configuration mode and has it in front of its queue; then the frame
`FD FC FB FA 02 00 A0 01 04 03 02 01` arrives, with a valid frame end and the
declared length 2, so that its buffer has 6 bytes.  The poll that decodes it
reads `msg[7]` for the firmware version, outside the buffer. -/
theorem short_version_ack_read_out_of_bounds :
    fault (run_steps_checked targetOps sample_constants version_request_steps
      (initial_hub fresh_targets 250)) = none ∧
    version_pending_hub.command_queue_ = [[0xA0, 0x00]] ∧
    version_pending_hub.configuration_mode_ = true ∧
    sent_commands version_pending_hub.events = [[0xFF, 0x00, 0x01, 0x00], [0xA0, 0x00]] ∧
    short_version_ack =
      [0xFD, 0xFC, 0xFB, 0xFA, 0x02, 0x00, 0xA0, 0x01, 0x04, 0x03, 0x02, 0x01] ∧
    frame_end_valid [0xA0, 0x01, 0x04, 0x03, 0x02, 0x01] 2 ∧
    [0xA0, 0x01, 0x04, 0x03, 0x02, 0x01].length = 2 + 4 ∧
    fault (loop_checked targetOps sample_constants 350
      (receive version_pending_hub short_version_ack)) = some (Fault.msg_index 7 6) ∧
    fault (run_steps_checked targetOps sample_constants
      (version_request_steps ++ [Step.poll ⟨350, short_version_ack⟩])
      (initial_hub fresh_targets 250)) = some (Fault.msg_index 7 6) := by
  unfold frame_end_valid
  decide

end LD2450
